import Mathlib

/-!
Vertex-model force law with growing target areas.

A shallow embedding of `FarhadifarForceWithGrowingTargetAreas` (file
`src/jeremy_green/FarhadifarForceWithGrowingTargetAreas.cpp`) and of the parts of
the vertex mesh it talks to.

Conventions of the embedding:

* `double` is modelled by the exact rationals `ℚ`, so every statement below is a
  statement in exact arithmetic; `c_vector<double, 2>` is `ℚ × ℚ`.
* `unsigned` is a natural number, with the wrap-around at `2 ^ 32` written out where
  the source adds or subtracts.
* `std::set<unsigned>` is `Finset ℕ`; iterating over it visits the elements in
  ascending order (`Finset.sort`).
* A `Node*` is the global index of the node in the mesh's node vector, a
  `VertexElement*` is the element itself.
* The geometry queries of the mesh (area, perimeter, area gradient, next-edge
  gradient) are functions carried by the mesh: they belong to the mesh library, not
  to this repository.
* Assertions are enabled, and a failing `assert` stops the run.  The run's outcome
  keeps the population as it was at that moment together with the kind of failure.
* The mesh has no deleted node or element: `GetNumNodes()` and `GetNumElements()` are
  the lengths of the two vectors and the element iterator yields every element.
-/

namespace Farhadifar

/-- A `c_vector<double, 2>`. -/
abbrev Vec : Type := ℚ × ℚ

/-- Why a run stopped early.  `ConfigurationError` is the failed assertion of line 40
(`dynamic_cast<AreaBasedCellCycleModel*>(...) != NULL`), `TopologyError` the failed
assertion of line 137 (`!shared_elements.empty()`), and `OutOfRange` stands for an
access outside a vector (or a remainder by zero), which the language leaves
undefined. -/
inductive Error where
  | ConfigurationError
  | TopologyError
  | OutOfRange
  deriving DecidableEq, Repr

/-- The cell-cycle model of a cell: either an `AreaBasedCellCycleModel`, which knows
its target area, or any other model. -/
inductive CellCycleModel where
  | AreaBased (mTargetArea : ℚ)
  | Other
  deriving DecidableEq, Repr

/-- A node of the mesh: its location, the indices of the elements that contain it and
the force applied to it so far. -/
structure Node where
  mLocation : Vec
  mContainingElementIndices : Finset ℕ
  mAppliedForce : Vec
  deriving DecidableEq

/-- A vertex element: its index and its nodes (global indices) in loop order. -/
structure VertexElement where
  mIndex : ℕ
  mNodes : List ℕ
  deriving DecidableEq, Repr

/-- The vertex mesh: nodes, elements and the geometry queries the force uses. -/
structure VertexMesh where
  mNodes : List Node
  mElements : List VertexElement
  GetVolumeOfElement : ℕ → ℚ
  GetSurfaceAreaOfElement : ℕ → ℚ
  GetAreaGradientOfElementAtNode : VertexElement → ℕ → Vec
  GetNextEdgeGradientOfElementAtNode : VertexElement → ℕ → Vec

/-- The cell population: the mesh and, for each location index, the cell-cycle model
of the cell that sits there (`GetCellUsingLocationIndex(i)->GetCellCycleModel()`). -/
structure VertexBasedCellPopulation where
  mMesh : VertexMesh
  mCellCycleModels : ℕ → CellCycleModel

/-- The force object: its three coefficients. -/
structure FarhadifarForceWithGrowingTargetAreas where
  mAreaElasticityParameter : ℚ
  mPerimeterContractilityParameter : ℚ
  mLineTensionParameter : ℚ
  deriving DecidableEq, Repr

/-- What a run leaves behind: the population, and the failure if it stopped early. -/
structure Outcome where
  population : VertexBasedCellPopulation
  error : Option Error

/-! ## Unsigned arithmetic -/

/-- The largest `unsigned`. -/
def UINT_MAX : ℕ := 2 ^ 32 - 1

/-- Addition of two `unsigned` values. -/
def uadd (a b : ℕ) : ℕ := (a + b) % 2 ^ 32

/-- Subtraction of two `unsigned` values (both below `2 ^ 32`). -/
def usub (a b : ℕ) : ℕ := (a + 2 ^ 32 - b) % 2 ^ 32

/-! ## Mesh and population queries -/

namespace VertexElement

/-- `GetIndex()`. -/
def GetIndex (e : VertexElement) : ℕ := e.mIndex

/-- `GetNumNodes()`. -/
def GetNumNodes (e : VertexElement) : ℕ := e.mNodes.length

/-- `GetNode(localIndex)`: the node (global index) at a local index. -/
def GetNode (e : VertexElement) (localIndex : ℕ) : Except Error ℕ :=
  match e.mNodes[localIndex]? with
  | some g => .ok g
  | none => .error .OutOfRange

/-- The loop of the mesh library's `GetNodeLocalIndex`: walk the nodes from local index
`i` on, keeping the last local index at which the global index was seen. -/
def GetNodeLocalIndexFrom (globalIndex : ℕ) : List ℕ → ℕ → ℕ → ℕ
  | [], _, local_index => local_index
  | g :: rest, i, local_index =>
      GetNodeLocalIndexFrom globalIndex rest (i + 1) (if g = globalIndex then i else local_index)

/-- `GetNodeLocalIndex(globalIndex)` of the mesh library: the local index of a node in
the element, and `UINT_MAX` when the node is not in the element. -/
def GetNodeLocalIndex (e : VertexElement) (globalIndex : ℕ) : ℕ :=
  GetNodeLocalIndexFrom globalIndex e.mNodes 0 UINT_MAX

end VertexElement

namespace VertexBasedCellPopulation

/-- `GetNumNodes()`. -/
def GetNumNodes (pop : VertexBasedCellPopulation) : ℕ := pop.mMesh.mNodes.length

/-- `GetNumElements()`. -/
def GetNumElements (pop : VertexBasedCellPopulation) : ℕ := pop.mMesh.mElements.length

/-- `GetNode(index)`. -/
def GetNode (pop : VertexBasedCellPopulation) (index : ℕ) : Except Error Node :=
  match pop.mMesh.mNodes[index]? with
  | some node => .ok node
  | none => .error .OutOfRange

/-- `GetElement(index)`. -/
def GetElement (pop : VertexBasedCellPopulation) (index : ℕ) : Except Error VertexElement :=
  match pop.mMesh.mElements[index]? with
  | some e => .ok e
  | none => .error .OutOfRange

/-- `GetNode(index)->AddAppliedForceContribution(force)`: add a force to the applied
force of one node and leave everything else alone. -/
def AddAppliedForceContribution (pop : VertexBasedCellPopulation) (index : ℕ) (force : Vec) :
    VertexBasedCellPopulation :=
  { pop with
    mMesh :=
      { pop.mMesh with
        mNodes := pop.mMesh.mNodes.modify
          (fun node => { node with mAppliedForce := node.mAppliedForce + force }) index } }

/-- The applied force of a node (`rGetAppliedForce()`); zero outside the mesh. -/
def GetAppliedForce (pop : VertexBasedCellPopulation) (index : ℕ) : Vec :=
  match pop.mMesh.mNodes[index]? with
  | some node => node.mAppliedForce
  | none => 0

end VertexBasedCellPopulation

/-! ## The force -/

namespace FarhadifarForceWithGrowingTargetAreas

/-- The constructor (lines 5-12): Case I of Farhadifar's paper. -/
def new : FarhadifarForceWithGrowingTargetAreas :=
  { mAreaElasticityParameter := 1
    mPerimeterContractilityParameter := 4 / 100
    mLineTensionParameter := 12 / 100 }

/-- `GetAreaElasticityParameter()`. -/
def GetAreaElasticityParameter (f : FarhadifarForceWithGrowingTargetAreas) : ℚ :=
  f.mAreaElasticityParameter

/-- `GetPerimeterContractilityParameter()`. -/
def GetPerimeterContractilityParameter (f : FarhadifarForceWithGrowingTargetAreas) : ℚ :=
  f.mPerimeterContractilityParameter

/-- `GetLineTensionParameter()`, the getter without arguments. -/
def GetLineTensionParameter (f : FarhadifarForceWithGrowingTargetAreas) : ℚ :=
  f.mLineTensionParameter

/-- `SetAreaElasticityParameter(areaElasticityParameter)`. -/
def SetAreaElasticityParameter (f : FarhadifarForceWithGrowingTargetAreas)
    (areaElasticityParameter : ℚ) : FarhadifarForceWithGrowingTargetAreas :=
  { f with mAreaElasticityParameter := areaElasticityParameter }

/-- `SetPerimeterContractilityParameter(perimeterContractilityParameter)`. -/
def SetPerimeterContractilityParameter (f : FarhadifarForceWithGrowingTargetAreas)
    (perimeterContractilityParameter : ℚ) : FarhadifarForceWithGrowingTargetAreas :=
  { f with mPerimeterContractilityParameter := perimeterContractilityParameter }

/-- `SetLineTensionParameter(lineTensionParameter)`. -/
def SetLineTensionParameter (f : FarhadifarForceWithGrowingTargetAreas)
    (lineTensionParameter : ℚ) : FarhadifarForceWithGrowingTargetAreas :=
  { f with mLineTensionParameter := lineTensionParameter }

/-- `GetLineTensionParameter(pNodeA, pNodeB, rVertexCellPopulation)` (lines 121-150),
the overload that resolves the tension of one edge.  The population argument is not
used by the source either. -/
def GetLineTensionParameterOfEdge (f : FarhadifarForceWithGrowingTargetAreas)
    (pNodeA pNodeB : Node) (_rVertexCellPopulation : VertexBasedCellPopulation) :
    Except Error ℚ :=
  let elements_containing_nodeA := pNodeA.mContainingElementIndices
  let elements_containing_nodeB := pNodeB.mContainingElementIndices
  let shared_elements := elements_containing_nodeA ∩ elements_containing_nodeB
  if shared_elements = ∅ then
    .error .TopologyError
  else
    let line_tension_parameter_in_calculation := f.GetLineTensionParameter / 2
    if shared_elements.card = 1 then
      .ok f.GetLineTensionParameter
    else
      .ok line_tension_parameter_in_calculation

/-- The three tables of lines 28-30, each a `std::vector<double>(num_elements)`. -/
structure Snapshot where
  element_areas : List ℚ
  element_perimeters : List ℚ
  target_areas : List ℚ
  deriving DecidableEq, Repr

/-- The tables as they are created: `num_elements` zeros each. -/
def Snapshot.init (num_elements : ℕ) : Snapshot :=
  { element_areas := List.replicate num_elements 0
    element_perimeters := List.replicate num_elements 0
    target_areas := List.replicate num_elements 0 }

/-- The three running sums of lines 63-65. -/
structure Contributions where
  area_elasticity_contribution : Vec
  perimeter_contractility_contribution : Vec
  line_tension_contribution : Vec
  deriving DecidableEq

/-- The running sums as they start: three zero vectors. -/
def Contributions.zero : Contributions :=
  { area_elasticity_contribution := 0
    perimeter_contractility_contribution := 0
    line_tension_contribution := 0 }

/-- Line 116: the force on the node is the sum of the three running sums. -/
def Contributions.force_on_node (acc : Contributions) : Vec :=
  acc.area_elasticity_contribution + acc.perimeter_contractility_contribution
    + acc.line_tension_contribution

/-- Read one entry of a table; outside the table the access is undefined. -/
def readTable (table : List ℚ) (index : ℕ) : Except Error ℚ :=
  match table[index]? with
  | some x => .ok x
  | none => .error .OutOfRange

/-- The body of the first loop (lines 35-43) for one element. -/
def snapshotStep (pop : VertexBasedCellPopulation) (snap : Snapshot) (elem : VertexElement) :
    Except Error Snapshot :=
  let elem_index := elem.GetIndex
  if elem_index < snap.element_areas.length ∧ elem_index < snap.element_perimeters.length then
    let element_areas := snap.element_areas.set elem_index (pop.mMesh.GetVolumeOfElement elem_index)
    let element_perimeters :=
      snap.element_perimeters.set elem_index (pop.mMesh.GetSurfaceAreaOfElement elem_index)
    match pop.mCellCycleModels elem_index with
    | .AreaBased target_area =>
        if elem_index < snap.target_areas.length then
          .ok { element_areas := element_areas
                element_perimeters := element_perimeters
                target_areas := snap.target_areas.set elem_index target_area }
        else
          .error .OutOfRange
    | .Other => .error .ConfigurationError
  else
    .error .OutOfRange

/-- The first loop (lines 31-44) over the elements the iterator yields. -/
def snapshotLoop (pop : VertexBasedCellPopulation) :
    List VertexElement → Snapshot → Except Error Snapshot
  | [], snap => .ok snap
  | elem :: rest, snap =>
      match snapshotStep pop snap elem with
      | .ok snap1 => snapshotLoop pop rest snap1
      | .error err => .error err

/-- Line 90: `(num_nodes_elem+local_index-1)%num_nodes_elem`, evaluated from left to
right in `unsigned` arithmetic. -/
def previous_node_local_index (num_nodes_elem local_index : ℕ) : ℕ :=
  usub (uadd num_nodes_elem local_index) 1 % num_nodes_elem

/-- Line 93: `(local_index+1)%num_nodes_elem`, in `unsigned` arithmetic. -/
def next_node_local_index (num_nodes_elem local_index : ℕ) : ℕ :=
  uadd local_index 1 % num_nodes_elem

/-- The body of the inner loop (lines 75-113) for one containing element `iter` of the
node `node_index`. -/
def elementStep (f : FarhadifarForceWithGrowingTargetAreas) (pop : VertexBasedCellPopulation)
    (snap : Snapshot) (node_index : ℕ) (p_this_node : Node) (acc : Contributions) (iter : ℕ) :
    Except Error Contributions := do
  let p_element ← pop.GetElement iter
  let elem_index := p_element.GetIndex
  let num_nodes_elem := p_element.GetNumNodes
  let local_index := p_element.GetNodeLocalIndex node_index
  let element_area_gradient := pop.mMesh.GetAreaGradientOfElementAtNode p_element local_index
  let area ← readTable snap.element_areas elem_index
  let target_area ← readTable snap.target_areas elem_index
  let area_elasticity_contribution := acc.area_elasticity_contribution
    - (f.GetAreaElasticityParameter * (area - target_area)) • element_area_gradient
  if num_nodes_elem = 0 then
    .error .OutOfRange
  else
    let previous_node_local_index :=
      FarhadifarForceWithGrowingTargetAreas.previous_node_local_index num_nodes_elem local_index
    let previous_node_index ← p_element.GetNode previous_node_local_index
    let p_previous_node ← pop.GetNode previous_node_index
    let next_node_local_index :=
      FarhadifarForceWithGrowingTargetAreas.next_node_local_index num_nodes_elem local_index
    let next_node_index ← p_element.GetNode next_node_local_index
    let p_next_node ← pop.GetNode next_node_index
    let previous_edge_line_tension_parameter ←
      f.GetLineTensionParameterOfEdge p_previous_node p_this_node pop
    let next_edge_line_tension_parameter ←
      f.GetLineTensionParameterOfEdge p_this_node p_next_node pop
    let previous_edge_gradient :=
      -pop.mMesh.GetNextEdgeGradientOfElementAtNode p_element previous_node_local_index
    let next_edge_gradient := pop.mMesh.GetNextEdgeGradientOfElementAtNode p_element local_index
    let line_tension_contribution := acc.line_tension_contribution
      - (previous_edge_line_tension_parameter • previous_edge_gradient
          + next_edge_line_tension_parameter • next_edge_gradient)
    let element_perimeter_gradient := previous_edge_gradient + next_edge_gradient
    let perimeter ← readTable snap.element_perimeters elem_index
    let perimeter_contractility_contribution := acc.perimeter_contractility_contribution
      - (f.GetPerimeterContractilityParameter * perimeter) • element_perimeter_gradient
    pure { area_elasticity_contribution := area_elasticity_contribution
           perimeter_contractility_contribution := perimeter_contractility_contribution
           line_tension_contribution := line_tension_contribution }

/-- The inner loop (lines 71-114) over the containing elements, in iteration order. -/
def elementLoop (f : FarhadifarForceWithGrowingTargetAreas) (pop : VertexBasedCellPopulation)
    (snap : Snapshot) (node_index : ℕ) (p_this_node : Node) :
    List ℕ → Contributions → Except Error Contributions
  | [], acc => .ok acc
  | iter :: rest, acc =>
      match elementStep f pop snap node_index p_this_node acc iter with
      | .ok acc1 => elementLoop f pop snap node_index p_this_node rest acc1
      | .error err => .error err

/-- Lines 49-114 for one node: the three running sums once every containing element
has been visited. -/
def nodeContributions (f : FarhadifarForceWithGrowingTargetAreas)
    (pop : VertexBasedCellPopulation) (snap : Snapshot) (node_index : ℕ) :
    Except Error Contributions := do
  let p_this_node ← pop.GetNode node_index
  let containing_elem_indices := p_this_node.mContainingElementIndices
  elementLoop f pop snap node_index p_this_node
    (containing_elem_indices.sort (· ≤ ·)) Contributions.zero

/-- The second loop (lines 47-118) over the node indices still to visit. -/
def nodeLoop (f : FarhadifarForceWithGrowingTargetAreas) (snap : Snapshot) :
    List ℕ → VertexBasedCellPopulation → Outcome
  | [], pop => { population := pop, error := none }
  | node_index :: rest, pop =>
      match nodeContributions f pop snap node_index with
      | .ok acc =>
          nodeLoop f snap rest (pop.AddAppliedForceContribution node_index acc.force_on_node)
      | .error err => { population := pop, error := some err }

/-- `AddForceContribution(rCellPopulation)` (lines 19-119). -/
def AddForceContribution (f : FarhadifarForceWithGrowingTargetAreas)
    (rCellPopulation : VertexBasedCellPopulation) : Outcome :=
  let num_nodes := rCellPopulation.GetNumNodes
  let num_elements := rCellPopulation.GetNumElements
  match snapshotLoop rCellPopulation rCellPopulation.mMesh.mElements
      (Snapshot.init num_elements) with
  | .error err => { population := rCellPopulation, error := some err }
  | .ok snap => nodeLoop f snap (List.range num_nodes) rCellPopulation

/-- The three running sums of one node in a whole evaluation: the first loop followed
by the visit of that node. -/
def evalContributions (f : FarhadifarForceWithGrowingTargetAreas)
    (pop : VertexBasedCellPopulation) (node_index : ℕ) : Except Error Contributions :=
  match snapshotLoop pop pop.mMesh.mElements (Snapshot.init pop.GetNumElements) with
  | .error err => .error err
  | .ok snap => nodeContributions f pop snap node_index

end FarhadifarForceWithGrowingTargetAreas

/-! ## Well-formed meshes and the force law in the words of the specification -/

instance : Inhabited Node := ⟨{ mLocation := 0, mContainingElementIndices := ∅, mAppliedForce := 0 }⟩

instance : Inhabited VertexElement := ⟨{ mIndex := 0, mNodes := [] }⟩

/-- The node with a given global index (a default node outside the mesh). -/
def nodeAt (pop : VertexBasedCellPopulation) (index : ℕ) : Node :=
  pop.mMesh.mNodes.getD index default

/-- The element at a given position of the element vector (a default element outside). -/
def elementAt (pop : VertexBasedCellPopulation) (index : ℕ) : VertexElement :=
  pop.mMesh.mElements.getD index default

/-- The incident-cell set of a vertex. -/
def incidentCells (pop : VertexBasedCellPopulation) (v : ℕ) : Finset ℕ :=
  (nodeAt pop v).mContainingElementIndices

/-- The target area of the cell at a location index (zero if the cell has none). -/
def targetAreaOf (pop : VertexBasedCellPopulation) (index : ℕ) : ℚ :=
  match pop.mCellCycleModels index with
  | .AreaBased target_area => target_area
  | .Other => 0

/-- Every cell of the population is growth-capable: the cell of every element has an
`AreaBasedCellCycleModel`. -/
def GrowthCapable (pop : VertexBasedCellPopulation) : Prop :=
  ∀ e ∈ pop.mMesh.mElements, pop.mCellCycleModels e.GetIndex ≠ .Other

instance (pop : VertexBasedCellPopulation) : Decidable (GrowthCapable pop) := by
  unfold GrowthCapable; infer_instance

/-- The index of every element is below the number of elements, the size of the three
tables. -/
def TablesInRange (pop : VertexBasedCellPopulation) : Prop :=
  ∀ e ∈ pop.mMesh.mElements, e.GetIndex < pop.GetNumElements

instance (pop : VertexBasedCellPopulation) : Decidable (TablesInRange pop) := by
  unfold TablesInRange; infer_instance

/-- The structural invariants of a vertex mesh that the force relies on:
the tables are large enough for every element index; every index in a node's
incident-cell set names an element whose loop contains the node; every node of an
element's loop is a node of the mesh whose incident-cell set contains the element; and
the loops are short enough for the `unsigned` sums of local indices not to wrap. -/
def ValidMesh (pop : VertexBasedCellPopulation) : Prop :=
  TablesInRange pop
  ∧ (∀ v < pop.GetNumNodes, ∀ c ∈ incidentCells pop v,
      c < pop.GetNumElements ∧ v ∈ (elementAt pop c).mNodes)
  ∧ (∀ c < pop.GetNumElements, ∀ g ∈ (elementAt pop c).mNodes,
      g < pop.GetNumNodes ∧ c ∈ incidentCells pop g)
  ∧ (∀ e ∈ pop.mMesh.mElements, e.GetNumNodes < 2 ^ 31)

instance (pop : VertexBasedCellPopulation) : Decidable (ValidMesh pop) := by
  unfold ValidMesh; infer_instance

/-- The element stored at position `c` carries the index `c`. -/
def IndexConsistent (pop : VertexBasedCellPopulation) : Prop :=
  ∀ c < pop.GetNumElements, (elementAt pop c).GetIndex = c

instance (pop : VertexBasedCellPopulation) : Decidable (IndexConsistent pop) := by
  unfold IndexConsistent; infer_instance

/-- No loop visits a vertex twice. -/
def SimpleLoops (pop : VertexBasedCellPopulation) : Prop :=
  ∀ e ∈ pop.mMesh.mElements, e.mNodes.Nodup

instance (pop : VertexBasedCellPopulation) : Decidable (SimpleLoops pop) := by
  unfold SimpleLoops; infer_instance

/-- The area-gradient provider is translation invariant: the area gradients of an
element over the local indices of its loop sum to zero. -/
def TranslationInvariantArea (pop : VertexBasedCellPopulation) : Prop :=
  ∀ e ∈ pop.mMesh.mElements,
    ∑ i ∈ Finset.range e.GetNumNodes, pop.mMesh.GetAreaGradientOfElementAtNode e i = 0

namespace Spec

/-- The local index of the predecessor in a loop of `n` vertices. -/
def predecessor (n i : ℕ) : ℕ := (n + i - 1) % n

/-- The local index of the successor in a loop of `n` vertices. -/
def successor (n i : ℕ) : ℕ := (i + 1) % n

/-- The resolver's value for an edge (zero where the resolver fails). -/
def tension (f : FarhadifarForceWithGrowingTargetAreas) (pop : VertexBasedCellPopulation)
    (a b : ℕ) : ℚ :=
  match f.GetLineTensionParameterOfEdge (nodeAt pop a) (nodeAt pop b) pop with
  | .ok t => t
  | .error _ => 0

/-- The edge-length gradient at `v` of the edge from `v` to its successor in cell `c`. -/
def grad_s (pop : VertexBasedCellPopulation) (v c : ℕ) : Vec :=
  let e := elementAt pop c
  pop.mMesh.GetNextEdgeGradientOfElementAtNode e (e.GetNodeLocalIndex v)

/-- The edge-length gradient at `v` of the edge from its predecessor to `v` in cell `c`:
the negation of the next-edge gradient at the predecessor's local index. -/
def grad_p (pop : VertexBasedCellPopulation) (v c : ℕ) : Vec :=
  let e := elementAt pop c;
  -pop.mMesh.GetNextEdgeGradientOfElementAtNode e
    (predecessor e.GetNumNodes (e.GetNodeLocalIndex v))

/-- The predecessor vertex of `v` in the loop of cell `c`. -/
def predecessorVertex (pop : VertexBasedCellPopulation) (v c : ℕ) : ℕ :=
  let e := elementAt pop c
  e.mNodes.getD (predecessor e.GetNumNodes (e.GetNodeLocalIndex v)) 0

/-- The successor vertex of `v` in the loop of cell `c`. -/
def successorVertex (pop : VertexBasedCellPopulation) (v c : ℕ) : ℕ :=
  let e := elementAt pop c
  e.mNodes.getD (successor e.GetNumNodes (e.GetNodeLocalIndex v)) 0

/-- Step 2b: `-k_area * (Area_c - TargetArea_c) * gradArea_c(v)`. -/
def areaTerm (f : FarhadifarForceWithGrowingTargetAreas) (pop : VertexBasedCellPopulation)
    (v c : ℕ) : Vec :=
  let e := elementAt pop c;
  -((f.mAreaElasticityParameter
      * (pop.mMesh.GetVolumeOfElement e.GetIndex - targetAreaOf pop e.GetIndex))
    • pop.mMesh.GetAreaGradientOfElementAtNode e (e.GetNodeLocalIndex v))

/-- Step 2e: `-k_perim * Perimeter_c * (grad_p + grad_s)`. -/
def perimeterTerm (f : FarhadifarForceWithGrowingTargetAreas) (pop : VertexBasedCellPopulation)
    (v c : ℕ) : Vec :=
  let e := elementAt pop c;
  -((f.mPerimeterContractilityParameter * pop.mMesh.GetSurfaceAreaOfElement e.GetIndex)
    • (grad_p pop v c + grad_s pop v c))

/-- Step 2d: `-(tension_p * grad_p + tension_s * grad_s)`. -/
def tensionTerm (f : FarhadifarForceWithGrowingTargetAreas) (pop : VertexBasedCellPopulation)
    (v c : ℕ) : Vec :=
  -(tension f pop (predecessorVertex pop v c) v • grad_p pop v c
    + tension f pop v (successorVertex pop v c) • grad_s pop v c)

/-- What one incident cell `c` contributes to the force on `v`. -/
def cellTerm (f : FarhadifarForceWithGrowingTargetAreas) (pop : VertexBasedCellPopulation)
    (v c : ℕ) : Vec :=
  areaTerm f pop v c + perimeterTerm f pop v c + tensionTerm f pop v c

/-- The force on a vertex: the sum of the terms of its incident cells. -/
def force (f : FarhadifarForceWithGrowingTargetAreas) (pop : VertexBasedCellPopulation)
    (v : ℕ) : Vec :=
  ∑ c ∈ incidentCells pop v, cellTerm f pop v c

end Spec

/-! ## Notions used to state the theorems -/

/-- Two populations that differ at most in the forces applied to their nodes: same
elements, same geometry queries, same cell-cycle models, and node by node the same
location and the same incident-cell set. -/
def SameUpToForces (pop pop' : VertexBasedCellPopulation) : Prop :=
  pop'.mMesh.mElements = pop.mMesh.mElements
  ∧ pop'.mMesh.GetVolumeOfElement = pop.mMesh.GetVolumeOfElement
  ∧ pop'.mMesh.GetSurfaceAreaOfElement = pop.mMesh.GetSurfaceAreaOfElement
  ∧ pop'.mMesh.GetAreaGradientOfElementAtNode = pop.mMesh.GetAreaGradientOfElementAtNode
  ∧ pop'.mMesh.GetNextEdgeGradientOfElementAtNode = pop.mMesh.GetNextEdgeGradientOfElementAtNode
  ∧ pop'.mCellCycleModels = pop.mCellCycleModels
  ∧ pop'.mMesh.mNodes.map (fun node => (node.mLocation, node.mContainingElementIndices))
      = pop.mMesh.mNodes.map (fun node => (node.mLocation, node.mContainingElementIndices))

/-- The tables hold, at index `j`, the area, the perimeter and the target area that the
mesh and the cell at `j` report. -/
def Snapshot.AgreesAt (pop : VertexBasedCellPopulation)
    (snap : FarhadifarForceWithGrowingTargetAreas.Snapshot) (j : ℕ) : Prop :=
  snap.element_areas[j]? = some (pop.mMesh.GetVolumeOfElement j)
  ∧ snap.element_perimeters[j]? = some (pop.mMesh.GetSurfaceAreaOfElement j)
  ∧ snap.target_areas[j]? = some (targetAreaOf pop j)

/-- The three tables have `n` entries each. -/
def Snapshot.HasSize (snap : FarhadifarForceWithGrowingTargetAreas.Snapshot) (n : ℕ) : Prop :=
  snap.element_areas.length = n ∧ snap.element_perimeters.length = n
  ∧ snap.target_areas.length = n

/-- The force the second loop computes for a node (zero if the visit fails). -/
def nodeForce (f : FarhadifarForceWithGrowingTargetAreas) (pop : VertexBasedCellPopulation)
    (snap : FarhadifarForceWithGrowingTargetAreas.Snapshot) (node_index : ℕ) : Vec :=
  match FarhadifarForceWithGrowingTargetAreas.nodeContributions f pop snap node_index with
  | .ok acc => acc.force_on_node
  | .error _ => 0

instance (pop : VertexBasedCellPopulation) : Decidable (TranslationInvariantArea pop) := by
  unfold TranslationInvariantArea; infer_instance

/-- The population with the target area of the cell at location index `k` set to `T`;
nothing else is changed. -/
def withTargetArea (pop : VertexBasedCellPopulation) (k : ℕ) (T : ℚ) :
    VertexBasedCellPopulation :=
  { pop with mCellCycleModels := Function.update pop.mCellCycleModels k (.AreaBased T) }

/-- The inner product of two vectors. -/
def inner_prod (a b : Vec) : ℚ := a.1 * b.1 + a.2 * b.2

/-! ## Polygon geometry and example meshes -/

namespace Example

/-- Modelled from the spec: the mesh library's polygon area is not part of the
sources; section 4.1 names it as the shoelace (cross-product) sum over the ordered
vertices of the loop. -/
def shoelaceArea (loop : List Vec) : ℚ :=
  (1 / 2) * ∑ i ∈ Finset.range loop.length,
    ((loop.getD i 0).1 * (loop.getD ((i + 1) % loop.length) 0).2
      - (loop.getD ((i + 1) % loop.length) 0).1 * (loop.getD i 0).2)

/-- Modelled from the spec: the mesh library's area gradient is not part of the
sources; it is the gradient of the shoelace area with respect to the vertex at local
index `i`, namely half of `(y_next - y_prev, x_prev - x_next)`. -/
def shoelaceAreaGradient (loop : List Vec) (i : ℕ) : Vec :=
  let prev := loop.getD ((loop.length + i - 1) % loop.length) 0
  let next := loop.getD ((i + 1) % loop.length) 0
  ((1 / 2) * (next.2 - prev.2), (1 / 2) * (prev.1 - next.1))

/-- The loop with the vertex at local index `i` moved by `d`. -/
def moveVertex (loop : List Vec) (i : ℕ) (d : Vec) : List Vec :=
  loop.modify (fun x => x + d) i

/-- The locations of the vertices of a loop. -/
def loopLocations (nodes : List Node) (e : VertexElement) : List Vec :=
  e.mNodes.map (fun g => (nodes.getD g default).mLocation)

/-- Modelled from the spec: a mesh whose geometry queries follow the polygon formulas
of section 4.1, for loops all of whose edges have length one (so that the length of an
edge needs no square root): the area is the shoelace area, the perimeter the number
of edges, the area gradient the shoelace gradient, and the gradient of the length of
the edge from local index `i` to its successor, taken at `i`, is the unit vector
`x_i - x_next`. -/
def unitEdgeMesh (nodes : List Node) (elements : List VertexElement) : VertexMesh :=
  { mNodes := nodes
    mElements := elements
    GetVolumeOfElement := fun index =>
      shoelaceArea (loopLocations nodes (elements.getD index default))
    GetSurfaceAreaOfElement := fun index => ((elements.getD index default).mNodes.length : ℚ)
    GetAreaGradientOfElementAtNode := fun e i => shoelaceAreaGradient (loopLocations nodes e) i
    GetNextEdgeGradientOfElementAtNode := fun e i =>
      (loopLocations nodes e).getD i 0
        - (loopLocations nodes e).getD ((i + 1) % e.mNodes.length) 0 }

/-- A node at a location, with its incident cells and no force applied yet. -/
def mkNode (x y : ℚ) (cells : List ℕ) : Node :=
  { mLocation := (x, y), mContainingElementIndices := cells.toFinset, mAppliedForce := 0 }

/-- The single square cell with loop (0,0), (1,0), (1,1), (0,1). -/
def squareNodes : List Node :=
  [mkNode 0 0 [0], mkNode 1 0 [0], mkNode 1 1 [0], mkNode 0 1 [0]]

/-- The loop of the square. -/
def squareElements : List VertexElement := [{ mIndex := 0, mNodes := [0, 1, 2, 3] }]

/-- The population of the single square cell, with a given target area. -/
def square (target_area : ℚ) : VertexBasedCellPopulation :=
  { mMesh := unitEdgeMesh squareNodes squareElements
    mCellCycleModels := fun _ => .AreaBased target_area }

/-- Two unit squares side by side, sharing the edge between the nodes 1 and 4. -/
def twoSquaresNodes : List Node :=
  [mkNode 0 0 [0], mkNode 1 0 [0, 1], mkNode 2 0 [1], mkNode 2 1 [1], mkNode 1 1 [0, 1],
   mkNode 0 1 [0]]

/-- The loops of the two squares. -/
def twoSquaresElements : List VertexElement :=
  [{ mIndex := 0, mNodes := [0, 1, 4, 5] }, { mIndex := 1, mNodes := [1, 2, 3, 4] }]

/-- The population of the two squares, every cell with target area one. -/
def twoSquares : VertexBasedCellPopulation :=
  { mMesh := unitEdgeMesh twoSquaresNodes twoSquaresElements
    mCellCycleModels := fun _ => .AreaBased 1 }

/-- The two squares with a corrupted adjacency: node 2 has lost its incident cell. -/
def brokenNodes : List Node :=
  [mkNode 0 0 [0], mkNode 1 0 [0, 1], mkNode 2 0 [], mkNode 2 1 [1], mkNode 1 1 [0, 1],
   mkNode 0 1 [0]]

/-- The population of the two squares with the corrupted adjacency. -/
def broken : VertexBasedCellPopulation :=
  { mMesh := unitEdgeMesh brokenNodes twoSquaresElements
    mCellCycleModels := fun _ => .AreaBased 1 }

/-- A node whose incident cells are the three cells 0, 1 and 2. -/
def threeCellNode : Node := mkNode 0 0 [0, 1, 2]

/-- The two squares where the cell of element 1 has a cell-cycle model that is not
area-based. -/
def twoSquaresOneIncapable : VertexBasedCellPopulation :=
  { mMesh := unitEdgeMesh twoSquaresNodes twoSquaresElements
    mCellCycleModels := fun i => if i = 1 then .Other else .AreaBased 1 }

/-- The locations of the loop of the square: (0,0), (1,0), (1,1), (0,1). -/
def squareLoop : List Vec := loopLocations squareNodes (squareElements.getD 0 default)

/-- The centre of the square. -/
def squareCentre : Vec := (1 / 2, 1 / 2)

/-- The area-elasticity forces claimed for the four vertices of the square when
`k_area` is one. -/
def squareShrinkingForces : List Vec :=
  [(1 / 4, 1 / 4), (-1 / 4, 1 / 4), (-1 / 4, -1 / 4), (1 / 4, -1 / 4)]

end Example

/-! ## Calls on the force object -/

/-- A call of one of the three setters, with its argument. -/
inductive SetterCall where
  | SetAreaElasticityParameter (areaElasticityParameter : ℚ)
  | SetPerimeterContractilityParameter (perimeterContractilityParameter : ℚ)
  | SetLineTensionParameter (lineTensionParameter : ℚ)
  deriving DecidableEq, Repr

/-- The argument of a setter call. -/
def SetterCall.argument : SetterCall → ℚ
  | .SetAreaElasticityParameter x => x
  | .SetPerimeterContractilityParameter x => x
  | .SetLineTensionParameter x => x

/-- The force object after one setter call. -/
def SetterCall.apply (f : FarhadifarForceWithGrowingTargetAreas) :
    SetterCall → FarhadifarForceWithGrowingTargetAreas
  | .SetAreaElasticityParameter x => f.SetAreaElasticityParameter x
  | .SetPerimeterContractilityParameter x => f.SetPerimeterContractilityParameter x
  | .SetLineTensionParameter x => f.SetLineTensionParameter x

/-- The force object reached from construction by a sequence of setter calls. -/
def afterSetterCalls (calls : List SetterCall) : FarhadifarForceWithGrowingTargetAreas :=
  calls.foldl SetterCall.apply FarhadifarForceWithGrowingTargetAreas.new

/-- Everything a call of the member function `AddForceContribution` can reach: the
force object it is called on and the population it is given. -/
structure CallState where
  force : FarhadifarForceWithGrowingTargetAreas
  population : VertexBasedCellPopulation

/-- A call of `AddForceContribution` seen as a step on the whole state.  The body
(lines 19-119) reads the three coefficients through the getters and assigns to no
member, so the force object is handed on as it is. -/
def CallState.AddForceContribution (s : CallState) : CallState × Option Error :=
  let out := s.force.AddForceContribution s.population
  ({ force := s.force, population := out.population }, out.error)

/-- The force a run delivers to a node: the growth of the applied force of the node. -/
def deliveredForce (f : FarhadifarForceWithGrowingTargetAreas)
    (pop : VertexBasedCellPopulation) (v : ℕ) : Vec :=
  (f.AddForceContribution pop).population.GetAppliedForce v - pop.GetAppliedForce v


/-- The default force about to be called on the two squares. -/
def Example.twoSquaresCall : CallState :=
  { force := FarhadifarForceWithGrowingTargetAreas.new, population := Example.twoSquares }


/-! ## Serialization of `CircularBoundaryCondition`

The header `src/mukul_tewary/CircularBoundaryCondition.hpp` defines
`save_construct_data` and `load_construct_data`; the constructor and the getters of the
class are declared there but defined elsewhere, so the class is a parameter here.  An
archive is the sequence of the values written to it; a pointer to a cell population is
written as the population itself, which the archive library saves and restores. -/

namespace CircularBoundaryCondition

/-- One value in an archive: a cell population written through its pointer, or a
`double`. -/
inductive ArchiveItem (Pop : Type) where
  | population (p : Pop)
  | double (x : ℚ)
  deriving DecidableEq, Repr

/-- An archive: the values written so far, oldest first; reading takes them from the
front. -/
abbrev Archive (Pop : Type) : Type := List (ArchiveItem Pop)

/-- The class `CircularBoundaryCondition` as the header declares it: the constructor
`CircularBoundaryCondition(pCellPopulation, centre, radius)` and the getters
`GetCellPopulation()`, `rGetCentreOfCircle()` and `GetRadiusOfCircle()`.  Their bodies
are not part of the sources. -/
structure Class (Pop : Type) where
  Object : Type
  construct : Pop → Vec → ℚ → Object
  GetCellPopulation : Object → Pop
  rGetCentreOfCircle : Object → Vec
  GetRadiusOfCircle : Object → ℚ

/-- `ar << x`: append a value to the archive. -/
def write {Pop : Type} (ar : Archive Pop) (x : ArchiveItem Pop) : Archive Pop := ar ++ [x]

/-- `ar >> p_cell_population`: read the next value as a cell population. -/
def readPopulation {Pop : Type} : Archive Pop → Option (Pop × Archive Pop)
  | .population p :: rest => some (p, rest)
  | _ => none

/-- `ar >> x` for a `double`: read the next value as a `double`. -/
def readDouble {Pop : Type} : Archive Pop → Option (ℚ × Archive Pop)
  | .double x :: rest => some (x, rest)
  | _ => none

/-- `save_construct_data(ar, t, file_version)` (lines 48-61): write the population, the
two coordinates of the centre and the radius, in this order. -/
def save_construct_data {Pop : Type} (C : Class Pop) (ar : Archive Pop) (t : C.Object) :
    Archive Pop :=
  let p_cell_population := C.GetCellPopulation t
  let ar1 := write ar (.population p_cell_population)
  let point := C.rGetCentreOfCircle t
  let ar2 := write ar1 (.double point.1)
  let ar3 := write ar2 (.double point.2)
  let radius := C.GetRadiusOfCircle t
  write ar3 (.double radius)

/-- `load_construct_data(ar, t, file_version)` (lines 63-78): read the population, the
two coordinates of the centre and the radius, in this order, and construct the boundary
condition from them.  The result is the object constructed and the rest of the archive;
it is `none` when the archive does not hold the value asked for. -/
def load_construct_data {Pop : Type} (C : Class Pop) (ar : Archive Pop) :
    Option (C.Object × Archive Pop) :=
  match readPopulation ar with
  | none => none
  | some (p_cell_population, ar1) =>
    match readDouble ar1 with
    | none => none
    | some (point0, ar2) =>
      match readDouble ar2 with
      | none => none
      | some (point1, ar3) =>
        match readDouble ar3 with
        | none => none
        | some (radius, ar4) => some (C.construct p_cell_population (point0, point1) radius, ar4)

/-- A boundary condition that is nothing but the three values it was constructed from. -/
structure Plain (Pop : Type) where
  mpCellPopulation : Pop
  mCentreOfCircle : Vec
  mRadiusOfCircle : ℚ

/-- The class whose constructor stores its three arguments and whose getters return
them. -/
def plainClass (Pop : Type) : Class Pop :=
  { Object := Plain Pop
    construct := fun p centre radius =>
      { mpCellPopulation := p, mCentreOfCircle := centre, mRadiusOfCircle := radius }
    GetCellPopulation := fun t => t.mpCellPopulation
    rGetCentreOfCircle := fun t => t.mCentreOfCircle
    GetRadiusOfCircle := fun t => t.mRadiusOfCircle }

/-- A boundary condition of the plain class on the population number 7: centre (1, 2),
radius 3. -/
def examplePlain : (plainClass ℕ).Object :=
  (plainClass ℕ).construct 7 (1, 2) 3

end CircularBoundaryCondition


/-! # Lemmas and theorems -/

section Resolver

open FarhadifarForceWithGrowingTargetAreas

/-- The resolver on a non-empty intersection: the full coefficient for one shared cell,
half of it otherwise. -/
theorem GetLineTensionParameterOfEdge_of_nonempty (f : FarhadifarForceWithGrowingTargetAreas)
    (A B : Node) (pop : VertexBasedCellPopulation)
    (h : A.mContainingElementIndices ∩ B.mContainingElementIndices ≠ ∅) :
    f.GetLineTensionParameterOfEdge A B pop
      = .ok (if (A.mContainingElementIndices ∩ B.mContainingElementIndices).card = 1
          then f.mLineTensionParameter else f.mLineTensionParameter / 2) := by
  unfold GetLineTensionParameterOfEdge GetLineTensionParameter
  simp only [h, if_false]
  split <;> rfl

/-- C2.  For every pair of nodes whose sets of incident-cell indices intersect in
exactly two cells, `GetLineTensionParameter(A, B, population)` returns `L / 2`, where
`L` is the current line tension coefficient of the force. -/
theorem C2_internal_edge_half_tension (f : FarhadifarForceWithGrowingTargetAreas)
    (A B : Node) (pop : VertexBasedCellPopulation)
    (h : (A.mContainingElementIndices ∩ B.mContainingElementIndices).card = 2) :
    f.GetLineTensionParameterOfEdge A B pop = .ok (f.GetLineTensionParameter / 2) := by
  have hne : A.mContainingElementIndices ∩ B.mContainingElementIndices ≠ ∅ := by
    intro h0
    rw [h0] at h
    simp at h
  rw [GetLineTensionParameterOfEdge_of_nonempty f A B pop hne, h]
  simp [GetLineTensionParameter]

/-- C2 at the shared edge of the two squares: the nodes 1 and 4 share the cells 0 and 1
and the default force resolves the edge to 0.06. -/
theorem C2_internal_edge_half_tension_witness :
    ((Example.mkNode 1 0 [0, 1]).mContainingElementIndices
        ∩ (Example.mkNode 1 1 [0, 1]).mContainingElementIndices).card = 2
    ∧ FarhadifarForceWithGrowingTargetAreas.new.GetLineTensionParameterOfEdge
        (Example.mkNode 1 0 [0, 1]) (Example.mkNode 1 1 [0, 1]) Example.twoSquares
        = .ok (FarhadifarForceWithGrowingTargetAreas.new.GetLineTensionParameter / 2) :=
  ⟨by decide, C2_internal_edge_half_tension _ _ _ _ (by decide)⟩

/-- C3.  For every pair of nodes whose sets of incident-cell indices intersect in
exactly one cell (a boundary edge), `GetLineTensionParameter(A, B, population)` returns
the full line tension coefficient `L`; this differs from `L / 2` whenever `L` is not
zero. -/
theorem C3_boundary_edge_full_tension (f : FarhadifarForceWithGrowingTargetAreas)
    (A B : Node) (pop : VertexBasedCellPopulation)
    (h : (A.mContainingElementIndices ∩ B.mContainingElementIndices).card = 1) :
    f.GetLineTensionParameterOfEdge A B pop = .ok f.GetLineTensionParameter
    ∧ (f.GetLineTensionParameter ≠ 0 →
        f.GetLineTensionParameterOfEdge A B pop ≠ .ok (f.GetLineTensionParameter / 2)) := by
  have hne : A.mContainingElementIndices ∩ B.mContainingElementIndices ≠ ∅ := by
    intro h0
    rw [h0] at h
    simp at h
  have hval : f.GetLineTensionParameterOfEdge A B pop = .ok f.GetLineTensionParameter := by
    rw [GetLineTensionParameterOfEdge_of_nonempty f A B pop hne, h]
    simp [GetLineTensionParameter]
  refine ⟨hval, fun hL hhalf => ?_⟩
  rw [hval] at hhalf
  injection hhalf with hhalf
  apply hL
  linarith

/-- C3 at a boundary edge of the two squares: the nodes 0 and 1 share only the cell 0
and the default force resolves the edge to 0.12, not to 0.06. -/
theorem C3_boundary_edge_full_tension_witness :
    ((Example.mkNode 0 0 [0]).mContainingElementIndices
        ∩ (Example.mkNode 1 0 [0, 1]).mContainingElementIndices).card = 1
    ∧ FarhadifarForceWithGrowingTargetAreas.new.GetLineTensionParameterOfEdge
        (Example.mkNode 0 0 [0]) (Example.mkNode 1 0 [0, 1]) Example.twoSquares
        = .ok (12 / 100)
    ∧ FarhadifarForceWithGrowingTargetAreas.new.GetLineTensionParameterOfEdge
        (Example.mkNode 0 0 [0]) (Example.mkNode 1 0 [0, 1]) Example.twoSquares
        ≠ .ok (12 / 100 / 2) :=
  ⟨by decide,
   (C3_boundary_edge_full_tension FarhadifarForceWithGrowingTargetAreas.new
      (Example.mkNode 0 0 [0]) (Example.mkNode 1 0 [0, 1]) Example.twoSquares (by decide)).1,
   (C3_boundary_edge_full_tension FarhadifarForceWithGrowingTargetAreas.new
      (Example.mkNode 0 0 [0]) (Example.mkNode 1 0 [0, 1]) Example.twoSquares (by decide)).2
      (by norm_num [GetLineTensionParameter, FarhadifarForceWithGrowingTargetAreas.new])⟩

/-- C4 fails as stated: two nodes that share the three cells 0, 1 and 2 do not make the
resolver fail; it returns `L / 2`. -/
theorem C4_three_shared_cells_counterexample :
    (Example.threeCellNode.mContainingElementIndices
        ∩ Example.threeCellNode.mContainingElementIndices).card = 3
    ∧ FarhadifarForceWithGrowingTargetAreas.new.GetLineTensionParameterOfEdge
        Example.threeCellNode Example.threeCellNode Example.twoSquares
        = .ok (FarhadifarForceWithGrowingTargetAreas.new.GetLineTensionParameter / 2)
    ∧ FarhadifarForceWithGrowingTargetAreas.new.GetLineTensionParameterOfEdge
        Example.threeCellNode Example.threeCellNode Example.twoSquares
        ≠ .error .TopologyError := by
  have hne : Example.threeCellNode.mContainingElementIndices
      ∩ Example.threeCellNode.mContainingElementIndices ≠ ∅ := by decide
  have hcard : (Example.threeCellNode.mContainingElementIndices
      ∩ Example.threeCellNode.mContainingElementIndices).card = 3 := by decide
  rw [GetLineTensionParameterOfEdge_of_nonempty _ _ _ _ hne, hcard]
  simp [GetLineTensionParameter]

/-- C4, amended.  The resolver fails, with a `TopologyError`, exactly when the two
incident-cell sets have no cell in common; when they share two or more cells (three
included) it returns `L / 2`, and it never fails in any other way. -/
theorem C4_resolver_fails_only_on_empty_intersection
    (f : FarhadifarForceWithGrowingTargetAreas) (A B : Node) (pop : VertexBasedCellPopulation) :
    (f.GetLineTensionParameterOfEdge A B pop = .error .TopologyError
      ↔ (A.mContainingElementIndices ∩ B.mContainingElementIndices).card = 0)
    ∧ (2 ≤ (A.mContainingElementIndices ∩ B.mContainingElementIndices).card →
        f.GetLineTensionParameterOfEdge A B pop = .ok (f.GetLineTensionParameter / 2))
    ∧ (∀ err, f.GetLineTensionParameterOfEdge A B pop = .error err → err = .TopologyError) := by
  by_cases h0 : A.mContainingElementIndices ∩ B.mContainingElementIndices = ∅
  · have herr : f.GetLineTensionParameterOfEdge A B pop = .error .TopologyError := by
      unfold GetLineTensionParameterOfEdge
      simp [h0]
    refine ⟨by simp [herr, h0], fun h2 => ?_, fun err he => ?_⟩
    · rw [h0] at h2
      simp at h2
    · rw [herr] at he
      injection he with he
      exact he.symm
  · have hval := GetLineTensionParameterOfEdge_of_nonempty f A B pop h0
    have hcard : (A.mContainingElementIndices ∩ B.mContainingElementIndices).card ≠ 0 := by
      rwa [Ne, Finset.card_eq_zero]
    refine ⟨by simp [hval, hcard], fun h2 => ?_, fun err he => ?_⟩
    · rw [hval, if_neg (by omega)]
      rfl
    · rw [hval] at he
      cases he

/-- C4, amended, at the two squares: the nodes 0 and 2 share no cell and the resolver
fails with a `TopologyError`, while a node with three incident cells paired with itself
gets `L / 2`. -/
theorem C4_resolver_fails_only_on_empty_intersection_witness :
    FarhadifarForceWithGrowingTargetAreas.new.GetLineTensionParameterOfEdge
        (Example.mkNode 0 0 [0]) (Example.mkNode 2 0 [1]) Example.twoSquares
        = .error .TopologyError
    ∧ FarhadifarForceWithGrowingTargetAreas.new.GetLineTensionParameterOfEdge
        Example.threeCellNode Example.threeCellNode Example.twoSquares
        = .ok (FarhadifarForceWithGrowingTargetAreas.new.GetLineTensionParameter / 2) :=
  ⟨(C4_resolver_fails_only_on_empty_intersection FarhadifarForceWithGrowingTargetAreas.new
      (Example.mkNode 0 0 [0]) (Example.mkNode 2 0 [1]) Example.twoSquares).1.mpr (by decide),
   (C4_resolver_fails_only_on_empty_intersection FarhadifarForceWithGrowingTargetAreas.new
      Example.threeCellNode Example.threeCellNode Example.twoSquares).2.1 (by decide)⟩

end Resolver

section Lookups

theorem nodes_getElem?_eq (pop : VertexBasedCellPopulation) {v : ℕ} (h : v < pop.GetNumNodes) :
    pop.mMesh.mNodes[v]? = some (nodeAt pop v) := by
  unfold VertexBasedCellPopulation.GetNumNodes at h
  simp [nodeAt, List.getD_eq_getElem?_getD, List.getElem?_eq_getElem h]

theorem elements_getElem?_eq (pop : VertexBasedCellPopulation) {c : ℕ}
    (h : c < pop.GetNumElements) : pop.mMesh.mElements[c]? = some (elementAt pop c) := by
  unfold VertexBasedCellPopulation.GetNumElements at h
  simp [elementAt, List.getD_eq_getElem?_getD, List.getElem?_eq_getElem h]

theorem GetNode_eq (pop : VertexBasedCellPopulation) {v : ℕ} (h : v < pop.GetNumNodes) :
    pop.GetNode v = .ok (nodeAt pop v) := by
  simp [VertexBasedCellPopulation.GetNode, nodes_getElem?_eq pop h]

theorem GetElement_eq (pop : VertexBasedCellPopulation) {c : ℕ} (h : c < pop.GetNumElements) :
    pop.GetElement c = .ok (elementAt pop c) := by
  simp [VertexBasedCellPopulation.GetElement, elements_getElem?_eq pop h]

theorem GetElement_ok (pop : VertexBasedCellPopulation) {c : ℕ} {e : VertexElement}
    (h : pop.GetElement c = .ok e) : c < pop.GetNumElements ∧ e = elementAt pop c := by
  unfold VertexBasedCellPopulation.GetElement at h
  by_cases hc : c < pop.GetNumElements
  · rw [elements_getElem?_eq pop hc] at h
    injection h with h
    exact ⟨hc, h.symm⟩
  · unfold VertexBasedCellPopulation.GetNumElements at hc
    rw [List.getElem?_eq_none (by omega)] at h
    cases h

theorem elementAt_mem (pop : VertexBasedCellPopulation) {c : ℕ} (h : c < pop.GetNumElements) :
    elementAt pop c ∈ pop.mMesh.mElements :=
  List.getElem?_mem (elements_getElem?_eq pop h)

theorem GetVertexNode_eq (e : VertexElement) {i : ℕ} (h : i < e.GetNumNodes) :
    e.GetNode i = .ok (e.mNodes.getD i 0) := by
  unfold VertexElement.GetNumNodes at h
  simp [VertexElement.GetNode, List.getD_eq_getElem?_getD, List.getElem?_eq_getElem h]

theorem getD_mem_of_lt (l : List ℕ) {i : ℕ} (h : i < l.length) : l.getD i 0 ∈ l := by
  rw [List.getD_eq_getElem?_getD, List.getElem?_eq_getElem h]
  exact List.getElem_mem h

end Lookups


section SnapshotLemmas

open FarhadifarForceWithGrowingTargetAreas

theorem targetAreaOf_of_areaBased (pop : VertexBasedCellPopulation) {j : ℕ} {t : ℚ}
    (h : pop.mCellCycleModels j = .AreaBased t) : targetAreaOf pop j = t := by
  simp [targetAreaOf, h]

theorem getElem?_set_agree {l : List ℚ} {i j : ℕ} {x y : ℚ} (hi : i < l.length)
    (hj : j = i ∨ l[j]? = some y) (hx : j = i → y = x) :
    (l.set i x)[j]? = some y := by
  by_cases hji : j = i
  · subst hji
    rw [List.getElem?_set_self hi, hx rfl]
  · rw [List.getElem?_set_ne (fun h => hji h.symm)]
    exact hj.resolve_left hji

/-- One step of the first loop, when it succeeds: the tables keep their size, agree
with the mesh at the index just written, and still agree wherever they did. -/
theorem snapshotStep_ok (pop : VertexBasedCellPopulation) {s s' : Snapshot}
    {e : VertexElement} {n : ℕ} (h : snapshotStep pop s e = .ok s') (hs : Snapshot.HasSize s n) :
    Snapshot.HasSize s' n ∧ Snapshot.AgreesAt pop s' e.GetIndex
      ∧ ∀ j, Snapshot.AgreesAt pop s j → Snapshot.AgreesAt pop s' j := by
  obtain ⟨ha, hp, ht⟩ := hs
  unfold snapshotStep at h
  simp only at h
  split at h
  · rename_i hlt
    split at h
    · rename_i t hccm
      split at h
      · rename_i hlt'
        injection h with h
        subst h
        have htar := targetAreaOf_of_areaBased pop hccm
        refine ⟨⟨by simp [ha], by simp [hp], by simp [ht]⟩, ⟨?_, ?_, ?_⟩, ?_⟩
        · simp [List.getElem?_set_self hlt.1]
        · simp [List.getElem?_set_self hlt.2]
        · simp [List.getElem?_set_self hlt', htar]
        · rintro j ⟨h1, h2, h3⟩
          refine ⟨?_, ?_, ?_⟩
          · exact getElem?_set_agree hlt.1 (Or.inr h1) (fun hj => by rw [hj])
          · exact getElem?_set_agree hlt.2 (Or.inr h2) (fun hj => by rw [hj])
          · exact getElem?_set_agree hlt' (Or.inr h3)
              (fun hj => by rw [hj, htar])
      · cases h
    · cases h
  · cases h

/-- The first loop, when it succeeds: the tables keep their size, agree with the mesh
at the index of every element visited, and still agree wherever they did. -/
theorem snapshotLoop_ok (pop : VertexBasedCellPopulation) (es : List VertexElement) {n : ℕ} :
    ∀ {s s' : Snapshot}, snapshotLoop pop es s = .ok s' → Snapshot.HasSize s n →
      Snapshot.HasSize s' n ∧ (∀ e ∈ es, Snapshot.AgreesAt pop s' e.GetIndex)
        ∧ ∀ j, Snapshot.AgreesAt pop s j → Snapshot.AgreesAt pop s' j := by
  induction es with
  | nil =>
    intro s s' h hs
    simp only [snapshotLoop] at h
    injection h with h
    subst h
    exact ⟨hs, by simp, fun _ hj => hj⟩
  | cons e rest ih =>
    intro s s' h hs
    simp only [snapshotLoop] at h
    split at h
    · rename_i s1 hstep
      obtain ⟨hs1, hag1, hkeep1⟩ := snapshotStep_ok pop hstep hs
      obtain ⟨hs2, hag2, hkeep2⟩ := ih h hs1
      refine ⟨hs2, ?_, fun j hj => hkeep2 j (hkeep1 j hj)⟩
      intro e' he'
      rcases List.mem_cons.mp he' with rfl | hmem
      · exact hkeep2 _ hag1
      · exact hag2 e' hmem
    · cases h

theorem Snapshot.init_hasSize (n : ℕ) : Snapshot.HasSize (Snapshot.init n) n := by
  simp [Snapshot.HasSize, Snapshot.init]

/-- A successful first loop leaves tables that agree with the mesh at the index of
every element of the mesh. -/
theorem snapshot_agrees (pop : VertexBasedCellPopulation) {snap : Snapshot}
    (h : snapshotLoop pop pop.mMesh.mElements (Snapshot.init pop.GetNumElements) = .ok snap) :
    ∀ e ∈ pop.mMesh.mElements, Snapshot.AgreesAt pop snap e.GetIndex :=
  (snapshotLoop_ok pop _ h (Snapshot.init_hasSize _)).2.1

/-- The first loop never fails with a `TopologyError`. -/
theorem snapshotLoop_error (pop : VertexBasedCellPopulation) (es : List VertexElement) :
    ∀ {s : Snapshot} {err : Error}, snapshotLoop pop es s = .error err →
      err = .ConfigurationError ∨ err = .OutOfRange := by
  induction es with
  | nil => intro s err h; simp [snapshotLoop] at h
  | cons e rest ih =>
    intro s err h
    simp only [snapshotLoop] at h
    split at h
    · exact ih h
    · rename_i err' hstep
      injection h with h
      subst h
      unfold snapshotStep at hstep
      simp only at hstep
      split at hstep
      · split at hstep
        · split at hstep
          · cases hstep
          · injection hstep with hstep; exact Or.inr hstep.symm
        · injection hstep with hstep; exact Or.inl hstep.symm
      · injection hstep with hstep; exact Or.inr hstep.symm

/-- With every element index inside the tables, the first loop succeeds when every
cell visited is growth-capable, and fails with a `ConfigurationError` otherwise. -/
theorem snapshotLoop_inRange (pop : VertexBasedCellPopulation) (es : List VertexElement)
    {n : ℕ} (hr : ∀ e ∈ es, e.GetIndex < n) :
    ∀ {s : Snapshot}, Snapshot.HasSize s n →
      ((∀ e ∈ es, pop.mCellCycleModels e.GetIndex ≠ .Other) →
          ∃ s', snapshotLoop pop es s = .ok s')
      ∧ ((∃ e ∈ es, pop.mCellCycleModels e.GetIndex = .Other) →
          snapshotLoop pop es s = .error .ConfigurationError) := by
  induction es with
  | nil =>
    intro s _
    exact ⟨fun _ => ⟨s, rfl⟩, fun ⟨e, he, _⟩ => absurd he (List.not_mem_nil e)⟩
  | cons e rest ih =>
    intro s hs
    have hlt := hr e (List.mem_cons_self e rest)
    have hrest : ∀ e' ∈ rest, e'.GetIndex < n := fun e' he' => hr e' (List.mem_cons_of_mem e he')
    obtain ⟨ha, hp, ht⟩ := hs
    cases hccm : pop.mCellCycleModels e.GetIndex with
    | Other =>
      have hstep : snapshotStep pop s e = .error .ConfigurationError := by
        unfold snapshotStep
        simp [hccm, ha, hp, hlt]
      constructor
      · intro hall
        exact absurd hccm (hall e (List.mem_cons_self e rest))
      · intro _
        simp [snapshotLoop, hstep]
    | AreaBased t =>
      have hstep : ∃ s1, snapshotStep pop s e = .ok s1 := by
        unfold snapshotStep
        simp [hccm, ha, hp, ht, hlt]
      obtain ⟨s1, hstep⟩ := hstep
      have hs1 := (snapshotStep_ok pop hstep ⟨ha, hp, ht⟩).1
      obtain ⟨ih1, ih2⟩ := ih hrest (s := s1) hs1
      constructor
      · intro hall
        obtain ⟨s', hs'⟩ := ih1 (fun e' he' => hall e' (List.mem_cons_of_mem e he'))
        exact ⟨s', by simp [snapshotLoop, hstep, hs']⟩
      · rintro ⟨e', he', hother⟩
        rcases List.mem_cons.mp he' with rfl | hmem
        · rw [hccm] at hother; cases hother
        · simp [snapshotLoop, hstep, ih2 ⟨e', hmem, hother⟩]

/-- An element whose cell is not growth-capable makes the first loop fail, whatever
the tables. -/
theorem snapshotLoop_fails_of_other (pop : VertexBasedCellPopulation)
    (es : List VertexElement) (h : ∃ e ∈ es, pop.mCellCycleModels e.GetIndex = .Other) :
    ∀ (s : Snapshot), ∃ err, snapshotLoop pop es s = .error err := by
  induction es with
  | nil => obtain ⟨e, he, _⟩ := h; exact absurd he (List.not_mem_nil e)
  | cons e rest ih =>
    intro s
    simp only [snapshotLoop]
    cases hstep : snapshotStep pop s e with
    | error err => exact ⟨err, rfl⟩
    | ok s1 =>
      obtain ⟨e', he', hother⟩ := h
      rcases List.mem_cons.mp he' with rfl | hmem
      · exfalso
        unfold snapshotStep at hstep
        simp only [hother] at hstep
        split at hstep <;> cases hstep
      · exact ih ⟨e', hmem, hother⟩ s1

end SnapshotLemmas


section LocalIndex

theorem GetNodeLocalIndexFrom_not_mem (v : ℕ) (l : List ℕ) :
    ∀ (i r : ℕ), v ∉ l → VertexElement.GetNodeLocalIndexFrom v l i r = r := by
  induction l with
  | nil => intro i r _; rfl
  | cons g rest ih =>
    intro i r h
    have hg : g ≠ v := fun hgv => h (hgv ▸ List.mem_cons_self g rest)
    have hrest : v ∉ rest := fun hm => h (List.mem_cons_of_mem g hm)
    simp only [VertexElement.GetNodeLocalIndexFrom, if_neg hg]
    exact ih (i + 1) r hrest

theorem GetNodeLocalIndexFrom_mem (v : ℕ) (l : List ℕ) :
    ∀ (i r : ℕ), v ∈ l →
      ∃ j, j < l.length ∧ l[j]? = some v ∧ VertexElement.GetNodeLocalIndexFrom v l i r = i + j := by
  induction l with
  | nil => intro i r h; exact absurd h (List.not_mem_nil v)
  | cons g rest ih =>
    intro i r h
    simp only [VertexElement.GetNodeLocalIndexFrom]
    by_cases hrest : v ∈ rest
    · obtain ⟨j, hj, hget, hval⟩ := ih (i + 1) (if g = v then i else r) hrest
      refine ⟨j + 1, by simp [hj], by simpa using hget, ?_⟩
      rw [hval]; omega
    · have hg : g = v := by
        rcases List.mem_cons.mp h with h1 | h1
        · exact h1.symm
        · exact absurd h1 hrest
      rw [GetNodeLocalIndexFrom_not_mem v rest _ _ hrest, if_pos hg]
      exact ⟨0, by simp, by simp [hg], rfl⟩

theorem GetNodeLocalIndexFrom_nodup (v : ℕ) (l : List ℕ) :
    ∀ (i r j : ℕ), l.Nodup → l[j]? = some v →
      VertexElement.GetNodeLocalIndexFrom v l i r = i + j := by
  induction l with
  | nil => intro i r j _ h; simp at h
  | cons g rest ih =>
    intro i r j hnd h
    simp only [VertexElement.GetNodeLocalIndexFrom]
    rw [List.nodup_cons] at hnd
    cases j with
    | zero =>
      simp at h
      subst h
      rw [GetNodeLocalIndexFrom_not_mem g rest _ _ hnd.1]
      simp
    | succ j =>
      simp at h
      rw [ih (i + 1) _ j hnd.2 h]
      omega

/-- A vertex of the loop has a local index inside the loop, at which the loop holds
that vertex. -/
theorem GetNodeLocalIndex_of_mem (e : VertexElement) {v : ℕ} (h : v ∈ e.mNodes) :
    e.GetNodeLocalIndex v < e.GetNumNodes ∧ e.mNodes.getD (e.GetNodeLocalIndex v) 0 = v := by
  obtain ⟨j, hj, hget, hval⟩ := GetNodeLocalIndexFrom_mem v e.mNodes 0 UINT_MAX h
  unfold VertexElement.GetNodeLocalIndex VertexElement.GetNumNodes
  rw [hval]
  simp [hj, List.getD_eq_getElem?_getD, hget]

/-- In a loop without repetition, the local index of the vertex at position `i` is `i`. -/
theorem GetNodeLocalIndex_getD (e : VertexElement) (hnd : e.mNodes.Nodup) {i : ℕ}
    (hi : i < e.GetNumNodes) : e.GetNodeLocalIndex (e.mNodes.getD i 0) = i := by
  unfold VertexElement.GetNumNodes at hi
  unfold VertexElement.GetNodeLocalIndex
  rw [GetNodeLocalIndexFrom_nodup _ e.mNodes 0 UINT_MAX i hnd]
  · simp
  · simp [List.getD_eq_getElem?_getD, List.getElem?_eq_getElem hi]

theorem unsigned_predecessor {n i : ℕ} (hn : n < 2 ^ 31) (hi : i < n) :
    FarhadifarForceWithGrowingTargetAreas.previous_node_local_index n i
      = Spec.predecessor n i := by
  unfold FarhadifarForceWithGrowingTargetAreas.previous_node_local_index usub uadd
    Spec.predecessor
  have h1 : (n + i) % 2 ^ 32 = n + i := Nat.mod_eq_of_lt (by omega)
  rw [h1]
  have h2 : n + i + 2 ^ 32 - 1 = (n + i - 1) + 2 ^ 32 := by omega
  rw [h2, Nat.add_mod_right, Nat.mod_eq_of_lt (a := n + i - 1) (by omega)]

theorem unsigned_successor {n i : ℕ} (hn : n < 2 ^ 31) (hi : i < n) :
    FarhadifarForceWithGrowingTargetAreas.next_node_local_index n i = Spec.successor n i := by
  unfold FarhadifarForceWithGrowingTargetAreas.next_node_local_index uadd Spec.successor
  rw [Nat.mod_eq_of_lt (a := i + 1) (by omega)]

theorem predecessor_lt {n i : ℕ} (hi : i < n) : Spec.predecessor n i < n :=
  Nat.mod_lt _ (by omega)

theorem successor_lt {n i : ℕ} (hi : i < n) : Spec.successor n i < n :=
  Nat.mod_lt _ (by omega)

end LocalIndex


section ElementStep

open FarhadifarForceWithGrowingTargetAreas

theorem readTable_of_getElem? {table : List ℚ} {j : ℕ} {x : ℚ} (h : table[j]? = some x) :
    readTable table j = .ok x := by
  simp [readTable, h]

theorem tension_of_shared (f : FarhadifarForceWithGrowingTargetAreas)
    (pop : VertexBasedCellPopulation) {a b c : ℕ} {A B : Node}
    (hA : A.mContainingElementIndices = incidentCells pop a)
    (hB : B.mContainingElementIndices = incidentCells pop b)
    (ha : c ∈ incidentCells pop a) (hb : c ∈ incidentCells pop b) :
    f.GetLineTensionParameterOfEdge A B pop = .ok (Spec.tension f pop a b) := by
  have hne : A.mContainingElementIndices ∩ B.mContainingElementIndices ≠ ∅ := by
    rw [hA, hB]
    exact Finset.ne_empty_of_mem (Finset.mem_inter.mpr ⟨ha, hb⟩)
  have hne' : (nodeAt pop a).mContainingElementIndices ∩ (nodeAt pop b).mContainingElementIndices
      ≠ ∅ := by
    simpa [hA, hB, incidentCells] using hne
  unfold Spec.tension
  rw [GetLineTensionParameterOfEdge_of_nonempty f _ _ pop hne,
    GetLineTensionParameterOfEdge_of_nonempty f _ _ pop hne', hA, hB]
  rfl

/-- One step of the inner loop on a well-formed incidence: the three running sums
grow by the three terms of the specification. -/
theorem elementStep_eq (f : FarhadifarForceWithGrowingTargetAreas)
    (pop : VertexBasedCellPopulation) (snap : Snapshot) (v : ℕ) (node : Node)
    (acc : Contributions) (c : ℕ)
    (hnode : node.mContainingElementIndices = incidentCells pop v)
    (hc : c < pop.GetNumElements)
    (hcv : c ∈ incidentCells pop v)
    (hv : v ∈ (elementAt pop c).mNodes)
    (hsmall : (elementAt pop c).GetNumNodes < 2 ^ 31)
    (hloop : ∀ g ∈ (elementAt pop c).mNodes, g < pop.GetNumNodes ∧ c ∈ incidentCells pop g)
    (hag : Snapshot.AgreesAt pop snap (elementAt pop c).GetIndex) :
    elementStep f pop snap v node acc c
      = .ok { area_elasticity_contribution :=
                acc.area_elasticity_contribution + Spec.areaTerm f pop v c
              perimeter_contractility_contribution :=
                acc.perimeter_contractility_contribution + Spec.perimeterTerm f pop v c
              line_tension_contribution :=
                acc.line_tension_contribution + Spec.tensionTerm f pop v c } := by
  obtain ⟨hi, -⟩ := GetNodeLocalIndex_of_mem _ hv
  have hn0 : (elementAt pop c).GetNumNodes ≠ 0 := by omega
  have hp := predecessor_lt hi
  have hs := successor_lt hi
  obtain ⟨hpN, hpc⟩ := hloop _ (getD_mem_of_lt _ hp)
  obtain ⟨hsN, hsc⟩ := hloop _ (getD_mem_of_lt _ hs)
  have htp := tension_of_shared f pop (A := nodeAt pop _) (B := node) rfl hnode hpc hcv
  have hts := tension_of_shared f pop (A := node) (B := nodeAt pop _) hnode rfl hcv hsc
  unfold elementStep
  simp only [GetElement_eq pop hc, readTable_of_getElem? hag.1, readTable_of_getElem? hag.2.1,
    readTable_of_getElem? hag.2.2, bind, Except.bind, if_neg hn0, unsigned_predecessor hsmall hi,
    unsigned_successor hsmall hi, GetVertexNode_eq _ hp, GetVertexNode_eq _ hs,
    GetNode_eq pop hpN, GetNode_eq pop hsN, htp, hts, pure, Except.pure]
  simp only [Spec.areaTerm, Spec.perimeterTerm, Spec.tensionTerm, Spec.grad_p, Spec.grad_s,
    Spec.predecessorVertex, Spec.successorVertex, GetAreaElasticityParameter,
    GetPerimeterContractilityParameter, sub_eq_add_neg]

end ElementStep


section ElementStepOk

open FarhadifarForceWithGrowingTargetAreas

theorem GetLineTensionParameterOfEdge_error (f : FarhadifarForceWithGrowingTargetAreas)
    (A B : Node) (pop : VertexBasedCellPopulation) {err : Error}
    (h : f.GetLineTensionParameterOfEdge A B pop = .error err) : err = .TopologyError := by
  unfold GetLineTensionParameterOfEdge at h
  simp only at h
  split at h
  · injection h with h; exact h.symm
  · split at h <;> cases h

theorem readTable_error {table : List ℚ} {j : ℕ} {err : Error}
    (h : readTable table j = .error err) : err = .OutOfRange := by
  unfold readTable at h
  split at h
  · cases h
  · injection h with h; exact h.symm

theorem GetNode_error (pop : VertexBasedCellPopulation) {j : ℕ} {err : Error}
    (h : pop.GetNode j = .error err) : err = .OutOfRange := by
  unfold VertexBasedCellPopulation.GetNode at h
  split at h
  · cases h
  · injection h with h; exact h.symm

theorem GetElement_error (pop : VertexBasedCellPopulation) {j : ℕ} {err : Error}
    (h : pop.GetElement j = .error err) : err = .OutOfRange := by
  unfold VertexBasedCellPopulation.GetElement at h
  split at h
  · cases h
  · injection h with h; exact h.symm

theorem GetVertexNode_error (e : VertexElement) {j : ℕ} {err : Error}
    (h : e.GetNode j = .error err) : err = .OutOfRange := by
  unfold VertexElement.GetNode at h
  split at h
  · cases h
  · injection h with h; exact h.symm

/-- A step of the inner loop never fails with a `ConfigurationError`. -/
theorem elementStep_error (f : FarhadifarForceWithGrowingTargetAreas)
    (pop : VertexBasedCellPopulation) (snap : Snapshot) (v : ℕ) (node : Node)
    (acc : Contributions) (c : ℕ) {err : Error}
    (h : elementStep f pop snap v node acc c = .error err) :
    err = .TopologyError ∨ err = .OutOfRange := by
  unfold elementStep at h
  simp only [bind, Except.bind, pure, Except.pure] at h
  repeat' split at h
  all_goals first
    | cases h; done
    | (injection h with h; subst h; rename_i h1; first
        | exact Or.inr (GetElement_error pop h1)
        | exact Or.inr (readTable_error h1)
        | exact Or.inr (GetNode_error pop h1)
        | exact Or.inr (GetVertexNode_error _ h1)
        | exact Or.inl (GetLineTensionParameterOfEdge_error f _ _ pop h1)
        | exact Or.inr rfl)

end ElementStepOk

section ElementStepArea

open FarhadifarForceWithGrowingTargetAreas

theorem readTable_ok {table : List ℚ} {j : ℕ} {x : ℚ}
    (h : readTable table j = .ok x) : table[j]? = some x := by
  unfold readTable at h
  split at h
  · rename_i y hy; injection h with h; rw [hy, h]
  · cases h

/-- A successful step of the inner loop adds the area term of the specification to
the area-elasticity sum. -/
theorem elementStep_ok_area (f : FarhadifarForceWithGrowingTargetAreas)
    (pop : VertexBasedCellPopulation) (snap : Snapshot) (v : ℕ) (node : Node)
    (acc acc' : Contributions) (c : ℕ)
    (hag : ∀ e ∈ pop.mMesh.mElements, Snapshot.AgreesAt pop snap e.GetIndex)
    (h : elementStep f pop snap v node acc c = .ok acc') :
    acc'.area_elasticity_contribution
      = acc.area_elasticity_contribution + Spec.areaTerm f pop v c := by
  unfold elementStep at h
  cases hE : pop.GetElement c with
  | error err => simp [hE, bind, Except.bind] at h
  | ok e =>
    obtain ⟨hc, rfl⟩ := GetElement_ok pop hE
    obtain ⟨h1, h2, h3⟩ := hag _ (elementAt_mem pop hc)
    simp only [hE, readTable_of_getElem? h1, readTable_of_getElem? h2, readTable_of_getElem? h3,
      bind, Except.bind, pure, Except.pure] at h
    repeat' split at h
    all_goals first
      | cases h; done
      | (injection h with h; subst h
         simp only [Spec.areaTerm, GetAreaElasticityParameter, sub_eq_add_neg])

end ElementStepArea

section AddForceFrame

open FarhadifarForceWithGrowingTargetAreas

theorem GetLineTensionParameterOfEdge_congr (f : FarhadifarForceWithGrowingTargetAreas)
    {A A' B B' : Node} (pop pop' : VertexBasedCellPopulation)
    (hA : A'.mContainingElementIndices = A.mContainingElementIndices)
    (hB : B'.mContainingElementIndices = B.mContainingElementIndices) :
    f.GetLineTensionParameterOfEdge A' B' pop' = f.GetLineTensionParameterOfEdge A B pop := by
  unfold GetLineTensionParameterOfEdge
  rw [hA, hB]

theorem GetElement_AddAppliedForceContribution (pop : VertexBasedCellPopulation) (i : ℕ)
    (X : Vec) (c : ℕ) : (pop.AddAppliedForceContribution i X).GetElement c = pop.GetElement c :=
  rfl

theorem GetNumNodes_AddAppliedForceContribution (pop : VertexBasedCellPopulation) (i : ℕ)
    (X : Vec) : (pop.AddAppliedForceContribution i X).GetNumNodes = pop.GetNumNodes := by
  simp [VertexBasedCellPopulation.GetNumNodes,
    VertexBasedCellPopulation.AddAppliedForceContribution]

/-- Adding a force to a node changes no lookup of a node, except for the applied force
of the node found. -/
theorem GetNode_AddAppliedForceContribution (pop : VertexBasedCellPopulation) (i : ℕ)
    (X : Vec) (g : ℕ) :
    (∃ err, (pop.AddAppliedForceContribution i X).GetNode g = .error err
        ∧ pop.GetNode g = .error err)
    ∨ (∃ n n', (pop.AddAppliedForceContribution i X).GetNode g = .ok n'
        ∧ pop.GetNode g = .ok n
        ∧ n'.mContainingElementIndices = n.mContainingElementIndices
        ∧ n'.mLocation = n.mLocation
        ∧ n'.mAppliedForce = n.mAppliedForce + (if g = i then X else 0)) := by
  unfold VertexBasedCellPopulation.GetNode VertexBasedCellPopulation.AddAppliedForceContribution
  simp only [List.getElem?_modify]
  cases h : pop.mMesh.mNodes[g]? with
  | none => left; exact ⟨_, rfl, rfl⟩
  | some n =>
    right
    by_cases hig : i = g
    · subst hig
      exact ⟨n, _, rfl, rfl, by simp, by simp, by simp⟩
    · exact ⟨n, _, rfl, rfl, by simp [hig], by simp [hig], by simp [hig, Ne.symm hig]⟩

theorem elementStep_AddAppliedForceContribution (f : FarhadifarForceWithGrowingTargetAreas)
    (pop : VertexBasedCellPopulation) (snap : Snapshot) (i : ℕ) (X : Vec) (v : ℕ)
    (node node' : Node) (acc : Contributions) (c : ℕ)
    (hnode : node'.mContainingElementIndices = node.mContainingElementIndices) :
    elementStep f (pop.AddAppliedForceContribution i X) snap v node' acc c
      = elementStep f pop snap v node acc c := by
  unfold elementStep
  simp only [GetElement_AddAppliedForceContribution, bind, Except.bind]
  cases pop.GetElement c with
  | error err => rfl
  | ok e =>
    simp only
    cases readTable snap.element_areas e.GetIndex with
    | error err => rfl
    | ok area =>
      simp only
      cases readTable snap.target_areas e.GetIndex with
      | error err => rfl
      | ok target =>
        simp only
        split
        · rfl
        · cases e.GetNode
              (previous_node_local_index e.GetNumNodes (e.GetNodeLocalIndex v)) with
          | error err => rfl
          | ok p =>
            simp only
            rcases GetNode_AddAppliedForceContribution pop i X p with
              ⟨err, h1, h2⟩ | ⟨n, n', h1, h2, hC, -, -⟩
            · rw [h1, h2]
            · rw [h1, h2]
              simp only
              cases e.GetNode
                  (next_node_local_index e.GetNumNodes (e.GetNodeLocalIndex v)) with
              | error err => rfl
              | ok s =>
                simp only
                rcases GetNode_AddAppliedForceContribution pop i X s with
                  ⟨err, h3, h4⟩ | ⟨m, m', h3, h4, hC', -, -⟩
                · rw [h3, h4]
                · rw [h3, h4]
                  simp only
                  rw [GetLineTensionParameterOfEdge_congr f pop
                      (pop.AddAppliedForceContribution i X) hC hnode,
                    GetLineTensionParameterOfEdge_congr f pop
                      (pop.AddAppliedForceContribution i X) hnode hC']
                  rfl

end AddForceFrame

section Loops

open FarhadifarForceWithGrowingTargetAreas

theorem sum_map_sort (s : Finset ℕ) (g : ℕ → Vec) :
    ((s.sort (· ≤ ·)).map g).sum = ∑ c ∈ s, g c := by
  rw [← List.sum_toFinset g (Finset.sort_nodup (· ≤ ·) s), Finset.sort_toFinset]

theorem elementLoop_AddAppliedForceContribution (f : FarhadifarForceWithGrowingTargetAreas)
    (pop : VertexBasedCellPopulation) (snap : Snapshot) (i : ℕ) (X : Vec) (v : ℕ)
    (node node' : Node)
    (hnode : node'.mContainingElementIndices = node.mContainingElementIndices)
    (l : List ℕ) :
    ∀ acc, elementLoop f (pop.AddAppliedForceContribution i X) snap v node' l acc
      = elementLoop f pop snap v node l acc := by
  induction l with
  | nil => intro acc; rfl
  | cons c rest ih =>
    intro acc
    simp only [elementLoop, elementStep_AddAppliedForceContribution f pop snap i X v node node'
      acc c hnode]
    cases elementStep f pop snap v node acc c with
    | error err => rfl
    | ok acc1 => exact ih acc1

/-- The visit of a node computes the same sums after a force has been added to some
node. -/
theorem nodeContributions_AddAppliedForceContribution
    (f : FarhadifarForceWithGrowingTargetAreas) (pop : VertexBasedCellPopulation)
    (snap : Snapshot) (i : ℕ) (X : Vec) (v : ℕ) :
    nodeContributions f (pop.AddAppliedForceContribution i X) snap v
      = nodeContributions f pop snap v := by
  unfold nodeContributions
  simp only [bind, Except.bind]
  rcases GetNode_AddAppliedForceContribution pop i X v with
    ⟨err, h1, h2⟩ | ⟨n, n', h1, h2, hC, -, -⟩
  · rw [h1, h2]
  · rw [h1, h2]
    simp only [hC]
    exact elementLoop_AddAppliedForceContribution f pop snap i X v n n' hC _ _

theorem nodeForce_AddAppliedForceContribution
    (f : FarhadifarForceWithGrowingTargetAreas) (pop : VertexBasedCellPopulation)
    (snap : Snapshot) (i : ℕ) (X : Vec) (v : ℕ) :
    nodeForce f (pop.AddAppliedForceContribution i X) snap v = nodeForce f pop snap v := by
  unfold nodeForce
  rw [nodeContributions_AddAppliedForceContribution]

/-- The inner loop over cells that are well-formed incidences of the node: the three
running sums grow by the sums of the three terms of the specification. -/
theorem elementLoop_eq (f : FarhadifarForceWithGrowingTargetAreas)
    (pop : VertexBasedCellPopulation) (snap : Snapshot) (v : ℕ) (node : Node)
    (hnode : node.mContainingElementIndices = incidentCells pop v) (l : List ℕ)
    (hl : ∀ c ∈ l, c < pop.GetNumElements ∧ c ∈ incidentCells pop v
      ∧ v ∈ (elementAt pop c).mNodes ∧ (elementAt pop c).GetNumNodes < 2 ^ 31
      ∧ (∀ g ∈ (elementAt pop c).mNodes, g < pop.GetNumNodes ∧ c ∈ incidentCells pop g)
      ∧ Snapshot.AgreesAt pop snap (elementAt pop c).GetIndex) :
    ∀ acc, elementLoop f pop snap v node l acc
      = .ok { area_elasticity_contribution :=
                acc.area_elasticity_contribution + (l.map (Spec.areaTerm f pop v)).sum
              perimeter_contractility_contribution :=
                acc.perimeter_contractility_contribution
                  + (l.map (Spec.perimeterTerm f pop v)).sum
              line_tension_contribution :=
                acc.line_tension_contribution + (l.map (Spec.tensionTerm f pop v)).sum } := by
  induction l with
  | nil => intro acc; simp [elementLoop]
  | cons c rest ih =>
    intro acc
    obtain ⟨h1, h2, h3, h4, h5, h6⟩ := hl c (List.mem_cons_self c rest)
    simp only [elementLoop, elementStep_eq f pop snap v node acc c hnode h1 h2 h3 h4 h5 h6]
    rw [ih (fun c' hc' => hl c' (List.mem_cons_of_mem c hc'))]
    simp only [List.map_cons, List.sum_cons, add_assoc]

/-- A successful inner loop adds the area terms of the cells visited to the
area-elasticity sum. -/
theorem elementLoop_ok_area (f : FarhadifarForceWithGrowingTargetAreas)
    (pop : VertexBasedCellPopulation) (snap : Snapshot) (v : ℕ) (node : Node)
    (hag : ∀ e ∈ pop.mMesh.mElements, Snapshot.AgreesAt pop snap e.GetIndex) (l : List ℕ) :
    ∀ acc acc', elementLoop f pop snap v node l acc = .ok acc' →
      acc'.area_elasticity_contribution
        = acc.area_elasticity_contribution + (l.map (Spec.areaTerm f pop v)).sum := by
  induction l with
  | nil =>
    intro acc acc' h
    simp only [elementLoop] at h
    injection h with h
    subst h
    simp
  | cons c rest ih =>
    intro acc acc' h
    simp only [elementLoop] at h
    split at h
    · rename_i acc1 hstep
      rw [ih acc1 acc' h, elementStep_ok_area f pop snap v node acc acc1 c hag hstep]
      simp only [List.map_cons, List.sum_cons, add_assoc]
    · cases h

theorem elementLoop_error (f : FarhadifarForceWithGrowingTargetAreas)
    (pop : VertexBasedCellPopulation) (snap : Snapshot) (v : ℕ) (node : Node) (l : List ℕ) :
    ∀ acc err, elementLoop f pop snap v node l acc = .error err →
      err = .TopologyError ∨ err = .OutOfRange := by
  induction l with
  | nil => intro acc err h; simp [elementLoop] at h
  | cons c rest ih =>
    intro acc err h
    simp only [elementLoop] at h
    split at h
    · exact ih _ _ h
    · rename_i err' hstep
      injection h with h
      subst h
      exact elementStep_error f pop snap v node acc c hstep

/-- The visit of a node never fails with a `ConfigurationError`. -/
theorem nodeContributions_error (f : FarhadifarForceWithGrowingTargetAreas)
    (pop : VertexBasedCellPopulation) (snap : Snapshot) (v : ℕ) {err : Error}
    (h : nodeContributions f pop snap v = .error err) :
    err = .TopologyError ∨ err = .OutOfRange := by
  unfold nodeContributions at h
  simp only [bind, Except.bind] at h
  split at h
  · rename_i err' hnode
    injection h with h
    subst h
    exact Or.inr (GetNode_error pop hnode)
  · exact elementLoop_error f pop snap v _ _ _ _ h

/-- The visit of a node of a valid mesh, with tables that agree with the mesh: the
three running sums are the sums, over the incident cells, of the three terms of the
specification. -/
theorem nodeContributions_eq (f : FarhadifarForceWithGrowingTargetAreas)
    (pop : VertexBasedCellPopulation) (snap : Snapshot) (hvalid : ValidMesh pop)
    (hag : ∀ e ∈ pop.mMesh.mElements, Snapshot.AgreesAt pop snap e.GetIndex)
    {v : ℕ} (hv : v < pop.GetNumNodes) :
    nodeContributions f pop snap v
      = .ok { area_elasticity_contribution := ∑ c ∈ incidentCells pop v, Spec.areaTerm f pop v c
              perimeter_contractility_contribution :=
                ∑ c ∈ incidentCells pop v, Spec.perimeterTerm f pop v c
              line_tension_contribution :=
                ∑ c ∈ incidentCells pop v, Spec.tensionTerm f pop v c } := by
  obtain ⟨-, hin, hloop, hsmall⟩ := hvalid
  unfold nodeContributions
  simp only [bind, Except.bind, GetNode_eq pop hv]
  rw [elementLoop_eq f pop snap v (nodeAt pop v) rfl]
  · simp only [Contributions.zero, zero_add]
    rw [show (nodeAt pop v).mContainingElementIndices = incidentCells pop v from rfl,
      sum_map_sort, sum_map_sort, sum_map_sort]
  · intro c hc
    have hc' : c ∈ incidentCells pop v := by
      have := (Finset.mem_sort (· ≤ ·)).mp hc
      exact this
    obtain ⟨hcE, hvc⟩ := hin v hv c hc'
    exact ⟨hcE, hc', hvc, hsmall _ (elementAt_mem pop hcE), hloop c hcE,
      hag _ (elementAt_mem pop hcE)⟩

end Loops

section NodeLoop

open FarhadifarForceWithGrowingTargetAreas

theorem SameUpToForces.refl (pop : VertexBasedCellPopulation) : SameUpToForces pop pop :=
  ⟨rfl, rfl, rfl, rfl, rfl, rfl, rfl⟩

theorem SameUpToForces.trans {p q r : VertexBasedCellPopulation} (h1 : SameUpToForces p q)
    (h2 : SameUpToForces q r) : SameUpToForces p r := by
  obtain ⟨a1, a2, a3, a4, a5, a6, a7⟩ := h1
  obtain ⟨b1, b2, b3, b4, b5, b6, b7⟩ := h2
  exact ⟨b1.trans a1, b2.trans a2, b3.trans a3, b4.trans a4, b5.trans a5, b6.trans a6,
    b7.trans a7⟩

theorem SameUpToForces_AddAppliedForceContribution (pop : VertexBasedCellPopulation) (i : ℕ)
    (X : Vec) : SameUpToForces pop (pop.AddAppliedForceContribution i X) := by
  refine ⟨rfl, rfl, rfl, rfl, rfl, rfl, ?_⟩
  apply List.ext_getElem?
  intro j
  simp only [VertexBasedCellPopulation.AddAppliedForceContribution, List.getElem?_map,
    List.getElem?_modify]
  cases pop.mMesh.mNodes[j]? with
  | none => rfl
  | some n => by_cases h : i = j <;> simp [h]

theorem GetAppliedForce_AddAppliedForceContribution (pop : VertexBasedCellPopulation)
    (i : ℕ) (X : Vec) (j : ℕ) :
    (pop.AddAppliedForceContribution i X).GetAppliedForce j
      = pop.GetAppliedForce j + (if j = i ∧ j < pop.GetNumNodes then X else 0) := by
  unfold VertexBasedCellPopulation.GetAppliedForce
    VertexBasedCellPopulation.AddAppliedForceContribution VertexBasedCellPopulation.GetNumNodes
  simp only [List.getElem?_modify]
  by_cases hj : j < pop.mMesh.mNodes.length
  · rw [List.getElem?_eq_getElem hj]
    by_cases hij : i = j
    · subst hij; simp [hj]
    · simp [hij, Ne.symm hij]
  · rw [List.getElem?_eq_none (by omega)]
    simp [hj]

theorem nodeContributions_ok_lt (f : FarhadifarForceWithGrowingTargetAreas)
    (pop : VertexBasedCellPopulation) (snap : Snapshot) {v : ℕ} {acc : Contributions}
    (h : nodeContributions f pop snap v = .ok acc) : v < pop.GetNumNodes := by
  by_contra hv
  unfold nodeContributions VertexBasedCellPopulation.GetNode at h
  unfold VertexBasedCellPopulation.GetNumNodes at hv
  rw [List.getElem?_eq_none (by omega)] at h
  simp [bind, Except.bind] at h

/-- What the second loop does on any list of node indices: it visits a prefix `done`
of the list, every visit of the prefix succeeds, the run ends without failure exactly
when the prefix is the whole list and otherwise with the failure of the visit of the
next node; the applied force of a node has grown by its force once for each time the
node occurs in the prefix, and nothing else has changed. -/
theorem nodeLoop_spec (f : FarhadifarForceWithGrowingTargetAreas) (snap : Snapshot)
    (l : List ℕ) :
    ∀ pop : VertexBasedCellPopulation, ∃ done rest,
      l = done ++ rest
      ∧ (∀ v ∈ done, ∃ acc, nodeContributions f pop snap v = .ok acc)
      ∧ ((nodeLoop f snap l pop).error = none → rest = [])
      ∧ (∀ err, (nodeLoop f snap l pop).error = some err →
          ∃ v rest', rest = v :: rest' ∧ nodeContributions f pop snap v = .error err)
      ∧ (∀ j, (nodeLoop f snap l pop).population.GetAppliedForce j
          = pop.GetAppliedForce j + done.count j • nodeForce f pop snap j)
      ∧ SameUpToForces pop (nodeLoop f snap l pop).population := by
  induction l with
  | nil =>
    intro pop
    exact ⟨[], [], rfl, by simp, fun _ => rfl, by simp [nodeLoop], by simp [nodeLoop],
      SameUpToForces.refl pop⟩
  | cons v rest ih =>
    intro pop
    cases hv : nodeContributions f pop snap v with
    | error err =>
      refine ⟨[], v :: rest, rfl, by simp, ?_, ?_, ?_, ?_⟩
      · simp [nodeLoop, hv]
      · intro err' h
        simp only [nodeLoop, hv] at h
        injection h with h
        exact ⟨v, rest, rfl, h ▸ hv⟩
      · simp [nodeLoop, hv]
      · simp only [nodeLoop, hv]
        exact SameUpToForces.refl pop
    | ok acc =>
      obtain ⟨done, rest', hsplit, hdone, hnone, hsome, hforce, hsame⟩ :=
        ih (pop.AddAppliedForceContribution v acc.force_on_node)
      have hloop : nodeLoop f snap (v :: rest) pop
          = nodeLoop f snap rest (pop.AddAppliedForceContribution v acc.force_on_node) := by
        simp only [nodeLoop, hv]
      have hF : nodeForce f pop snap v = acc.force_on_node := by
        simp only [nodeForce, hv]
      refine ⟨v :: done, rest', by rw [hsplit]; rfl, ?_, ?_, ?_, ?_, ?_⟩
      · intro w hw
        rcases List.mem_cons.mp hw with rfl | hw'
        · exact ⟨acc, hv⟩
        · obtain ⟨acc', hacc'⟩ := hdone w hw'
          rw [nodeContributions_AddAppliedForceContribution] at hacc'
          exact ⟨acc', hacc'⟩
      · rw [hloop]; exact hnone
      · rw [hloop]
        intro err h
        obtain ⟨w, rest'', h1, h2⟩ := hsome err h
        rw [nodeContributions_AddAppliedForceContribution] at h2
        exact ⟨w, rest'', h1, h2⟩
      · intro j
        rw [hloop, hforce j, GetAppliedForce_AddAppliedForceContribution,
          nodeForce_AddAppliedForceContribution, List.count_cons]
        have hlt := nodeContributions_ok_lt f pop snap hv
        by_cases hjv : j = v
        · subst hjv
          simp only [hlt, and_self, if_true, beq_self_eq_true, add_smul, one_smul, hF]
          abel
        · have hvj : ¬ (v == j) = true := by simpa using Ne.symm hjv
          simp [hjv, hvj]
      · rw [hloop]
        exact (SameUpToForces_AddAppliedForceContribution pop v acc.force_on_node).trans hsame

end NodeLoop

section CyclicSums

theorem predecessor_succ (m i : ℕ) (hi : i < m + 1) : Spec.predecessor (m + 1) (i + 1) = i := by
  unfold Spec.predecessor
  have h : m + 1 + (i + 1) - 1 = i + (m + 1) := by omega
  rw [h, Nat.add_mod_right, Nat.mod_eq_of_lt hi]

theorem predecessor_zero (m : ℕ) : Spec.predecessor (m + 1) 0 = m := by
  unfold Spec.predecessor
  have h : m + 1 + 0 - 1 = m := by omega
  rw [h, Nat.mod_eq_of_lt (Nat.lt_succ_self m)]

theorem successor_predecessor {n i : ℕ} (hi : i < n) :
    Spec.successor n (Spec.predecessor n i) = i := by
  obtain ⟨m, rfl⟩ : ∃ m, n = m + 1 := ⟨n - 1, by omega⟩
  cases i with
  | zero =>
    rw [predecessor_zero]
    unfold Spec.successor
    simp
  | succ j =>
    rw [predecessor_succ m j (by omega)]
    unfold Spec.successor
    exact Nat.mod_eq_of_lt hi

/-- Summing over the predecessors of all local indices of a loop is summing over all
local indices. -/
theorem sum_predecessor (n : ℕ) (h : ℕ → Vec) :
    ∑ i ∈ Finset.range n, h (Spec.predecessor n i) = ∑ i ∈ Finset.range n, h i := by
  cases n with
  | zero => simp
  | succ m =>
    rw [Finset.sum_range_succ', predecessor_zero, Finset.sum_range_succ]
    congr 1
    apply Finset.sum_congr rfl
    intro i hi
    rw [predecessor_succ m i (by have := Finset.mem_range.mp hi; omega)]

theorem sum_map_eq_sum_range (g : ℕ → Vec) (l : List ℕ) :
    (l.map g).sum = ∑ i ∈ Finset.range l.length, g (l.getD i 0) := by
  induction l with
  | nil => simp
  | cons a rest ih =>
    rw [List.length_cons, Finset.sum_range_succ', List.map_cons, List.sum_cons, ih, add_comm]
    simp

theorem sum_toFinset_eq_sum_range (g : ℕ → Vec) (l : List ℕ) (hnd : l.Nodup) :
    ∑ v ∈ l.toFinset, g v = ∑ i ∈ Finset.range l.length, g (l.getD i 0) := by
  rw [List.sum_toFinset g hnd, sum_map_eq_sum_range]

end CyclicSums

section Balance

open FarhadifarForceWithGrowingTargetAreas

/-- The terms that one cell contributes to all the vertices of its loop cancel, when
the loop has no repeated vertex and the area gradients of the cell sum to zero. -/
theorem sum_cellTerm_loop (f : FarhadifarForceWithGrowingTargetAreas)
    (pop : VertexBasedCellPopulation) (c : ℕ)
    (hnd : (elementAt pop c).mNodes.Nodup)
    (harea : ∑ i ∈ Finset.range (elementAt pop c).GetNumNodes,
      pop.mMesh.GetAreaGradientOfElementAtNode (elementAt pop c) i = 0) :
    ∑ i ∈ Finset.range (elementAt pop c).GetNumNodes,
      Spec.cellTerm f pop ((elementAt pop c).mNodes.getD i 0) c = 0 := by
  set e := elementAt pop c with he
  set n := e.GetNumNodes with hn
  set g := pop.mMesh.GetNextEdgeGradientOfElementAtNode e with hg
  set h : ℕ → Vec := fun j =>
    Spec.tension f pop (e.mNodes.getD j 0) (e.mNodes.getD (Spec.successor n j) 0) • g j with hh
  have hterm : ∀ i ∈ Finset.range n,
      Spec.cellTerm f pop (e.mNodes.getD i 0) c
        = -((f.mAreaElasticityParameter
              * (pop.mMesh.GetVolumeOfElement e.GetIndex - targetAreaOf pop e.GetIndex))
            • pop.mMesh.GetAreaGradientOfElementAtNode e i)
          + (f.mPerimeterContractilityParameter * pop.mMesh.GetSurfaceAreaOfElement e.GetIndex)
            • (g (Spec.predecessor n i) - g i)
          + (h (Spec.predecessor n i) - h i) := by
    intro i hi
    have hi' : i < e.GetNumNodes := Finset.mem_range.mp hi
    have hloc := GetNodeLocalIndex_getD e hnd hi'
    simp only [Spec.cellTerm, Spec.areaTerm, Spec.perimeterTerm, Spec.tensionTerm, Spec.grad_p,
      Spec.grad_s, Spec.predecessorVertex, Spec.successorVertex, ← he, hloc, ← hn, ← hg, hh,
      successor_predecessor hi']
    simp only [smul_neg, smul_add, smul_sub, neg_add, neg_neg]
    abel
  rw [Finset.sum_congr rfl hterm]
  simp only [Finset.sum_add_distrib, Finset.sum_neg_distrib, ← Finset.smul_sum,
    Finset.sum_sub_distrib, sum_predecessor n g, sum_predecessor n h, harea]
  simp

/-- Global force balance for the force law of the specification. -/
theorem sum_force_eq_zero (f : FarhadifarForceWithGrowingTargetAreas)
    (pop : VertexBasedCellPopulation) (hvalid : ValidMesh pop) (hsimple : SimpleLoops pop)
    (htrans : TranslationInvariantArea pop) :
    ∑ v ∈ Finset.range pop.GetNumNodes, Spec.force f pop v = 0 := by
  obtain ⟨-, hin, hloop, -⟩ := hvalid
  unfold Spec.force
  have hswap : ∀ v c, (v ∈ Finset.range pop.GetNumNodes ∧ c ∈ incidentCells pop v)
      ↔ (v ∈ (elementAt pop c).mNodes.toFinset ∧ c ∈ Finset.range pop.GetNumElements) := by
    intro v c
    simp only [Finset.mem_range, List.mem_toFinset]
    constructor
    · rintro ⟨hv, hc⟩
      obtain ⟨h1, h2⟩ := hin v hv c hc
      exact ⟨h2, h1⟩
    · rintro ⟨hv, hc⟩
      exact hloop c hc v hv
  rw [Finset.sum_comm' hswap]
  apply Finset.sum_eq_zero
  intro c hc
  have hcE : c < pop.GetNumElements := Finset.mem_range.mp hc
  have hmem := elementAt_mem pop hcE
  rw [sum_toFinset_eq_sum_range _ _ (hsimple _ hmem)]
  exact sum_cellTerm_loop f pop c (hsimple _ hmem) (htrans _ hmem)

end Balance

section Main

open FarhadifarForceWithGrowingTargetAreas

theorem count_range (n j : ℕ) : (List.range n).count j = if j < n then 1 else 0 := by
  by_cases h : j < n
  · rw [if_pos h]
    exact List.count_eq_one_of_mem (List.nodup_range n) (List.mem_range.mpr h)
  · rw [if_neg h]
    exact List.count_eq_zero_of_not_mem (fun hm => h (List.mem_range.mp hm))

/-- A run that ends without failure has visited every node successfully, and has added
to the applied force of each node exactly the force computed for it. -/
theorem AddForceContribution_ok (f : FarhadifarForceWithGrowingTargetAreas)
    (pop : VertexBasedCellPopulation) (h : (AddForceContribution f pop).error = none) :
    ∃ snap, snapshotLoop pop pop.mMesh.mElements (Snapshot.init pop.GetNumElements) = .ok snap
      ∧ (∀ v < pop.GetNumNodes, ∃ acc, nodeContributions f pop snap v = .ok acc)
      ∧ (∀ v < pop.GetNumNodes, (AddForceContribution f pop).population.GetAppliedForce v
          = pop.GetAppliedForce v + nodeForce f pop snap v)
      ∧ SameUpToForces pop (AddForceContribution f pop).population := by
  unfold AddForceContribution at h ⊢
  simp only at h ⊢
  cases hsnap : snapshotLoop pop pop.mMesh.mElements (Snapshot.init pop.GetNumElements) with
  | error err => simp [hsnap] at h
  | ok snap =>
    simp only [hsnap] at h ⊢
    obtain ⟨done, rest, hsplit, hdone, hnone, -, hforce, hsame⟩ :=
      nodeLoop_spec f snap (List.range pop.GetNumNodes) pop
    have hrest := hnone h
    subst hrest
    rw [List.append_nil] at hsplit
    subst hsplit
    refine ⟨snap, rfl, fun v hv => hdone v (List.mem_range.mpr hv), fun v hv => ?_, hsame⟩
    rw [hforce v, count_range, if_pos hv, one_smul]

/-- On a valid mesh all of whose cells are growth-capable the run ends without failure
and adds to the applied force of each node the force of the specification. -/
theorem AddForceContribution_of_valid (f : FarhadifarForceWithGrowingTargetAreas)
    (pop : VertexBasedCellPopulation) (hvalid : ValidMesh pop) (hgrow : GrowthCapable pop) :
    (AddForceContribution f pop).error = none
    ∧ (∀ v < pop.GetNumNodes, (AddForceContribution f pop).population.GetAppliedForce v
        = pop.GetAppliedForce v + Spec.force f pop v)
    ∧ ∀ v < pop.GetNumNodes, evalContributions f pop v
        = .ok { area_elasticity_contribution := ∑ c ∈ incidentCells pop v, Spec.areaTerm f pop v c
                perimeter_contractility_contribution :=
                  ∑ c ∈ incidentCells pop v, Spec.perimeterTerm f pop v c
                line_tension_contribution :=
                  ∑ c ∈ incidentCells pop v, Spec.tensionTerm f pop v c } := by
  obtain ⟨snap, hsnap⟩ :=
    (snapshotLoop_inRange pop pop.mMesh.mElements hvalid.1
      (Snapshot.init_hasSize pop.GetNumElements)).1 hgrow
  have hag := snapshot_agrees pop hsnap
  have hnode := fun v (hv : v < pop.GetNumNodes) => nodeContributions_eq f pop snap hvalid hag hv
  have herr : (AddForceContribution f pop).error = none := by
    unfold AddForceContribution
    simp only [hsnap]
    obtain ⟨done, rest, hsplit, -, -, hsome, -, -⟩ :=
      nodeLoop_spec f snap (List.range pop.GetNumNodes) pop
    cases herr : (nodeLoop f snap (List.range pop.GetNumNodes) pop).error with
    | none => rfl
    | some err =>
      obtain ⟨v, rest', hrest, hfail⟩ := hsome err herr
      have hv : v < pop.GetNumNodes := by
        apply List.mem_range.mp
        rw [hsplit, hrest]
        simp
      rw [hnode v hv] at hfail
      cases hfail
  refine ⟨herr, fun v hv => ?_, fun v hv => ?_⟩
  · obtain ⟨snap', hsnap', -, hforce, -⟩ := AddForceContribution_ok f pop herr
    rw [hsnap] at hsnap'
    injection hsnap' with hsnap'
    subst hsnap'
    rw [hforce v hv]
    congr 1
    simp only [nodeForce, hnode v hv, Contributions.force_on_node, Spec.force, Spec.cellTerm,
      Finset.sum_add_distrib]
  · unfold evalContributions
    simp only [hsnap]
    exact hnode v hv

end Main

section ForceFormula

open FarhadifarForceWithGrowingTargetAreas

/-- C1.  On every valid mesh whose cells are all growth-capable, `AddForceContribution`
ends without failure and the force it delivers to a vertex `v` (the growth of the
applied force of `v`) is the sum, over the cells `c` of the incident-cell set of `v`, of
`-k_area * (Area_c - TargetArea_c) * gradArea_c(v) - k_perim * Perimeter_c * (grad_p + grad_s)
- (tension_p * grad_p + tension_s * grad_s)`, where `grad_s` is the next-edge gradient of
`c` at the local index of `v`, `grad_p` the negation of the next-edge gradient of `c` at
the local index of the predecessor, `tension_p` the resolver's value for (predecessor, `v`)
and `tension_s` its value for (`v`, successor). -/
theorem C1_force_is_sum_over_incident_cells (f : FarhadifarForceWithGrowingTargetAreas)
    (pop : VertexBasedCellPopulation) (hvalid : ValidMesh pop) (hgrow : GrowthCapable pop) :
    (AddForceContribution f pop).error = none
    ∧ ∀ v < pop.GetNumNodes,
        (AddForceContribution f pop).population.GetAppliedForce v - pop.GetAppliedForce v
          = ∑ c ∈ incidentCells pop v,
              (-((f.GetAreaElasticityParameter
                    * (pop.mMesh.GetVolumeOfElement (elementAt pop c).GetIndex
                        - targetAreaOf pop (elementAt pop c).GetIndex))
                  • pop.mMesh.GetAreaGradientOfElementAtNode (elementAt pop c)
                      ((elementAt pop c).GetNodeLocalIndex v))
                - (f.GetPerimeterContractilityParameter
                    * pop.mMesh.GetSurfaceAreaOfElement (elementAt pop c).GetIndex)
                  • (Spec.grad_p pop v c + Spec.grad_s pop v c)
                - (Spec.tension f pop (Spec.predecessorVertex pop v c) v • Spec.grad_p pop v c
                    + Spec.tension f pop v (Spec.successorVertex pop v c)
                      • Spec.grad_s pop v c)) := by
  obtain ⟨herr, hforce, -⟩ := AddForceContribution_of_valid f pop hvalid hgrow
  refine ⟨herr, fun v hv => ?_⟩
  rw [hforce v hv, add_sub_cancel_left]
  unfold Spec.force
  apply Finset.sum_congr rfl
  intro c _
  simp only [Spec.cellTerm, Spec.areaTerm, Spec.perimeterTerm, Spec.tensionTerm,
    GetAreaElasticityParameter, GetPerimeterContractilityParameter, sub_eq_add_neg]

/-- C1 on the two squares with the default coefficients: the mesh is valid, the run
ends without failure, and the node 1, on the shared edge, receives the force (0, 0.44). -/
theorem C1_force_is_sum_over_incident_cells_witness :
    ValidMesh Example.twoSquares ∧ GrowthCapable Example.twoSquares
    ∧ (AddForceContribution FarhadifarForceWithGrowingTargetAreas.new
        Example.twoSquares).error = none
    ∧ (AddForceContribution FarhadifarForceWithGrowingTargetAreas.new
        Example.twoSquares).population.GetAppliedForce 1 = (0, 11 / 25) :=
  ⟨by decide, by decide,
   (C1_force_is_sum_over_incident_cells FarhadifarForceWithGrowingTargetAreas.new
      Example.twoSquares (by decide) (by decide)).1,
   by decide!⟩

end ForceFormula

section Failure

open FarhadifarForceWithGrowingTargetAreas

theorem range_initial_segment {n : ℕ} {done rest : List ℕ} (h : List.range n = done ++ rest) :
    done = List.range done.length ∧ done.length + rest.length = n := by
  have hlen : done.length + rest.length = n := by
    have := congrArg List.length h
    simpa using this.symm
  refine ⟨?_, hlen⟩
  have htake := congrArg (List.take done.length) h
  rw [List.take_left' rfl, List.take_range, Nat.min_eq_left (by omega)] at htake
  exact htake.symm

/-- C5.  If at least one cell of the population has a cell-cycle model that is not an
`AreaBasedCellCycleModel`, `AddForceContribution` fails in the first loop, before any
vertex is visited: the population, and with it the applied force of every vertex, is
what it was before the call.  With every element index inside the tables the failure
is the `ConfigurationError`. -/
theorem C5_incapable_cell_fails_before_any_force (f : FarhadifarForceWithGrowingTargetAreas)
    (pop : VertexBasedCellPopulation)
    (h : ∃ e ∈ pop.mMesh.mElements, pop.mCellCycleModels e.GetIndex = .Other) :
    (AddForceContribution f pop).error ≠ none
    ∧ (AddForceContribution f pop).population = pop
    ∧ (∀ v, (AddForceContribution f pop).population.GetAppliedForce v = pop.GetAppliedForce v)
    ∧ (TablesInRange pop → (AddForceContribution f pop).error = some .ConfigurationError) := by
  obtain ⟨err, herr⟩ := snapshotLoop_fails_of_other pop pop.mMesh.mElements h
    (Snapshot.init pop.GetNumElements)
  have hout : AddForceContribution f pop = { population := pop, error := some err } := by
    unfold AddForceContribution
    simp only [herr]
  refine ⟨by simp [hout], by simp [hout], by simp [hout], fun hr => ?_⟩
  have hcfg := (snapshotLoop_inRange pop pop.mMesh.mElements hr
    (Snapshot.init_hasSize pop.GetNumElements)).2 h
  rw [hcfg] at herr
  injection herr with herr
  simp [hout, herr]

/-- C5 on the two squares where the second cell is not growth-capable: the run fails
with the `ConfigurationError` and the population is untouched. -/
theorem C5_incapable_cell_fails_before_any_force_witness :
    (∃ e ∈ Example.twoSquaresOneIncapable.mMesh.mElements,
        Example.twoSquaresOneIncapable.mCellCycleModels e.GetIndex = .Other)
    ∧ TablesInRange Example.twoSquaresOneIncapable
    ∧ (AddForceContribution FarhadifarForceWithGrowingTargetAreas.new
        Example.twoSquaresOneIncapable).error = some .ConfigurationError
    ∧ (AddForceContribution FarhadifarForceWithGrowingTargetAreas.new
        Example.twoSquaresOneIncapable).population = Example.twoSquaresOneIncapable :=
  ⟨by decide, by decide,
   (C5_incapable_cell_fails_before_any_force FarhadifarForceWithGrowingTargetAreas.new
      Example.twoSquaresOneIncapable (by decide)).2.2.2 (by decide),
   (C5_incapable_cell_fails_before_any_force FarhadifarForceWithGrowingTargetAreas.new
      Example.twoSquaresOneIncapable (by decide)).2.1⟩

/-- C6 fails as stated: on the two squares with the corrupted adjacency the run stops
with a `TopologyError` while visiting node 1, and node 0 has already received its
force (0.28, 0.28). -/
theorem C6_partial_forces_counterexample :
    (AddForceContribution FarhadifarForceWithGrowingTargetAreas.new Example.broken).error
        = some .TopologyError
    ∧ Example.broken.GetAppliedForce 0 = (0, 0)
    ∧ (AddForceContribution FarhadifarForceWithGrowingTargetAreas.new
        Example.broken).population.GetAppliedForce 0 = (7 / 25, 7 / 25) := by
  decide!

/-- C6, amended.  A failing run stops at the first vertex `k` whose visit fails: the
vertices below `k` have received their complete force, the vertices from `k` on have
received nothing, and nothing but applied forces has changed.  A failure with the
`ConfigurationError` happens before any vertex is visited and leaves the population
untouched. -/
theorem C6_failure_keeps_forces_of_earlier_vertices
    (f : FarhadifarForceWithGrowingTargetAreas) (pop : VertexBasedCellPopulation) (err : Error)
    (h : (AddForceContribution f pop).error = some err) :
    (err = .ConfigurationError → (AddForceContribution f pop).population = pop)
    ∧ SameUpToForces pop (AddForceContribution f pop).population
    ∧ ∃ k, k ≤ pop.GetNumNodes
        ∧ (k < pop.GetNumNodes → evalContributions f pop k = .error err)
        ∧ (∀ v < k, ∃ acc, evalContributions f pop v = .ok acc
            ∧ (AddForceContribution f pop).population.GetAppliedForce v
                = pop.GetAppliedForce v + acc.force_on_node)
        ∧ (∀ v, k ≤ v →
            (AddForceContribution f pop).population.GetAppliedForce v
              = pop.GetAppliedForce v) := by
  unfold AddForceContribution at h ⊢
  unfold evalContributions
  simp only at h ⊢
  cases hsnap : snapshotLoop pop pop.mMesh.mElements (Snapshot.init pop.GetNumElements) with
  | error err' =>
    simp only [hsnap] at h ⊢
    injection h with h
    subst h
    refine ⟨?_, SameUpToForces.refl pop, 0, Nat.zero_le _, ?_, ?_, ?_⟩
    · simp
    · simp
    · intro v hv
      exact absurd hv (Nat.not_lt_zero v)
    · simp
  | ok snap =>
    simp only [hsnap] at h ⊢
    obtain ⟨done, rest, hsplit, hdone, -, hsome, hforce, hsame⟩ :=
      nodeLoop_spec f snap (List.range pop.GetNumNodes) pop
    obtain ⟨w, rest', hrest, hfail⟩ := hsome err h
    obtain ⟨hpre, hlen⟩ := range_initial_segment hsplit
    have hw : w = done.length := by
      have h1 : (List.range pop.GetNumNodes)[done.length]? = some w := by
        rw [hsplit, hrest, List.getElem?_append_right (Nat.le_refl _)]
        simp
      rw [List.getElem?_range (by rw [hrest] at hlen; simp at hlen; omega)] at h1
      injection h1 with h1
      exact h1.symm
    have hk : done.length < pop.GetNumNodes := by
      rw [hrest] at hlen; simp at hlen; omega
    refine ⟨fun hcfg => ?_, hsame, done.length, Nat.le_of_lt hk, fun _ => hw ▸ hfail, ?_, ?_⟩
    · rcases nodeContributions_error f pop snap w hfail with h1 | h1 <;>
        rw [hcfg] at h1 <;> cases h1
    · intro v hv
      have hvd : v ∈ done := by rw [hpre]; exact List.mem_range.mpr hv
      obtain ⟨acc, hacc⟩ := hdone v hvd
      refine ⟨acc, hacc, ?_⟩
      rw [hforce v, hpre, count_range, if_pos hv, one_smul]
      simp only [nodeForce, hacc]
    · intro v hv
      rw [hforce v, hpre, count_range, if_neg (by omega), zero_smul, add_zero]

/-- C6, amended, on the two squares with the corrupted adjacency: the run fails with
the `TopologyError`, which is not the `ConfigurationError`, and has changed nothing but
applied forces. -/
theorem C6_failure_keeps_forces_of_earlier_vertices_witness :
    (AddForceContribution FarhadifarForceWithGrowingTargetAreas.new Example.broken).error
        = some .TopologyError
    ∧ SameUpToForces Example.broken
        (AddForceContribution FarhadifarForceWithGrowingTargetAreas.new Example.broken).population :=
  ⟨by decide!,
   (C6_failure_keeps_forces_of_earlier_vertices FarhadifarForceWithGrowingTargetAreas.new
      Example.broken .TopologyError (by decide!)).2.1⟩

end Failure

section GlobalBalance

open FarhadifarForceWithGrowingTargetAreas

end GlobalBalance

section Locality

open FarhadifarForceWithGrowingTargetAreas

theorem ValidMesh_withTargetArea (pop : VertexBasedCellPopulation) (k : ℕ) (T : ℚ)
    (h : ValidMesh pop) : ValidMesh (withTargetArea pop k T) := h

theorem GrowthCapable_withTargetArea (pop : VertexBasedCellPopulation) (k : ℕ) (T : ℚ)
    (h : GrowthCapable pop) : GrowthCapable (withTargetArea pop k T) := by
  intro e he
  show Function.update pop.mCellCycleModels k (.AreaBased T) e.GetIndex ≠ .Other
  by_cases hk : e.GetIndex = k
  · rw [hk, Function.update_same]
    exact fun h' => by cases h'
  · rw [Function.update_noteq hk]
    exact h e he

theorem targetAreaOf_withTargetArea (pop : VertexBasedCellPopulation) (k : ℕ) (T : ℚ) (j : ℕ) :
    targetAreaOf (withTargetArea pop k T) j = if j = k then T else targetAreaOf pop j := by
  unfold targetAreaOf withTargetArea
  by_cases hj : j = k
  · subst hj
    simp
  · simp [hj, Function.update_noteq hj]

theorem areaTerm_withTargetArea (f : FarhadifarForceWithGrowingTargetAreas)
    (pop : VertexBasedCellPopulation) (k : ℕ) (T : ℚ) (v c : ℕ) :
    Spec.areaTerm f (withTargetArea pop k T) v c
      = Spec.areaTerm f pop v c
        + if (elementAt pop c).GetIndex = k then
            (f.GetAreaElasticityParameter * (T - targetAreaOf pop k))
              • pop.mMesh.GetAreaGradientOfElementAtNode (elementAt pop c)
                  ((elementAt pop c).GetNodeLocalIndex v)
          else 0 := by
  have hel : elementAt (withTargetArea pop k T) c = elementAt pop c := rfl
  have hmesh : (withTargetArea pop k T).mMesh = pop.mMesh := rfl
  simp only [Spec.areaTerm, hel, hmesh, targetAreaOf_withTargetArea, GetAreaElasticityParameter]
  by_cases hk : (elementAt pop c).GetIndex = k
  · simp only [hk, if_true]
    module
  · simp only [hk, if_false, add_zero]

/-- C8.  Locality: on a valid mesh with growth-capable cells where the element stored at
position `c` carries the index `c`, replacing the target area of the cell `k` by `T'` and
leaving everything else alone does not change the perimeter-contractility term nor the
line-tension term of any vertex, changes nothing at all for a vertex that does not have
`k` among its incident cells, and changes the force on a vertex `v` of `k` by exactly
`k_area * (T' - T) * gradArea_k(v)`, where `T` was the target area of `k`.  The forces
that `AddForceContribution` delivers are the sums of the three terms in both
evaluations. -/
theorem C8_locality_of_target_area (f : FarhadifarForceWithGrowingTargetAreas)
    (pop : VertexBasedCellPopulation) (k : ℕ) (T' : ℚ) (hvalid : ValidMesh pop)
    (hgrow : GrowthCapable pop) (hidx : IndexConsistent pop) (v : ℕ)
    (hv : v < pop.GetNumNodes) :
    ∃ a a', evalContributions f pop v = .ok a
      ∧ evalContributions f (withTargetArea pop k T') v = .ok a'
      ∧ (AddForceContribution f pop).population.GetAppliedForce v
          = pop.GetAppliedForce v + a.force_on_node
      ∧ (AddForceContribution f (withTargetArea pop k T')).population.GetAppliedForce v
          = pop.GetAppliedForce v + a'.force_on_node
      ∧ a'.perimeter_contractility_contribution = a.perimeter_contractility_contribution
      ∧ a'.line_tension_contribution = a.line_tension_contribution
      ∧ (k ∉ incidentCells pop v → a' = a)
      ∧ (k ∈ incidentCells pop v →
          a'.force_on_node - a.force_on_node
            = (f.GetAreaElasticityParameter * (T' - targetAreaOf pop k))
              • pop.mMesh.GetAreaGradientOfElementAtNode (elementAt pop k)
                  ((elementAt pop k).GetNodeLocalIndex v)) := by
  obtain ⟨-, hforce, heval⟩ := AddForceContribution_of_valid f pop hvalid hgrow
  obtain ⟨-, hforce', heval'⟩ := AddForceContribution_of_valid f (withTargetArea pop k T')
    (ValidMesh_withTargetArea pop k T' hvalid) (GrowthCapable_withTargetArea pop k T' hgrow)
  have hcells : incidentCells (withTargetArea pop k T') v = incidentCells pop v := rfl
  have hperim : ∀ c, Spec.perimeterTerm f (withTargetArea pop k T') v c
      = Spec.perimeterTerm f pop v c := fun _ => rfl
  have htens : ∀ c, Spec.tensionTerm f (withTargetArea pop k T') v c
      = Spec.tensionTerm f pop v c := fun _ => rfl
  have hconsistent : ∀ c ∈ incidentCells pop v, (elementAt pop c).GetIndex = c :=
    fun c hc => hidx c (hvalid.2.1 v hv c hc).1
  have harea : ∑ c ∈ incidentCells pop v, Spec.areaTerm f (withTargetArea pop k T') v c
      = ∑ c ∈ incidentCells pop v, Spec.areaTerm f pop v c
        + if k ∈ incidentCells pop v then
            (f.GetAreaElasticityParameter * (T' - targetAreaOf pop k))
              • pop.mMesh.GetAreaGradientOfElementAtNode (elementAt pop k)
                  ((elementAt pop k).GetNodeLocalIndex v)
          else 0 := by
    rw [← Finset.sum_ite_eq' (incidentCells pop v) k (fun c =>
        (f.GetAreaElasticityParameter * (T' - targetAreaOf pop k))
          • pop.mMesh.GetAreaGradientOfElementAtNode (elementAt pop c)
              ((elementAt pop c).GetNodeLocalIndex v)), ← Finset.sum_add_distrib]
    apply Finset.sum_congr rfl
    intro c hc
    rw [areaTerm_withTargetArea, hconsistent c hc]
  have hGet : (withTargetArea pop k T').GetAppliedForce v = pop.GetAppliedForce v := rfl
  refine ⟨_, _, heval v hv, heval' v hv, ?_, ?_, ?_, ?_, ?_, ?_⟩
  · rw [hforce v hv]
    simp only [Contributions.force_on_node, Spec.force, Spec.cellTerm, Finset.sum_add_distrib]
  · rw [hforce' v hv, hGet]
    simp only [Contributions.force_on_node, Spec.force, Spec.cellTerm, Finset.sum_add_distrib]
  · simp only [hcells, hperim]
  · simp only [hcells, htens]
  · intro hk
    simp only [hcells, hperim, htens, harea, if_neg hk, add_zero]
  · intro hk
    simp only [Contributions.force_on_node, hcells, hperim, htens, harea, if_pos hk]
    abel

/-- C8 on the two squares: the target area of the cell 1 is raised from 1 to 2.  Node 0
is not a vertex of the cell 1 and receives the same force (0.28, 0.28) in both
evaluations, while node 2 receives (-0.28, 0.28) before and (0.22, -0.22) after. -/
theorem C8_locality_of_target_area_witness :
    ValidMesh Example.twoSquares ∧ GrowthCapable Example.twoSquares
    ∧ IndexConsistent Example.twoSquares
    ∧ (∃ a a', evalContributions FarhadifarForceWithGrowingTargetAreas.new
          Example.twoSquares 2 = .ok a
        ∧ evalContributions FarhadifarForceWithGrowingTargetAreas.new
          (withTargetArea Example.twoSquares 1 2) 2 = .ok a'
        ∧ a'.perimeter_contractility_contribution = a.perimeter_contractility_contribution
        ∧ a'.line_tension_contribution = a.line_tension_contribution)
    ∧ (AddForceContribution FarhadifarForceWithGrowingTargetAreas.new
        Example.twoSquares).population.GetAppliedForce 0 = (7 / 25, 7 / 25)
    ∧ (AddForceContribution FarhadifarForceWithGrowingTargetAreas.new
        (withTargetArea Example.twoSquares 1 2)).population.GetAppliedForce 0 = (7 / 25, 7 / 25)
    ∧ (AddForceContribution FarhadifarForceWithGrowingTargetAreas.new
        Example.twoSquares).population.GetAppliedForce 2 = (-7 / 25, 7 / 25)
    ∧ (AddForceContribution FarhadifarForceWithGrowingTargetAreas.new
        (withTargetArea Example.twoSquares 1 2)).population.GetAppliedForce 2
          = (11 / 50, -11 / 50) := by
  refine ⟨by decide, by decide, by decide, ?_, by decide!, by decide!, by decide!, by decide!⟩
  obtain ⟨a, a', h1, h2, -, -, h5, h6, -, -⟩ :=
    C8_locality_of_target_area FarhadifarForceWithGrowingTargetAreas.new Example.twoSquares 1 2
      (by decide) (by decide) (by decide) 2 (by decide)
  exact ⟨a, a', h1, h2, h5, h6⟩

end Locality

section ZeroDrive

open FarhadifarForceWithGrowingTargetAreas

/-- A successful visit of a node leaves, as area-elasticity sum, the sum of the area
terms of the specification over the incident cells. -/
theorem nodeContributions_ok_area (f : FarhadifarForceWithGrowingTargetAreas)
    (pop : VertexBasedCellPopulation) (snap : Snapshot)
    (hag : ∀ e ∈ pop.mMesh.mElements, Snapshot.AgreesAt pop snap e.GetIndex)
    {v : ℕ} {acc : Contributions} (h : nodeContributions f pop snap v = .ok acc) :
    acc.area_elasticity_contribution = ∑ c ∈ incidentCells pop v, Spec.areaTerm f pop v c := by
  have hv := nodeContributions_ok_lt f pop snap h
  unfold nodeContributions at h
  simp only [bind, Except.bind, GetNode_eq pop hv] at h
  rw [elementLoop_ok_area f pop snap v _ hag _ _ _ h, sum_map_sort]
  simp [Contributions.zero, incidentCells]

/-- C9.  Zero-drive: when every incident cell of a vertex has its measured area equal to
its target area, the area-elasticity sum that the visit of the vertex accumulates is
the zero vector, whatever `k_area` and the area gradients are, so the force on the
vertex, and the force `AddForceContribution` delivers to it, is the
perimeter-contractility term plus the line-tension term. -/
theorem C9_zero_drive (f : FarhadifarForceWithGrowingTargetAreas)
    (pop : VertexBasedCellPopulation) (v : ℕ) (acc : Contributions)
    (hzero : ∀ c ∈ incidentCells pop v,
      pop.mMesh.GetVolumeOfElement (elementAt pop c).GetIndex
        = targetAreaOf pop (elementAt pop c).GetIndex)
    (h : evalContributions f pop v = .ok acc) :
    acc.area_elasticity_contribution = 0
    ∧ acc.force_on_node
        = acc.perimeter_contractility_contribution + acc.line_tension_contribution
    ∧ ((AddForceContribution f pop).error = none →
        (AddForceContribution f pop).population.GetAppliedForce v
          = pop.GetAppliedForce v
            + (acc.perimeter_contractility_contribution + acc.line_tension_contribution)) := by
  unfold evalContributions at h
  cases hsnap : snapshotLoop pop pop.mMesh.mElements (Snapshot.init pop.GetNumElements) with
  | error err => simp [hsnap] at h
  | ok snap =>
    simp only [hsnap] at h
    have harea : acc.area_elasticity_contribution = 0 := by
      rw [nodeContributions_ok_area f pop snap (snapshot_agrees pop hsnap) h]
      apply Finset.sum_eq_zero
      intro c hc
      simp [Spec.areaTerm, hzero c hc]
    have hsum : acc.force_on_node
        = acc.perimeter_contractility_contribution + acc.line_tension_contribution := by
      simp [Contributions.force_on_node, harea]
    refine ⟨harea, hsum, fun herr => ?_⟩
    obtain ⟨snap', hsnap', -, hforce, -⟩ := AddForceContribution_ok f pop herr
    rw [hsnap] at hsnap'
    injection hsnap' with hsnap'
    subst hsnap'
    rw [hforce v (nodeContributions_ok_lt f pop snap h), ← hsum]
    simp only [nodeForce, h]

/-- C9 on the single square whose target area is its area, one: the visit of the
vertex 0 succeeds with a zero area-elasticity sum, and the force delivered to it is
(0.28, 0.28), all of it from the perimeter and line-tension terms. -/
theorem C9_zero_drive_witness :
    (∀ c ∈ incidentCells (Example.square 1) 0,
        (Example.square 1).mMesh.GetVolumeOfElement (elementAt (Example.square 1) c).GetIndex
          = targetAreaOf (Example.square 1) (elementAt (Example.square 1) c).GetIndex)
    ∧ (∃ acc, evalContributions FarhadifarForceWithGrowingTargetAreas.new (Example.square 1) 0
          = .ok acc
        ∧ acc.area_elasticity_contribution = 0
        ∧ acc.force_on_node
            = acc.perimeter_contractility_contribution + acc.line_tension_contribution)
    ∧ (AddForceContribution FarhadifarForceWithGrowingTargetAreas.new
        (Example.square 1)).population.GetAppliedForce 0 = (7 / 25, 7 / 25) := by
  refine ⟨by decide!, ?_, by decide!⟩
  obtain ⟨-, -, heval⟩ := AddForceContribution_of_valid
    FarhadifarForceWithGrowingTargetAreas.new (Example.square 1) (by decide) (by decide)
  have h := heval 0 (by decide)
  exact ⟨_, h, (C9_zero_drive FarhadifarForceWithGrowingTargetAreas.new (Example.square 1) 0 _
    (by decide!) h).1, (C9_zero_drive FarhadifarForceWithGrowingTargetAreas.new
    (Example.square 1) 0 _ (by decide!) h).2.1⟩

end ZeroDrive

section SignProperty

open FarhadifarForceWithGrowingTargetAreas

/-- The shoelace area of the square is an affine function of each of its vertices, and
`shoelaceAreaGradient` is its gradient: moving the vertex at local index `i` by `d`
changes the area by the inner product of the gradient with `d`. -/
theorem shoelaceAreaGradient_square (i : ℕ) (hi : i < 4) (d : Vec) :
    Example.shoelaceArea (Example.moveVertex Example.squareLoop i d)
      = Example.shoelaceArea Example.squareLoop
        + inner_prod (Example.shoelaceAreaGradient Example.squareLoop i) d := by
  have hloop : Example.squareLoop = [(0, 0), (1, 0), (1, 1), (0, 1)] := by decide!
  rw [hloop]
  obtain ⟨d1, d2⟩ := d
  interval_cases i <;>
    simp [Example.shoelaceArea, Example.moveVertex, Example.shoelaceAreaGradient, inner_prod,
      Finset.sum_range_succ] <;> ring

/-- C10.  Sign property: for the single square cell with loop (0,0), (1,0), (1,1), (0,1),
area 1, target area 0.5 and positive `k_area`, with the shoelace area gradient, the
area-elasticity sum at each vertex is `-k_area * (Area - Target) * gradArea`, which is
`k_area` times (0.25, 0.25), (-0.25, 0.25), (-0.25, -0.25), (0.25, -0.25) at the four
vertices, and has a strictly positive inner product with the vector from the vertex to
the centre (0.5, 0.5). -/
theorem C10_sign_property_square (f : FarhadifarForceWithGrowingTargetAreas)
    (hk : 0 < f.GetAreaElasticityParameter) :
    (Example.square (1 / 2)).mMesh.GetVolumeOfElement 0 = 1
    ∧ targetAreaOf (Example.square (1 / 2)) 0 = 1 / 2
    ∧ ∀ v < 4, ∃ acc, evalContributions f (Example.square (1 / 2)) v = .ok acc
        ∧ acc.area_elasticity_contribution
            = -((f.GetAreaElasticityParameter * (1 - 1 / 2))
                • (Example.square (1 / 2)).mMesh.GetAreaGradientOfElementAtNode
                    (elementAt (Example.square (1 / 2)) 0) v)
        ∧ (Example.square (1 / 2)).mMesh.GetAreaGradientOfElementAtNode
            (elementAt (Example.square (1 / 2)) 0) v
            = Example.shoelaceAreaGradient Example.squareLoop v
        ∧ acc.area_elasticity_contribution
            = f.GetAreaElasticityParameter • Example.squareShrinkingForces.getD v 0
        ∧ 0 < inner_prod acc.area_elasticity_contribution
            (Example.squareCentre - (nodeAt (Example.square (1 / 2)) v).mLocation) := by
  refine ⟨by decide!, by decide!, fun v hv => ?_⟩
  obtain ⟨-, -, heval⟩ := AddForceContribution_of_valid f (Example.square (1 / 2))
    (by decide) (by decide)
  have hN : (Example.square (1 / 2)).GetNumNodes = 4 := by decide
  refine ⟨_, heval v (by rw [hN]; exact hv), ?_⟩
  have hcells : incidentCells (Example.square (1 / 2)) v = {0} := by
    interval_cases v <;> decide
  have hlocal : (elementAt (Example.square (1 / 2)) 0).GetNodeLocalIndex v = v := by
    interval_cases v <;> decide
  have hvol : (Example.square (1 / 2)).mMesh.GetVolumeOfElement
      (elementAt (Example.square (1 / 2)) 0).GetIndex = 1 := by decide!
  have htar : targetAreaOf (Example.square (1 / 2))
      (elementAt (Example.square (1 / 2)) 0).GetIndex = 1 / 2 := by decide!
  have harea : ∑ c ∈ incidentCells (Example.square (1 / 2)) v,
        Spec.areaTerm f (Example.square (1 / 2)) v c
      = -((f.GetAreaElasticityParameter * (1 - 1 / 2))
          • (Example.square (1 / 2)).mMesh.GetAreaGradientOfElementAtNode
              (elementAt (Example.square (1 / 2)) 0) v) := by
    rw [hcells, Finset.sum_singleton]
    simp only [Spec.areaTerm, hlocal, hvol, htar, GetAreaElasticityParameter]
  have hgrad : (Example.square (1 / 2)).mMesh.GetAreaGradientOfElementAtNode
      (elementAt (Example.square (1 / 2)) 0) v
      = -((2 : ℚ) • Example.squareShrinkingForces.getD v 0) := by
    interval_cases v <;> decide!
  have hdir : Example.squareCentre - (nodeAt (Example.square (1 / 2)) v).mLocation
      = (2 : ℚ) • Example.squareShrinkingForces.getD v 0 := by
    interval_cases v <;> decide!
  have hnorm : inner_prod (Example.squareShrinkingForces.getD v 0)
      (Example.squareShrinkingForces.getD v 0) = 1 / 8 := by
    interval_cases v <;> decide!
  have hvalue : -((f.GetAreaElasticityParameter * (1 - 1 / 2))
          • (Example.square (1 / 2)).mMesh.GetAreaGradientOfElementAtNode
              (elementAt (Example.square (1 / 2)) 0) v)
      = f.GetAreaElasticityParameter • Example.squareShrinkingForces.getD v 0 := by
    rw [hgrad]
    module
  refine ⟨harea, ?_, ?_, ?_⟩
  · interval_cases v <;> decide!
  · simp only [harea, hvalue]
  · simp only [harea, hvalue, hdir]
    have hexpand : inner_prod
        (f.GetAreaElasticityParameter • Example.squareShrinkingForces.getD v 0)
        ((2 : ℚ) • Example.squareShrinkingForces.getD v 0)
        = 2 * f.GetAreaElasticityParameter
          * inner_prod (Example.squareShrinkingForces.getD v 0)
              (Example.squareShrinkingForces.getD v 0) := by
      simp only [inner_prod, Prod.smul_fst, Prod.smul_snd, smul_eq_mul]
      ring
    rw [hexpand, hnorm]
    linarith

/-- C10 for the default force, whose `k_area` is one: the area-elasticity sum at the
vertex (0,0) is (0.25, 0.25), and it points towards the centre. -/
theorem C10_sign_property_square_witness :
    0 < FarhadifarForceWithGrowingTargetAreas.new.GetAreaElasticityParameter
    ∧ ∃ acc, evalContributions FarhadifarForceWithGrowingTargetAreas.new
          (Example.square (1 / 2)) 0 = .ok acc
        ∧ acc.area_elasticity_contribution
            = FarhadifarForceWithGrowingTargetAreas.new.GetAreaElasticityParameter
              • Example.squareShrinkingForces.getD 0 0
        ∧ 0 < inner_prod acc.area_elasticity_contribution
            (Example.squareCentre - (nodeAt (Example.square (1 / 2)) 0).mLocation) := by
  have hk : 0 < FarhadifarForceWithGrowingTargetAreas.new.GetAreaElasticityParameter := by
    decide!
  obtain ⟨acc, h1, -, -, h4, h5⟩ :=
    (C10_sign_property_square FarhadifarForceWithGrowingTargetAreas.new hk).2.2 0 (by decide)
  exact ⟨hk, acc, h1, h4, h5⟩

end SignProperty

section TensionAndParameters

open FarhadifarForceWithGrowingTargetAreas

theorem inter_comm_card (A B : Node) :
    (B.mContainingElementIndices ∩ A.mContainingElementIndices)
      = (A.mContainingElementIndices ∩ B.mContainingElementIndices) :=
  Finset.inter_comm _ _

/-- The resolver does not depend on the order of its two nodes. -/
theorem GetLineTensionParameterOfEdge_comm (f : FarhadifarForceWithGrowingTargetAreas)
    (A B : Node) (pop : VertexBasedCellPopulation) :
    f.GetLineTensionParameterOfEdge A B pop = f.GetLineTensionParameterOfEdge B A pop := by
  unfold GetLineTensionParameterOfEdge
  simp only [inter_comm_card A B]

/-- C11.  Tension conservation: for every edge whose endpoints share exactly two cells,
the resolver's value for the traversal (A, B) and its value for the opposite traversal
(B, A) are both `L / 2` and sum to `L`, which is the value the resolver returns for every
boundary edge (endpoints sharing exactly one cell). -/
theorem C11_tension_conservation (f : FarhadifarForceWithGrowingTargetAreas)
    (A B : Node) (pop : VertexBasedCellPopulation)
    (h : (A.mContainingElementIndices ∩ B.mContainingElementIndices).card = 2) :
    f.GetLineTensionParameterOfEdge A B pop = .ok (f.GetLineTensionParameter / 2)
    ∧ f.GetLineTensionParameterOfEdge B A pop = .ok (f.GetLineTensionParameter / 2)
    ∧ f.GetLineTensionParameter / 2 + f.GetLineTensionParameter / 2
        = f.GetLineTensionParameter
    ∧ ∀ C D : Node, (C.mContainingElementIndices ∩ D.mContainingElementIndices).card = 1 →
        f.GetLineTensionParameterOfEdge C D pop
          = .ok (f.GetLineTensionParameter / 2 + f.GetLineTensionParameter / 2) := by
  have hne : A.mContainingElementIndices ∩ B.mContainingElementIndices ≠ ∅ := by
    intro h0
    rw [h0] at h
    simp at h
  have hAB : f.GetLineTensionParameterOfEdge A B pop = .ok (f.GetLineTensionParameter / 2) := by
    rw [GetLineTensionParameterOfEdge_of_nonempty f A B pop hne, h]
    simp [GetLineTensionParameter]
  refine ⟨hAB, ?_, add_halves _, fun C D hCD => ?_⟩
  · rw [← GetLineTensionParameterOfEdge_comm]
    exact hAB
  · have hne' : C.mContainingElementIndices ∩ D.mContainingElementIndices ≠ ∅ := by
      intro h0
      rw [h0] at hCD
      simp at hCD
    rw [GetLineTensionParameterOfEdge_of_nonempty f C D pop hne', hCD, add_halves]
    simp [GetLineTensionParameter]

/-- C11 on the two squares with the default force, `L = 0.12`: the shared edge between the
nodes 1 and 4 resolves to 0.06 in each direction, the two values sum to 0.12, and the
boundary edge between the nodes 0 and 1 resolves to 0.12. -/
theorem C11_tension_conservation_witness :
    ((nodeAt Example.twoSquares 1).mContainingElementIndices
        ∩ (nodeAt Example.twoSquares 4).mContainingElementIndices).card = 2
    ∧ FarhadifarForceWithGrowingTargetAreas.new.GetLineTensionParameterOfEdge
        (nodeAt Example.twoSquares 1) (nodeAt Example.twoSquares 4) Example.twoSquares
        = .ok 0.06
    ∧ FarhadifarForceWithGrowingTargetAreas.new.GetLineTensionParameterOfEdge
        (nodeAt Example.twoSquares 4) (nodeAt Example.twoSquares 1) Example.twoSquares
        = .ok 0.06
    ∧ (0.06 : ℚ) + 0.06 = 0.12
    ∧ FarhadifarForceWithGrowingTargetAreas.new.GetLineTensionParameterOfEdge
        (nodeAt Example.twoSquares 0) (nodeAt Example.twoSquares 1) Example.twoSquares
        = .ok 0.12 := by
  have hL : FarhadifarForceWithGrowingTargetAreas.new.GetLineTensionParameter / 2 = 0.06 := by
    norm_num [GetLineTensionParameter, FarhadifarForceWithGrowingTargetAreas.new]
  have hL2 : FarhadifarForceWithGrowingTargetAreas.new.GetLineTensionParameter / 2
      + FarhadifarForceWithGrowingTargetAreas.new.GetLineTensionParameter / 2 = 0.12 := by
    norm_num [GetLineTensionParameter, FarhadifarForceWithGrowingTargetAreas.new]
  obtain ⟨h1, h2, -, h4⟩ := C11_tension_conservation
    FarhadifarForceWithGrowingTargetAreas.new (nodeAt Example.twoSquares 1)
    (nodeAt Example.twoSquares 4) Example.twoSquares (by decide)
  have h5 := h4 (nodeAt Example.twoSquares 0) (nodeAt Example.twoSquares 1) (by decide)
  rw [hL] at h1 h2
  rw [hL2] at h5
  exact ⟨by decide, h1, h2, by norm_num, h5⟩

/-- C12.  A freshly constructed force has area elasticity coefficient 1.0, perimeter
contractility coefficient 0.04 and line tension coefficient 0.12, as reported by the
three getters. -/
theorem C12_default_parameters :
    FarhadifarForceWithGrowingTargetAreas.new.GetAreaElasticityParameter = 1.0
    ∧ FarhadifarForceWithGrowingTargetAreas.new.GetPerimeterContractilityParameter = 0.04
    ∧ FarhadifarForceWithGrowingTargetAreas.new.GetLineTensionParameter = 0.12 := by
  refine ⟨?_, ?_, ?_⟩ <;>
    norm_num [GetAreaElasticityParameter, GetPerimeterContractilityParameter,
      GetLineTensionParameter, FarhadifarForceWithGrowingTargetAreas.new]

/-- C13.  Set/get round trip with frame: after each of the three setters its own getter
returns the value set, and the two other getters return what they returned before. -/
theorem C13_set_get_round_trip (f : FarhadifarForceWithGrowingTargetAreas) (x : ℚ) :
    ((f.SetAreaElasticityParameter x).GetAreaElasticityParameter = x
      ∧ (f.SetAreaElasticityParameter x).GetPerimeterContractilityParameter
          = f.GetPerimeterContractilityParameter
      ∧ (f.SetAreaElasticityParameter x).GetLineTensionParameter = f.GetLineTensionParameter)
    ∧ ((f.SetPerimeterContractilityParameter x).GetPerimeterContractilityParameter = x
      ∧ (f.SetPerimeterContractilityParameter x).GetAreaElasticityParameter
          = f.GetAreaElasticityParameter
      ∧ (f.SetPerimeterContractilityParameter x).GetLineTensionParameter
          = f.GetLineTensionParameter)
    ∧ ((f.SetLineTensionParameter x).GetLineTensionParameter = x
      ∧ (f.SetLineTensionParameter x).GetAreaElasticityParameter
          = f.GetAreaElasticityParameter
      ∧ (f.SetLineTensionParameter x).GetPerimeterContractilityParameter
          = f.GetPerimeterContractilityParameter) :=
  ⟨⟨rfl, rfl, rfl⟩, ⟨rfl, rfl, rfl⟩, ⟨rfl, rfl, rfl⟩⟩

end TensionAndParameters

section ParameterInvariant

open FarhadifarForceWithGrowingTargetAreas

/-- C14 fails as stated: one call `SetAreaElasticityParameter(-1)` on a freshly
constructed force leaves the area elasticity coefficient at -1, which is negative. -/
theorem C14_negative_parameter_counterexample :
    (afterSetterCalls [.SetAreaElasticityParameter (-1)]).GetAreaElasticityParameter = -1
    ∧ ¬ (0 ≤ (afterSetterCalls [.SetAreaElasticityParameter (-1)]).GetAreaElasticityParameter)
    := by
  have h : (afterSetterCalls [.SetAreaElasticityParameter (-1)]).GetAreaElasticityParameter
      = -1 := rfl
  rw [h]
  exact ⟨rfl, by norm_num⟩

theorem nonneg_foldl_apply (calls : List SetterCall) :
    ∀ f : FarhadifarForceWithGrowingTargetAreas,
      (∀ c ∈ calls, 0 ≤ c.argument) →
      (0 ≤ f.mAreaElasticityParameter ∧ 0 ≤ f.mPerimeterContractilityParameter
        ∧ 0 ≤ f.mLineTensionParameter) →
      0 ≤ (calls.foldl SetterCall.apply f).mAreaElasticityParameter
      ∧ 0 ≤ (calls.foldl SetterCall.apply f).mPerimeterContractilityParameter
      ∧ 0 ≤ (calls.foldl SetterCall.apply f).mLineTensionParameter := by
  induction calls with
  | nil => intro f _ hf; exact hf
  | cons c rest ih =>
    intro f hall hf
    rw [List.foldl_cons]
    apply ih
    · exact fun c' hc' => hall c' (List.mem_cons_of_mem c hc')
    · have hc := hall c (List.mem_cons_self c rest)
      obtain ⟨h1, h2, h3⟩ := hf
      cases c with
      | SetAreaElasticityParameter x => exact ⟨hc, h2, h3⟩
      | SetPerimeterContractilityParameter x => exact ⟨h1, hc, h3⟩
      | SetLineTensionParameter x => exact ⟨h1, h2, hc⟩

/-- C14, amended.  The setters store their argument without a check: after a setter
call its coefficient is the argument, whatever its sign.  In every state reached from
construction by a sequence of setter calls whose arguments are all non-negative, the
three coefficients are non-negative. -/
theorem C14_nonnegative_when_arguments_are (calls : List SetterCall) :
    (∀ (f : FarhadifarForceWithGrowingTargetAreas) (x : ℚ),
        (f.SetAreaElasticityParameter x).GetAreaElasticityParameter = x
        ∧ (f.SetPerimeterContractilityParameter x).GetPerimeterContractilityParameter = x
        ∧ (f.SetLineTensionParameter x).GetLineTensionParameter = x)
    ∧ ((∀ c ∈ calls, 0 ≤ c.argument) →
        0 ≤ (afterSetterCalls calls).GetAreaElasticityParameter
        ∧ 0 ≤ (afterSetterCalls calls).GetPerimeterContractilityParameter
        ∧ 0 ≤ (afterSetterCalls calls).GetLineTensionParameter) := by
  refine ⟨fun f x => ⟨rfl, rfl, rfl⟩, fun hall => ?_⟩
  apply nonneg_foldl_apply calls FarhadifarForceWithGrowingTargetAreas.new hall
  refine ⟨?_, ?_, ?_⟩ <;> norm_num [FarhadifarForceWithGrowingTargetAreas.new]

/-- C14, amended, on the calls `SetLineTensionParameter(0)`,
`SetAreaElasticityParameter(2)`: the arguments are non-negative and so are the three
coefficients afterwards. -/
theorem C14_nonnegative_when_arguments_are_witness :
    (∀ c ∈ [SetterCall.SetLineTensionParameter 0, SetterCall.SetAreaElasticityParameter 2],
        0 ≤ c.argument)
    ∧ 0 ≤ (afterSetterCalls [.SetLineTensionParameter 0,
        .SetAreaElasticityParameter 2]).GetAreaElasticityParameter
    ∧ 0 ≤ (afterSetterCalls [.SetLineTensionParameter 0,
        .SetAreaElasticityParameter 2]).GetPerimeterContractilityParameter
    ∧ 0 ≤ (afterSetterCalls [.SetLineTensionParameter 0,
        .SetAreaElasticityParameter 2]).GetLineTensionParameter :=
  ⟨by decide!,
   (C14_nonnegative_when_arguments_are [.SetLineTensionParameter 0,
      .SetAreaElasticityParameter 2]).2 (by decide!)⟩

end ParameterInvariant

section ResolverSymmetry

open FarhadifarForceWithGrowingTargetAreas

/-- C19.  The edge tension resolver is symmetric in its endpoints and two-valued:
`GetLineTensionParameter(A, B, population)` and `GetLineTensionParameter(B, A, population)`
agree (also in failing), and a value it returns is either `L` or `L / 2`; hence the
tension used for an edge when it is resolved as (p, v) is the one used when it is
resolved as (v, p). -/
theorem C19_resolver_symmetric_two_valued (f : FarhadifarForceWithGrowingTargetAreas)
    (A B : Node) (pop : VertexBasedCellPopulation) :
    f.GetLineTensionParameterOfEdge A B pop = f.GetLineTensionParameterOfEdge B A pop
    ∧ ∀ t, f.GetLineTensionParameterOfEdge A B pop = .ok t →
        (t = f.GetLineTensionParameter ∨ t = f.GetLineTensionParameter / 2)
        ∧ f.GetLineTensionParameterOfEdge B A pop = .ok t := by
  have hcomm := GetLineTensionParameterOfEdge_comm f A B pop
  refine ⟨hcomm, fun t ht => ⟨?_, hcomm ▸ ht⟩⟩
  unfold GetLineTensionParameterOfEdge at ht
  simp only at ht
  split at ht
  · cases ht
  · split at ht
    · injection ht with ht
      exact Or.inl ht.symm
    · injection ht with ht
      exact Or.inr ht.symm

/-- C19 on the two squares with the default force: the shared edge resolves to 0.06
from either end, the boundary edge between the nodes 0 and 1 to 0.12 from either end. -/
theorem C19_resolver_symmetric_two_valued_witness :
    FarhadifarForceWithGrowingTargetAreas.new.GetLineTensionParameterOfEdge
        (nodeAt Example.twoSquares 4) (nodeAt Example.twoSquares 1) Example.twoSquares
      = .ok 0.06
    ∧ FarhadifarForceWithGrowingTargetAreas.new.GetLineTensionParameterOfEdge
        (nodeAt Example.twoSquares 1) (nodeAt Example.twoSquares 0) Example.twoSquares
      = .ok 0.12 := by
  have h14 : FarhadifarForceWithGrowingTargetAreas.new.GetLineTensionParameterOfEdge
      (nodeAt Example.twoSquares 1) (nodeAt Example.twoSquares 4) Example.twoSquares
      = .ok 0.06 := by
    rw [GetLineTensionParameterOfEdge_of_nonempty _ _ _ _ (by decide), if_neg (by decide)]
    norm_num [FarhadifarForceWithGrowingTargetAreas.new]
  have h01 : FarhadifarForceWithGrowingTargetAreas.new.GetLineTensionParameterOfEdge
      (nodeAt Example.twoSquares 0) (nodeAt Example.twoSquares 1) Example.twoSquares
      = .ok 0.12 := by
    rw [GetLineTensionParameterOfEdge_of_nonempty _ _ _ _ (by decide), if_pos (by decide)]
    norm_num [FarhadifarForceWithGrowingTargetAreas.new]
  exact ⟨((C19_resolver_symmetric_two_valued FarhadifarForceWithGrowingTargetAreas.new
      (nodeAt Example.twoSquares 1) (nodeAt Example.twoSquares 4) Example.twoSquares).2
      0.06 h14).2,
    ((C19_resolver_symmetric_two_valued FarhadifarForceWithGrowingTargetAreas.new
      (nodeAt Example.twoSquares 0) (nodeAt Example.twoSquares 1) Example.twoSquares).2
      0.12 h01).2⟩

end ResolverSymmetry

section NeighbourIndices

open FarhadifarForceWithGrowingTargetAreas

/-- C18 fails as stated: in a loop of `2 ^ 32 - 1` nodes the sum `n + i` of line 90 wraps
for the local index 2, the predecessor computed is 0 instead of 1, and the successor of
that predecessor is 1, not 2.  In a loop of `2 ^ 31 + 1` nodes the sum wraps to 0 at the
local index `2 ^ 31 - 1`, so that the subtraction of 1 underflows. -/
theorem C18_wrapping_sum_counterexample :
    (2 : ℕ) < 4294967295
    ∧ previous_node_local_index 4294967295 2 = 0
    ∧ next_node_local_index 4294967295 (previous_node_local_index 4294967295 2) = 1
    ∧ (2147483647 : ℕ) < 2147483649
    ∧ uadd 2147483649 2147483647 = 0 := by
  decide

theorem uadd_eq_add {a b : ℕ} (h : a + b < 2 ^ 32) : uadd a b = a + b :=
  Nat.mod_eq_of_lt h

theorem usub_eq_sub {a b : ℕ} (ha : a < 2 ^ 32) (hb : b ≤ a) : usub a b = a - b := by
  unfold usub
  have h : a + 2 ^ 32 - b = (a - b) + 2 ^ 32 := by omega
  rw [h, Nat.add_mod_right, Nat.mod_eq_of_lt (by omega)]

theorem previous_node_local_index_eq {n i : ℕ} (hn : 1 ≤ n) (h : n + i < 2 ^ 32) :
    previous_node_local_index n i = (n + i - 1) % n := by
  unfold previous_node_local_index
  rw [uadd_eq_add h, usub_eq_sub h (by omega)]

theorem next_node_local_index_eq {n i : ℕ} (h : i + 1 < 2 ^ 32) :
    next_node_local_index n i = (i + 1) % n := by
  unfold next_node_local_index
  rw [uadd_eq_add h]

/-- C18, amended.  For every loop of `n >= 1` nodes (an `unsigned` value) and every
local index `i < n` the predecessor and successor indices computed in lines 90 and 93 are
valid local indices, the predecessor of 0 is `n - 1` and the successor of `n - 1` is 0.
When moreover `n <= 2 ^ 31`, the sum `n + i` does not wrap and is at least 1, so the
subtraction does not underflow, the two indices are `(n + i - 1) mod n` and
`(i + 1) mod n`, and the successor of the predecessor of `i` is `i`. -/
theorem C18_cyclic_neighbour_indices (n i : ℕ) (hn : 1 ≤ n) (hn32 : n < 2 ^ 32)
    (hi : i < n) :
    previous_node_local_index n i < n
    ∧ next_node_local_index n i < n
    ∧ previous_node_local_index n 0 = n - 1
    ∧ next_node_local_index n (n - 1) = 0
    ∧ (n ≤ 2 ^ 31 →
        uadd n i = n + i ∧ 1 ≤ uadd n i ∧ usub (uadd n i) 1 = n + i - 1
        ∧ previous_node_local_index n i = (n + i - 1) % n
        ∧ next_node_local_index n i = (i + 1) % n
        ∧ next_node_local_index n (previous_node_local_index n i) = i) := by
  refine ⟨Nat.mod_lt _ hn, Nat.mod_lt _ hn, ?_, ?_, fun hsmall => ?_⟩
  · rw [previous_node_local_index_eq hn (by omega)]
    have h : n + 0 - 1 = n - 1 := by omega
    rw [h, Nat.mod_eq_of_lt (by omega)]
  · rw [next_node_local_index_eq (by omega)]
    have h : n - 1 + 1 = n := by omega
    rw [h, Nat.mod_self]
  · have hsum : n + i < 2 ^ 32 := by omega
    have hprev := previous_node_local_index_eq hn hsum
    have hpl : previous_node_local_index n i < n := Nat.mod_lt _ hn
    refine ⟨uadd_eq_add hsum, by rw [uadd_eq_add hsum]; omega,
      by rw [uadd_eq_add hsum, usub_eq_sub hsum (by omega)], hprev,
      next_node_local_index_eq (by omega), ?_⟩
    rw [next_node_local_index_eq (by omega), hprev]
    exact successor_predecessor hi

/-- C18, amended, on a loop of four nodes: the predecessor of 0 is 3, the successor of 3
is 0, and the successor of the predecessor of 2 is 2. -/
theorem C18_cyclic_neighbour_indices_witness :
    previous_node_local_index 4 0 = 3 ∧ next_node_local_index 4 3 = 0
    ∧ next_node_local_index 4 (previous_node_local_index 4 2) = 2 :=
  ⟨(C18_cyclic_neighbour_indices 4 0 (by decide) (by decide) (by decide)).2.2.1,
   (C18_cyclic_neighbour_indices 4 0 (by decide) (by decide) (by decide)).2.2.2.1,
   ((C18_cyclic_neighbour_indices 4 2 (by decide) (by decide) (by decide)).2.2.2.2
      (by decide)).2.2.2.2.2⟩

end NeighbourIndices

section Congruence

open FarhadifarForceWithGrowingTargetAreas

theorem SameUpToForces.symm {p q : VertexBasedCellPopulation} (h : SameUpToForces p q) :
    SameUpToForces q p := by
  obtain ⟨a1, a2, a3, a4, a5, a6, a7⟩ := h
  exact ⟨a1.symm, a2.symm, a3.symm, a4.symm, a5.symm, a6.symm, a7.symm⟩

theorem SameUpToForces.numNodes {p q : VertexBasedCellPopulation} (h : SameUpToForces p q) :
    q.GetNumNodes = p.GetNumNodes := by
  have := congrArg List.length h.2.2.2.2.2.2
  simpa [VertexBasedCellPopulation.GetNumNodes] using this

/-- Populations that differ at most in applied forces answer every node lookup alike,
up to the applied force of the node found. -/
theorem SameUpToForces.GetNode {p q : VertexBasedCellPopulation} (h : SameUpToForces p q)
    (g : ℕ) :
    (∃ err, q.GetNode g = .error err ∧ p.GetNode g = .error err)
    ∨ (∃ n n', q.GetNode g = .ok n' ∧ p.GetNode g = .ok n
        ∧ n'.mContainingElementIndices = n.mContainingElementIndices
        ∧ n'.mLocation = n.mLocation) := by
  have hg := congrArg (fun l => l[g]?) h.2.2.2.2.2.2
  simp only [List.getElem?_map] at hg
  unfold VertexBasedCellPopulation.GetNode
  cases hq : q.mMesh.mNodes[g]? with
  | none =>
    cases hp : p.mMesh.mNodes[g]? with
    | none => exact Or.inl ⟨_, rfl, rfl⟩
    | some n => rw [hq, hp] at hg; cases hg
  | some n' =>
    cases hp : p.mMesh.mNodes[g]? with
    | none => rw [hq, hp] at hg; cases hg
    | some n =>
      rw [hq, hp] at hg
      simp only [Option.map_some', Option.some.injEq, Prod.mk.injEq] at hg
      exact Or.inr ⟨n, n', rfl, rfl, hg.2, hg.1⟩

theorem SameUpToForces.nodeAt {p q : VertexBasedCellPopulation} (h : SameUpToForces p q)
    (g : ℕ) :
    (nodeAt q g).mContainingElementIndices = (nodeAt p g).mContainingElementIndices
    ∧ (nodeAt q g).mLocation = (nodeAt p g).mLocation := by
  have hg := congrArg (fun l => l[g]?) h.2.2.2.2.2.2
  simp only [List.getElem?_map] at hg
  unfold Farhadifar.nodeAt
  rw [List.getD_eq_getElem?_getD, List.getD_eq_getElem?_getD]
  cases hq : q.mMesh.mNodes[g]? with
  | none =>
    cases hp : p.mMesh.mNodes[g]? with
    | none => exact ⟨rfl, rfl⟩
    | some n => rw [hq, hp] at hg; cases hg
  | some n' =>
    cases hp : p.mMesh.mNodes[g]? with
    | none => rw [hq, hp] at hg; cases hg
    | some n =>
      rw [hq, hp] at hg
      simp only [Option.map_some', Option.some.injEq, Prod.mk.injEq] at hg
      exact ⟨hg.2, hg.1⟩

theorem snapshotLoop_same {p q : VertexBasedCellPopulation} (h : SameUpToForces p q)
    (es : List VertexElement) :
    ∀ s, snapshotLoop q es s = snapshotLoop p es s := by
  obtain ⟨-, hvol, hper, -, -, hccm, -⟩ := h
  induction es with
  | nil => intro s; rfl
  | cons e rest ih =>
    intro s
    have hstep : snapshotStep q s e = snapshotStep p s e := by
      unfold snapshotStep
      rw [hvol, hper, hccm]
    simp only [snapshotLoop, hstep]
    cases snapshotStep p s e with
    | error err => rfl
    | ok s1 => exact ih s1

theorem elementStep_same (f : FarhadifarForceWithGrowingTargetAreas)
    {p q : VertexBasedCellPopulation} (h : SameUpToForces p q) (snap : Snapshot) (v : ℕ)
    (node node' : Node) (acc : Contributions) (c : ℕ)
    (hnode : node'.mContainingElementIndices = node.mContainingElementIndices) :
    elementStep f q snap v node' acc c = elementStep f p snap v node acc c := by
  have hE : q.GetElement c = p.GetElement c := by
    unfold VertexBasedCellPopulation.GetElement
    rw [h.1]
  have hga := h.2.2.2.1
  have hge := h.2.2.2.2.1
  unfold elementStep
  simp only [hE, hga, hge, bind, Except.bind]
  cases p.GetElement c with
  | error err => rfl
  | ok e =>
    simp only
    cases readTable snap.element_areas e.GetIndex with
    | error err => rfl
    | ok area =>
      simp only
      cases readTable snap.target_areas e.GetIndex with
      | error err => rfl
      | ok target =>
        simp only
        split
        · rfl
        · cases e.GetNode
              (previous_node_local_index e.GetNumNodes (e.GetNodeLocalIndex v)) with
          | error err => rfl
          | ok pv =>
            simp only
            rcases h.GetNode pv with ⟨err, h1, h2⟩ | ⟨n, n', h1, h2, hC, -⟩
            · rw [h1, h2]
            · rw [h1, h2]
              simp only
              cases e.GetNode
                  (next_node_local_index e.GetNumNodes (e.GetNodeLocalIndex v)) with
              | error err => rfl
              | ok sv =>
                simp only
                rcases h.GetNode sv with ⟨err, h3, h4⟩ | ⟨m, m', h3, h4, hC', -⟩
                · rw [h3, h4]
                · rw [h3, h4]
                  simp only
                  rw [GetLineTensionParameterOfEdge_congr f p q hC hnode,
                    GetLineTensionParameterOfEdge_congr f p q hnode hC']

theorem elementLoop_same (f : FarhadifarForceWithGrowingTargetAreas)
    {p q : VertexBasedCellPopulation} (h : SameUpToForces p q) (snap : Snapshot) (v : ℕ)
    (node node' : Node)
    (hnode : node'.mContainingElementIndices = node.mContainingElementIndices)
    (l : List ℕ) :
    ∀ acc, elementLoop f q snap v node' l acc = elementLoop f p snap v node l acc := by
  induction l with
  | nil => intro acc; rfl
  | cons c rest ih =>
    intro acc
    simp only [elementLoop, elementStep_same f h snap v node node' acc c hnode]
    cases elementStep f p snap v node acc c with
    | error err => rfl
    | ok acc1 => exact ih acc1

/-- The visit of a node computes the same three sums in two populations that differ at
most in applied forces. -/
theorem nodeContributions_same (f : FarhadifarForceWithGrowingTargetAreas)
    {p q : VertexBasedCellPopulation} (h : SameUpToForces p q) (snap : Snapshot) (v : ℕ) :
    nodeContributions f q snap v = nodeContributions f p snap v := by
  unfold nodeContributions
  simp only [bind, Except.bind]
  rcases h.GetNode v with ⟨err, h1, h2⟩ | ⟨n, n', h1, h2, hC, -⟩
  · rw [h1, h2]
  · rw [h1, h2]
    simp only [hC]
    exact elementLoop_same f h snap v n n' hC _ _

theorem SameUpToForces.AddAppliedForceContribution {p q : VertexBasedCellPopulation}
    (h : SameUpToForces p q) (i : ℕ) (X : Vec) :
    SameUpToForces (p.AddAppliedForceContribution i X) (q.AddAppliedForceContribution i X) :=
  ((SameUpToForces_AddAppliedForceContribution p i X).symm.trans h).trans
    (SameUpToForces_AddAppliedForceContribution q i X)

/-- The second loop on two populations that differ at most in applied forces ends the
same way and adds the same force to every node. -/
theorem nodeLoop_same (f : FarhadifarForceWithGrowingTargetAreas) (snap : Snapshot)
    (l : List ℕ) :
    ∀ p q : VertexBasedCellPopulation, SameUpToForces p q →
      (nodeLoop f snap l q).error = (nodeLoop f snap l p).error
      ∧ ∀ j, (nodeLoop f snap l q).population.GetAppliedForce j - q.GetAppliedForce j
          = (nodeLoop f snap l p).population.GetAppliedForce j - p.GetAppliedForce j := by
  induction l with
  | nil =>
    intro p q _
    simp [nodeLoop]
  | cons v rest ih =>
    intro p q h
    have hv := nodeContributions_same f h snap v
    cases hp : nodeContributions f p snap v with
    | error err =>
      rw [hp] at hv
      simp [nodeLoop, hp, hv]
    | ok acc =>
      rw [hp] at hv
      obtain ⟨ih1, ih2⟩ := ih _ _ (h.AddAppliedForceContribution v acc.force_on_node)
      simp only [nodeLoop, hp, hv]
      refine ⟨ih1, fun j => ?_⟩
      have hj := ih2 j
      rw [GetAppliedForce_AddAppliedForceContribution,
        GetAppliedForce_AddAppliedForceContribution, h.numNodes] at hj
      rw [sub_add_eq_sub_sub, sub_add_eq_sub_sub] at hj
      exact sub_left_injective hj

/-- A run changes nothing but applied forces, whether it fails or not. -/
theorem AddForceContribution_sameUpToForces (f : FarhadifarForceWithGrowingTargetAreas)
    (pop : VertexBasedCellPopulation) :
    SameUpToForces pop (AddForceContribution f pop).population := by
  unfold AddForceContribution
  simp only
  cases snapshotLoop pop pop.mMesh.mElements (Snapshot.init pop.GetNumElements) with
  | error err => exact SameUpToForces.refl pop
  | ok snap =>
    obtain ⟨-, -, -, -, -, -, -, hsame⟩ :=
      nodeLoop_spec f snap (List.range pop.GetNumNodes) pop
    exact hsame

/-- Two runs on populations that differ at most in applied forces end the same way and
deliver the same force to every node. -/
theorem AddForceContribution_same (f : FarhadifarForceWithGrowingTargetAreas)
    {p q : VertexBasedCellPopulation} (h : SameUpToForces p q) :
    (AddForceContribution f q).error = (AddForceContribution f p).error
    ∧ ∀ v, deliveredForce f q v = deliveredForce f p v := by
  have hE : q.GetNumElements = p.GetNumElements := by
    unfold VertexBasedCellPopulation.GetNumElements
    rw [h.1]
  unfold deliveredForce AddForceContribution
  simp only [h.1, hE, h.numNodes, snapshotLoop_same h]
  cases snapshotLoop p p.mMesh.mElements (Snapshot.init p.GetNumElements) with
  | error err => simp
  | ok snap => exact nodeLoop_same f snap _ p q h

end Congruence

section DeterminismAndFrame

open FarhadifarForceWithGrowingTargetAreas

/-- C15.  Determinism: the run's way of ending and the force it delivers to each vertex
depend only on the coefficients, the elements, the geometry queries, the target areas
and, node by node, the location and the incident-cell set, not on the forces applied so
far.  In particular a second call on the population the first call left behind ends the
same way and delivers the same force to every vertex as the first call. -/
theorem C15_determinism (f : FarhadifarForceWithGrowingTargetAreas)
    (p q : VertexBasedCellPopulation) (h : SameUpToForces p q) :
    (AddForceContribution f q).error = (AddForceContribution f p).error
    ∧ (∀ v, deliveredForce f q v = deliveredForce f p v)
    ∧ ((CallState.AddForceContribution
          (CallState.AddForceContribution { force := f, population := p }).1).2
        = (CallState.AddForceContribution { force := f, population := p }).2)
    ∧ ∀ v,
        (CallState.AddForceContribution
            (CallState.AddForceContribution { force := f, population := p }).1).1.population.GetAppliedForce v
          - (CallState.AddForceContribution
              { force := f, population := p }).1.population.GetAppliedForce v
        = (CallState.AddForceContribution
              { force := f, population := p }).1.population.GetAppliedForce v
          - p.GetAppliedForce v := by
  obtain ⟨h1, h2⟩ := AddForceContribution_same f h
  obtain ⟨h3, h4⟩ := AddForceContribution_same f (AddForceContribution_sameUpToForces f p)
  exact ⟨h1, h2, h3, h4⟩

/-- C15 on the two squares with the default force: the population left by a first call
differs from the original in applied forces only, and a call on it delivers to node 1
the force (0, 0.44) that the first call delivered. -/
theorem C15_determinism_witness :
    SameUpToForces Example.twoSquares
      (AddForceContribution FarhadifarForceWithGrowingTargetAreas.new
        Example.twoSquares).population
    ∧ deliveredForce FarhadifarForceWithGrowingTargetAreas.new
        (AddForceContribution FarhadifarForceWithGrowingTargetAreas.new
          Example.twoSquares).population 1
      = deliveredForce FarhadifarForceWithGrowingTargetAreas.new Example.twoSquares 1
    ∧ deliveredForce FarhadifarForceWithGrowingTargetAreas.new Example.twoSquares 1
      = (0, 11 / 25) :=
  ⟨AddForceContribution_sameUpToForces _ _,
   (C15_determinism FarhadifarForceWithGrowingTargetAreas.new Example.twoSquares _
      (AddForceContribution_sameUpToForces _ _)).2.1 1,
   by decide!⟩

/-- C16.  Frame: a call of `AddForceContribution` that ends without failure leaves the
three coefficients of the force, every cell's vertex loop, the geometry queries, the
target area of every cell and, vertex by vertex, the location and the incident-cell set
as they were; the only change is that the applied force of each vertex has grown by
exactly one contribution, the force computed for that vertex. -/
theorem C16_frame (s : CallState) (h : s.AddForceContribution.2 = none) :
    s.AddForceContribution.1.force = s.force
    ∧ SameUpToForces s.population s.AddForceContribution.1.population
    ∧ s.AddForceContribution.1.population.GetNumNodes = s.population.GetNumNodes
    ∧ s.AddForceContribution.1.population.mMesh.mElements = s.population.mMesh.mElements
    ∧ (∀ v, (nodeAt s.AddForceContribution.1.population v).mLocation
          = (nodeAt s.population v).mLocation
        ∧ incidentCells s.AddForceContribution.1.population v = incidentCells s.population v)
    ∧ (∀ j, targetAreaOf s.AddForceContribution.1.population j = targetAreaOf s.population j)
    ∧ ∀ v < s.population.GetNumNodes, ∃ acc,
        evalContributions s.force s.population v = .ok acc
        ∧ s.AddForceContribution.1.population.GetAppliedForce v
            = s.population.GetAppliedForce v + acc.force_on_node := by
  have hsame := AddForceContribution_sameUpToForces s.force s.population
  have herr : (AddForceContribution s.force s.population).error = none := h
  obtain ⟨snap, hsnap, hnodes, hforce, -⟩ := AddForceContribution_ok s.force s.population herr
  refine ⟨rfl, hsame, hsame.numNodes, hsame.1, fun v => ?_, fun j => ?_, fun v hv => ?_⟩
  · exact ⟨(hsame.nodeAt v).2, (hsame.nodeAt v).1⟩
  · unfold targetAreaOf
    show (match (AddForceContribution s.force s.population).population.mCellCycleModels j with
      | .AreaBased t => t | .Other => 0) = _
    rw [hsame.2.2.2.2.2.1]
  · obtain ⟨acc, hacc⟩ := hnodes v hv
    refine ⟨acc, ?_, ?_⟩
    · unfold evalContributions
      simp only [hsnap]
      exact hacc
    · show (AddForceContribution s.force s.population).population.GetAppliedForce v = _
      rw [hforce v hv]
      simp only [nodeForce, hacc]

/-- C16 on the two squares with the default force: the call ends without failure, the
force object and the element vector are unchanged, and node 1 has received (0, 0.44). -/
theorem C16_frame_witness :
    Example.twoSquaresCall.AddForceContribution.2 = none
    ∧ Example.twoSquaresCall.AddForceContribution.1.force = Example.twoSquaresCall.force
    ∧ Example.twoSquaresCall.AddForceContribution.1.population.mMesh.mElements
        = Example.twoSquares.mMesh.mElements
    ∧ Example.twoSquaresCall.AddForceContribution.1.population.GetAppliedForce 1
        = (0, 11 / 25) :=
  ⟨by decide!, (C16_frame Example.twoSquaresCall (by decide!)).1,
   (C16_frame Example.twoSquaresCall (by decide!)).2.2.2.1, by decide!⟩

end DeterminismAndFrame

section IsolatedCell

open FarhadifarForceWithGrowingTargetAreas

theorem tension_of_single_cell (f : FarhadifarForceWithGrowingTargetAreas)
    (pop : VertexBasedCellPopulation) {a b c : ℕ} (ha : incidentCells pop a = {c})
    (hb : incidentCells pop b = {c}) : Spec.tension f pop a b = f.mLineTensionParameter := by
  have hinter : (nodeAt pop a).mContainingElementIndices
      ∩ (nodeAt pop b).mContainingElementIndices = {c} := by
    have ha' : (nodeAt pop a).mContainingElementIndices = {c} := ha
    have hb' : (nodeAt pop b).mContainingElementIndices = {c} := hb
    rw [ha', hb', Finset.inter_self]
  unfold Spec.tension
  rw [GetLineTensionParameterOfEdge_of_nonempty f _ _ pop
    (by rw [hinter]; exact Finset.singleton_ne_empty c), hinter]
  simp

/-- C17.  Isolated cell: on a valid mesh with growth-capable cells in which the
incident-cell set of every node is the one cell `c` (so that every edge is a boundary
edge), the run ends without failure and the force delivered to each vertex `v` is
`-k_area * (Area - TargetArea) * gradArea(v) - (k_perim * Perimeter + L) * (grad_p + grad_s)`,
with `grad_p` and `grad_s` the predecessor-edge and successor-edge gradients at `v` and
`L` the full line tension coefficient. -/
theorem C17_isolated_cell (f : FarhadifarForceWithGrowingTargetAreas)
    (pop : VertexBasedCellPopulation) (c : ℕ) (hvalid : ValidMesh pop)
    (hgrow : GrowthCapable pop)
    (hcells : ∀ v < pop.GetNumNodes, incidentCells pop v = {c}) :
    (AddForceContribution f pop).error = none
    ∧ ∀ v < pop.GetNumNodes,
        deliveredForce f pop v
          = -((f.GetAreaElasticityParameter
                * (pop.mMesh.GetVolumeOfElement (elementAt pop c).GetIndex
                    - targetAreaOf pop (elementAt pop c).GetIndex))
              • pop.mMesh.GetAreaGradientOfElementAtNode (elementAt pop c)
                  ((elementAt pop c).GetNodeLocalIndex v))
            - (f.GetPerimeterContractilityParameter
                  * pop.mMesh.GetSurfaceAreaOfElement (elementAt pop c).GetIndex
                + f.GetLineTensionParameter)
              • (Spec.grad_p pop v c + Spec.grad_s pop v c) := by
  obtain ⟨herr, hforce, -⟩ := AddForceContribution_of_valid f pop hvalid hgrow
  refine ⟨herr, fun v hv => ?_⟩
  have hcv : c ∈ incidentCells pop v := by rw [hcells v hv]; exact Finset.mem_singleton_self c
  obtain ⟨hcE, hvc⟩ := hvalid.2.1 v hv c hcv
  obtain ⟨hi, -⟩ := GetNodeLocalIndex_of_mem _ hvc
  have hpN := (hvalid.2.2.1 c hcE _ (getD_mem_of_lt _ (predecessor_lt hi))).1
  have hsN := (hvalid.2.2.1 c hcE _ (getD_mem_of_lt _ (successor_lt hi))).1
  have htp : Spec.tension f pop (Spec.predecessorVertex pop v c) v = f.mLineTensionParameter :=
    tension_of_single_cell f pop (hcells _ hpN) (hcells v hv)
  have hts : Spec.tension f pop v (Spec.successorVertex pop v c) = f.mLineTensionParameter :=
    tension_of_single_cell f pop (hcells v hv) (hcells _ hsN)
  unfold deliveredForce
  rw [hforce v hv, add_sub_cancel_left]
  unfold Spec.force
  rw [hcells v hv, Finset.sum_singleton]
  simp only [Spec.cellTerm, Spec.areaTerm, Spec.perimeterTerm, Spec.tensionTerm, htp, hts,
    GetAreaElasticityParameter, GetPerimeterContractilityParameter, GetLineTensionParameter]
  module

/-- C17 on the single square with target area 0.5 and the default force: the mesh is
valid, every node has the cell 0 as its only incident cell, and the force delivered to
the vertex (0,0) is (0.53, 0.53). -/
theorem C17_isolated_cell_witness :
    ValidMesh (Example.square (1 / 2)) ∧ GrowthCapable (Example.square (1 / 2))
    ∧ (∀ v < (Example.square (1 / 2)).GetNumNodes,
        incidentCells (Example.square (1 / 2)) v = {0})
    ∧ (AddForceContribution FarhadifarForceWithGrowingTargetAreas.new
        (Example.square (1 / 2))).error = none
    ∧ deliveredForce FarhadifarForceWithGrowingTargetAreas.new (Example.square (1 / 2)) 0
        = (53 / 100, 53 / 100) :=
  ⟨by decide, by decide, by decide,
   (C17_isolated_cell FarhadifarForceWithGrowingTargetAreas.new (Example.square (1 / 2)) 0
      (by decide) (by decide) (by decide)).1,
   by decide!⟩

end IsolatedCell

section SnapshotTables

open FarhadifarForceWithGrowingTargetAreas

theorem GetNode_error_ge (pop : VertexBasedCellPopulation) {j : ℕ} {err : Error}
    (h : pop.GetNode j = .error err) : pop.GetNumNodes ≤ j := by
  by_contra hlt
  rw [GetNode_eq pop (Nat.lt_of_not_le hlt)] at h
  cases h

theorem GetVertexNode_ok_mem (e : VertexElement) {j g : ℕ} (h : e.GetNode j = .ok g) :
    g ∈ e.mNodes := by
  unfold VertexElement.GetNode at h
  split at h
  · rename_i g' hg
    injection h with h
    subst h
    exact List.getElem?_mem hg
  · cases h

theorem GetVertexNode_ok_of_lt (e : VertexElement) {j : ℕ} (h : j < e.GetNumNodes) :
    ∃ g, e.GetNode j = .ok g ∧ g ∈ e.mNodes :=
  ⟨_, GetVertexNode_eq e h, getD_mem_of_lt _ h⟩

/-- A successful step of the inner loop, on tables that agree with the mesh at the index
of the element: the perimeter-contractility sum decreases by `k_perim` times the
perimeter the mesh reports for that index times the perimeter gradient. -/
theorem elementStep_ok_perimeter (f : FarhadifarForceWithGrowingTargetAreas)
    (pop : VertexBasedCellPopulation) (snap : Snapshot) (v : ℕ) (node : Node)
    (acc acc' : Contributions) (c : ℕ) (e : VertexElement) (hE : pop.GetElement c = .ok e)
    (hag : Snapshot.AgreesAt pop snap e.GetIndex)
    (h : elementStep f pop snap v node acc c = .ok acc') :
    acc'.perimeter_contractility_contribution
      = acc.perimeter_contractility_contribution
        - (f.GetPerimeterContractilityParameter * pop.mMesh.GetSurfaceAreaOfElement e.GetIndex)
          • (-pop.mMesh.GetNextEdgeGradientOfElementAtNode e
                (previous_node_local_index e.GetNumNodes (e.GetNodeLocalIndex v))
              + pop.mMesh.GetNextEdgeGradientOfElementAtNode e (e.GetNodeLocalIndex v)) := by
  obtain ⟨h1, h2, h3⟩ := hag
  unfold elementStep at h
  simp only [hE, readTable_of_getElem? h1, readTable_of_getElem? h2, readTable_of_getElem? h3,
    bind, Except.bind, pure, Except.pure] at h
  repeat' split at h
  all_goals first
    | cases h; done
    | (injection h with h; subst h; rfl)

/-- A successful step of the inner loop, on tables that agree with the mesh at the index
of the element: the area-elasticity sum decreases by `k_area` times the difference of
the area and the target area reported for that index times the area gradient. -/
theorem elementStep_ok_area_of_element (f : FarhadifarForceWithGrowingTargetAreas)
    (pop : VertexBasedCellPopulation) (snap : Snapshot) (v : ℕ) (node : Node)
    (acc acc' : Contributions) (c : ℕ) (e : VertexElement) (hE : pop.GetElement c = .ok e)
    (hag : Snapshot.AgreesAt pop snap e.GetIndex)
    (h : elementStep f pop snap v node acc c = .ok acc') :
    acc'.area_elasticity_contribution
      = acc.area_elasticity_contribution
        - (f.GetAreaElasticityParameter
            * (pop.mMesh.GetVolumeOfElement e.GetIndex - targetAreaOf pop e.GetIndex))
          • pop.mMesh.GetAreaGradientOfElementAtNode e (e.GetNodeLocalIndex v) := by
  obtain ⟨h1, h2, h3⟩ := hag
  unfold elementStep at h
  simp only [hE, readTable_of_getElem? h1, readTable_of_getElem? h2, readTable_of_getElem? h3,
    bind, Except.bind, pure, Except.pure] at h
  repeat' split at h
  all_goals first
    | cases h; done
    | (injection h with h; subst h; rfl)

/-- A failing step of the inner loop, on tables that agree with the mesh at the index of
the element: the failure is not a table access.  It is the resolver's `TopologyError`,
or the element has no node, or one of its nodes is outside the mesh. -/
theorem elementStep_error_cause (f : FarhadifarForceWithGrowingTargetAreas)
    (pop : VertexBasedCellPopulation) (snap : Snapshot) (v : ℕ) (node : Node)
    (acc : Contributions) (c : ℕ) (e : VertexElement) (hE : pop.GetElement c = .ok e)
    (hag : Snapshot.AgreesAt pop snap e.GetIndex) {err : Error}
    (h : elementStep f pop snap v node acc c = .error err) :
    err = .TopologyError ∨ e.GetNumNodes = 0 ∨ ∃ g ∈ e.mNodes, pop.GetNumNodes ≤ g := by
  obtain ⟨h1, h2, h3⟩ := hag
  by_cases hn : e.GetNumNodes = 0
  · exact Or.inr (Or.inl hn)
  have hpos : 0 < e.GetNumNodes := Nat.pos_of_ne_zero hn
  obtain ⟨gp, hgp, hgpmem⟩ := GetVertexNode_ok_of_lt e
    (Nat.mod_lt (usub (uadd e.GetNumNodes (e.GetNodeLocalIndex v)) 1) hpos)
  obtain ⟨gs, hgs, hgsmem⟩ := GetVertexNode_ok_of_lt e
    (Nat.mod_lt (uadd (e.GetNodeLocalIndex v) 1) hpos)
  unfold elementStep at h
  simp only [hE, readTable_of_getElem? h1, readTable_of_getElem? h2, readTable_of_getElem? h3,
    bind, Except.bind, pure, Except.pure, if_neg hn] at h
  unfold previous_node_local_index at h
  rw [hgp] at h
  simp only at h
  cases hpn : pop.GetNode gp with
  | error err' => exact Or.inr (Or.inr ⟨gp, hgpmem, GetNode_error_ge pop hpn⟩)
  | ok p_previous_node =>
    rw [hpn] at h
    simp only at h
    unfold next_node_local_index at h
    rw [hgs] at h
    simp only at h
    cases hsn : pop.GetNode gs with
    | error err' => exact Or.inr (Or.inr ⟨gs, hgsmem, GetNode_error_ge pop hsn⟩)
    | ok p_next_node =>
      rw [hsn] at h
      simp only at h
      cases htp : f.GetLineTensionParameterOfEdge p_previous_node node pop with
      | error err' =>
        rw [htp] at h
        injection h with h
        subst h
        exact Or.inl (GetLineTensionParameterOfEdge_error f _ _ pop htp)
      | ok tp =>
        rw [htp] at h
        simp only at h
        cases hts : f.GetLineTensionParameterOfEdge node p_next_node pop with
        | error err' =>
          rw [hts] at h
          injection h with h
          subst h
          exact Or.inl (GetLineTensionParameterOfEdge_error f _ _ pop hts)
        | ok ts =>
          rw [hts] at h
          cases h

theorem elementLoop_error_step (f : FarhadifarForceWithGrowingTargetAreas)
    (pop : VertexBasedCellPopulation) (snap : Snapshot) (v : ℕ) (node : Node) (l : List ℕ) :
    ∀ acc err, elementLoop f pop snap v node l acc = .error err →
      ∃ c ∈ l, ∃ acc1, elementStep f pop snap v node acc1 c = .error err := by
  induction l with
  | nil => intro acc err h; simp [elementLoop] at h
  | cons c rest ih =>
    intro acc err h
    simp only [elementLoop] at h
    split at h
    · obtain ⟨c', hc', acc1, hstep⟩ := ih _ _ h
      exact ⟨c', List.mem_cons_of_mem c hc', acc1, hstep⟩
    · rename_i err' hstep
      injection h with h
      subst h
      exact ⟨c, List.mem_cons_self c rest, acc, hstep⟩

/-- C20.  Snapshot table bounds and completeness: when every element index of the mesh
is smaller than `GetNumElements()` and every index in a node's incident-cell set is the
index of an element of the mesh, the first loop writes inside the three tables only (it
never fails with an access out of range, and succeeds when every cell is
growth-capable) and the tables keep their `GetNumElements()` entries.  In the vertex loop,
for every node and every cell of its incident-cell set, the element is found, its index
is inside the tables, and the step of the loop for that cell reads the entries the first
loop wrote for that index: when the step succeeds, the area-elasticity and the
perimeter-contractility sums have moved by the terms built from the area, the target
area and the perimeter that the mesh and the cell report for the element, and when it
fails the failure is not a table access (it is the resolver's `TopologyError`, an
element without node, or an element node outside the mesh).  Hence a whole run of
`AddForceContribution` that fails with an access out of range has met an element
without node or an element node outside the mesh, never a table entry out of bounds. -/
theorem C20_snapshot_tables_in_bounds_and_complete
    (f : FarhadifarForceWithGrowingTargetAreas) (pop : VertexBasedCellPopulation)
    (hrange : TablesInRange pop)
    (hinc : ∀ v < pop.GetNumNodes, ∀ c ∈ incidentCells pop v,
      ∃ e ∈ pop.mMesh.mElements, e.GetIndex = c) :
    (∀ err, snapshotLoop pop pop.mMesh.mElements (Snapshot.init pop.GetNumElements)
        = .error err → err = .ConfigurationError)
    ∧ (GrowthCapable pop →
        ∃ snap, snapshotLoop pop pop.mMesh.mElements (Snapshot.init pop.GetNumElements)
          = .ok snap)
    ∧ ((AddForceContribution f pop).error = some .OutOfRange →
        ∃ e ∈ pop.mMesh.mElements, e.GetNumNodes = 0 ∨ ∃ g ∈ e.mNodes, pop.GetNumNodes ≤ g)
    ∧ ∀ snap, snapshotLoop pop pop.mMesh.mElements (Snapshot.init pop.GetNumElements)
          = .ok snap →
        Snapshot.HasSize snap pop.GetNumElements
        ∧ (∀ v acc, nodeContributions f pop snap v = .ok acc →
            acc.area_elasticity_contribution
              = ∑ c ∈ incidentCells pop v,
                  -((f.mAreaElasticityParameter
                      * (pop.mMesh.GetVolumeOfElement (elementAt pop c).GetIndex
                          - targetAreaOf pop (elementAt pop c).GetIndex))
                    • pop.mMesh.GetAreaGradientOfElementAtNode (elementAt pop c)
                        ((elementAt pop c).GetNodeLocalIndex v)))
        ∧ ∀ v < pop.GetNumNodes, ∀ c ∈ incidentCells pop v,
            ∃ e, pop.GetElement c = .ok e
              ∧ e ∈ pop.mMesh.mElements
              ∧ e.GetIndex < pop.GetNumElements
              ∧ readTable snap.element_areas e.GetIndex
                  = .ok (pop.mMesh.GetVolumeOfElement e.GetIndex)
              ∧ readTable snap.element_perimeters e.GetIndex
                  = .ok (pop.mMesh.GetSurfaceAreaOfElement e.GetIndex)
              ∧ readTable snap.target_areas e.GetIndex
                  = .ok (targetAreaOf pop e.GetIndex)
              ∧ ∀ (node : Node) (acc : Contributions),
                  (∀ acc', elementStep f pop snap v node acc c = .ok acc' →
                    acc'.area_elasticity_contribution
                      = acc.area_elasticity_contribution
                        - (f.GetAreaElasticityParameter
                            * (pop.mMesh.GetVolumeOfElement e.GetIndex
                                - targetAreaOf pop e.GetIndex))
                          • pop.mMesh.GetAreaGradientOfElementAtNode e
                              (e.GetNodeLocalIndex v)
                    ∧ acc'.perimeter_contractility_contribution
                      = acc.perimeter_contractility_contribution
                        - (f.GetPerimeterContractilityParameter
                            * pop.mMesh.GetSurfaceAreaOfElement e.GetIndex)
                          • (-pop.mMesh.GetNextEdgeGradientOfElementAtNode e
                                (previous_node_local_index e.GetNumNodes
                                  (e.GetNodeLocalIndex v))
                              + pop.mMesh.GetNextEdgeGradientOfElementAtNode e
                                  (e.GetNodeLocalIndex v)))
                  ∧ (∀ err, elementStep f pop snap v node acc c = .error err →
                      err = .TopologyError ∨ e.GetNumNodes = 0
                        ∨ ∃ g ∈ e.mNodes, pop.GetNumNodes ≤ g) := by
  obtain ⟨hok, hfail⟩ := snapshotLoop_inRange pop pop.mMesh.mElements hrange
    (Snapshot.init_hasSize pop.GetNumElements)
  have hwrite : ∀ err,
      snapshotLoop pop pop.mMesh.mElements (Snapshot.init pop.GetNumElements) = .error err →
      err = .ConfigurationError := by
    intro err herr
    by_cases hgrow : GrowthCapable pop
    · obtain ⟨snap, hsnap⟩ := hok hgrow
      rw [hsnap] at herr
      cases herr
    · have hex : ∃ e ∈ pop.mMesh.mElements, pop.mCellCycleModels e.GetIndex = .Other := by
        unfold GrowthCapable at hgrow
        push_neg at hgrow
        exact hgrow
      rw [hfail hex] at herr
      injection herr with herr
      exact herr.symm
  have hcell : ∀ v < pop.GetNumNodes, ∀ c ∈ incidentCells pop v,
      pop.GetElement c = .ok (elementAt pop c) ∧ elementAt pop c ∈ pop.mMesh.mElements := by
    intro v hv c hc
    obtain ⟨e0, he0, hidx⟩ := hinc v hv c hc
    have hcE : c < pop.GetNumElements := hidx ▸ hrange e0 he0
    exact ⟨GetElement_eq pop hcE, elementAt_mem pop hcE⟩
  refine ⟨hwrite, hok, fun herr => ?_, fun snap hsnap => ?_⟩
  · unfold AddForceContribution at herr
    simp only at herr
    cases hsnap : snapshotLoop pop pop.mMesh.mElements (Snapshot.init pop.GetNumElements) with
    | error err =>
      simp only [hsnap] at herr
      injection herr with herr
      have := hwrite err hsnap
      rw [herr] at this
      cases this
    | ok snap =>
      simp only [hsnap] at herr
      have hag := snapshot_agrees pop hsnap
      obtain ⟨done, rest, hsplit, -, -, hsome, -, -⟩ :=
        nodeLoop_spec f snap (List.range pop.GetNumNodes) pop
      obtain ⟨v, rest', hrest, hvfail⟩ := hsome _ herr
      have hv : v < pop.GetNumNodes := by
        apply List.mem_range.mp
        rw [hsplit, hrest]
        simp
      unfold nodeContributions at hvfail
      simp only [bind, Except.bind, GetNode_eq pop hv] at hvfail
      obtain ⟨c, hc, acc1, hstep⟩ := elementLoop_error_step f pop snap v _ _ _ _ hvfail
      have hc' : c ∈ incidentCells pop v := (Finset.mem_sort (· ≤ ·)).mp hc
      obtain ⟨hE, hmem⟩ := hcell v hv c hc'
      rcases elementStep_error_cause f pop snap v _ acc1 c _ hE (hag _ hmem) hstep with
        h1 | h1 | h1
      · cases h1
      · exact ⟨_, hmem, Or.inl h1⟩
      · exact ⟨_, hmem, Or.inr h1⟩
  · obtain ⟨hsize, hag, -⟩ := snapshotLoop_ok pop pop.mMesh.mElements hsnap
      (Snapshot.init_hasSize pop.GetNumElements)
    refine ⟨hsize, fun v acc hacc => ?_, fun v hv c hc => ?_⟩
    · rw [nodeContributions_ok_area f pop snap hag hacc]
      rfl
    · obtain ⟨hE, hmem⟩ := hcell v hv c hc
      obtain ⟨h1, h2, h3⟩ := hag _ hmem
      refine ⟨elementAt pop c, hE, hmem, hrange _ hmem, readTable_of_getElem? h1,
        readTable_of_getElem? h2, readTable_of_getElem? h3, fun node acc => ⟨?_, ?_⟩⟩
      · intro acc' hstep
        exact ⟨elementStep_ok_area_of_element f pop snap v node acc acc' c _ hE ⟨h1, h2, h3⟩
            hstep,
          elementStep_ok_perimeter f pop snap v node acc acc' c _ hE ⟨h1, h2, h3⟩ hstep⟩
      · intro err hstep
        exact elementStep_error_cause f pop snap v node acc c _ hE ⟨h1, h2, h3⟩ hstep

/-- C20 on the two squares with the default force: the preconditions hold, the first
loop succeeds, the entries read for the cell 1 of node 2 are the ones written for it (its
area being 1), the visit of node 2 succeeds, and the run does not fail with an access
out of range. -/
theorem C20_snapshot_tables_in_bounds_and_complete_witness :
    TablesInRange Example.twoSquares
    ∧ (∀ v < Example.twoSquares.GetNumNodes, ∀ c ∈ incidentCells Example.twoSquares v,
        ∃ e ∈ Example.twoSquares.mMesh.mElements, e.GetIndex = c)
    ∧ (∃ snap, snapshotLoop Example.twoSquares Example.twoSquares.mMesh.mElements
          (Snapshot.init Example.twoSquares.GetNumElements) = .ok snap
        ∧ ∃ e, Example.twoSquares.GetElement 1 = .ok e
          ∧ readTable snap.element_areas e.GetIndex
              = .ok (Example.twoSquares.mMesh.GetVolumeOfElement e.GetIndex))
    ∧ Example.twoSquares.mMesh.GetVolumeOfElement 1 = 1
    ∧ (∃ acc, evalContributions FarhadifarForceWithGrowingTargetAreas.new
        Example.twoSquares 2 = .ok acc)
    ∧ (AddForceContribution FarhadifarForceWithGrowingTargetAreas.new
        Example.twoSquares).error ≠ some .OutOfRange := by
  have hrange : TablesInRange Example.twoSquares := by decide
  have hinc : ∀ v < Example.twoSquares.GetNumNodes, ∀ c ∈ incidentCells Example.twoSquares v,
      ∃ e ∈ Example.twoSquares.mMesh.mElements, e.GetIndex = c := by decide
  obtain ⟨-, hok, hrun, hread⟩ := C20_snapshot_tables_in_bounds_and_complete
    FarhadifarForceWithGrowingTargetAreas.new Example.twoSquares hrange hinc
  obtain ⟨snap, hsnap⟩ := hok (by decide)
  obtain ⟨-, -, hreads⟩ := hread snap hsnap
  obtain ⟨e, he, -, -, harea, -, -, -⟩ := hreads 2 (by decide) 1 (by decide)
  obtain ⟨-, -, heval⟩ := AddForceContribution_of_valid
    FarhadifarForceWithGrowingTargetAreas.new Example.twoSquares (by decide) (by decide)
  refine ⟨hrange, hinc, ⟨snap, hsnap, e, he, harea⟩, by decide!, ⟨_, heval 2 (by decide)⟩, ?_⟩
  intro herr
  obtain ⟨e', he', hbad⟩ := hrun herr
  have hgood : ∀ e ∈ Example.twoSquares.mMesh.mElements,
      ¬ (e.GetNumNodes = 0 ∨ ∃ g ∈ e.mNodes, Example.twoSquares.GetNumNodes ≤ g) := by decide
  exact hgood e' he' hbad

end SnapshotTables

section Serialization

open CircularBoundaryCondition

/-- Reading back, in the order of `load_construct_data`, an archive that starts with a
population and three `double`s: the object is constructed from these four values, the
second and third as the centre and the fourth as the radius. -/
theorem load_construct_data_cons {Pop : Type} (C : Class Pop) (p : Pop) (x y r : ℚ)
    (rest : Archive Pop) :
    load_construct_data C (.population p :: .double x :: .double y :: .double r :: rest)
      = some (C.construct p (x, y) r, rest) := rfl

theorem save_construct_data_eq {Pop : Type} (C : Class Pop) (ar : Archive Pop) (t : C.Object) :
    save_construct_data C ar t
      = ar ++ [.population (C.GetCellPopulation t), .double (C.rGetCentreOfCircle t).1,
          .double (C.rGetCentreOfCircle t).2, .double (C.GetRadiusOfCircle t)] := by
  simp [save_construct_data, write]

/-- C21.  Serialization round trip of `CircularBoundaryCondition`: `save_construct_data`
writes the population, the x and the y coordinate of the centre and the radius, in this
order; `load_construct_data` applied to the archive so produced (whatever follows in it)
reads them back in the same order and constructs the boundary condition from the
population, the centre and the radius of the one saved, leaving the rest of the archive.
For a class whose getters return what its constructor was given, the boundary condition
loaded has the same population, centre and radius as the one saved. -/
theorem C21_serialization_round_trip {Pop : Type} (C : Class Pop) (t : C.Object)
    (rest : Archive Pop) :
    save_construct_data C [] t
      = [.population (C.GetCellPopulation t), .double (C.rGetCentreOfCircle t).1,
          .double (C.rGetCentreOfCircle t).2, .double (C.GetRadiusOfCircle t)]
    ∧ load_construct_data C (save_construct_data C [] t ++ rest)
      = some (C.construct (C.GetCellPopulation t) (C.rGetCentreOfCircle t)
          (C.GetRadiusOfCircle t), rest)
    ∧ (∀ p x y r,
        load_construct_data C (.population p :: .double x :: .double y :: .double r :: rest)
          = some (C.construct p (x, y) r, rest))
    ∧ ((∀ p centre radius,
          C.GetCellPopulation (C.construct p centre radius) = p
          ∧ C.rGetCentreOfCircle (C.construct p centre radius) = centre
          ∧ C.GetRadiusOfCircle (C.construct p centre radius) = radius) →
        ∃ t', load_construct_data C (save_construct_data C [] t ++ rest) = some (t', rest)
          ∧ C.GetCellPopulation t' = C.GetCellPopulation t
          ∧ C.rGetCentreOfCircle t' = C.rGetCentreOfCircle t
          ∧ C.GetRadiusOfCircle t' = C.GetRadiusOfCircle t) := by
  have hsave := save_construct_data_eq C [] t
  rw [List.nil_append] at hsave
  have hload : load_construct_data C (save_construct_data C [] t ++ rest)
      = some (C.construct (C.GetCellPopulation t) (C.rGetCentreOfCircle t)
          (C.GetRadiusOfCircle t), rest) := by
    rw [hsave]
    exact load_construct_data_cons C _ _ _ _ rest
  refine ⟨hsave, hload, fun p x y r => load_construct_data_cons C p x y r rest,
    fun hcontract => ?_⟩
  obtain ⟨h1, h2, h3⟩ := hcontract (C.GetCellPopulation t) (C.rGetCentreOfCircle t)
    (C.GetRadiusOfCircle t)
  exact ⟨_, hload, h1, h2, h3⟩

/-- C21 for the class that stores its three arguments, on the boundary condition with
population number 7, centre (1, 2) and radius 3: the archive written is 7, 1, 2, 3 and
loading it gives a boundary condition with population 7, centre (1, 2) and radius 3. -/
theorem C21_serialization_round_trip_witness :
    (∀ (p : ℕ) centre radius,
        (plainClass ℕ).GetCellPopulation ((plainClass ℕ).construct p centre radius) = p
        ∧ (plainClass ℕ).rGetCentreOfCircle ((plainClass ℕ).construct p centre radius) = centre
        ∧ (plainClass ℕ).GetRadiusOfCircle ((plainClass ℕ).construct p centre radius) = radius)
    ∧ save_construct_data (plainClass ℕ) [] examplePlain
        = [.population 7, .double 1, .double 2, .double 3]
    ∧ ∃ t', load_construct_data (plainClass ℕ)
          (save_construct_data (plainClass ℕ) [] examplePlain ++ []) = some (t', [])
        ∧ (plainClass ℕ).GetCellPopulation t' = 7
        ∧ (plainClass ℕ).rGetCentreOfCircle t' = (1, 2)
        ∧ (plainClass ℕ).GetRadiusOfCircle t' = 3 :=
  ⟨fun _ _ _ => ⟨rfl, rfl, rfl⟩,
   (C21_serialization_round_trip (plainClass ℕ) examplePlain []).1,
   (C21_serialization_round_trip (plainClass ℕ) examplePlain []).2.2.2
     (fun _ _ _ => ⟨rfl, rfl, rfl⟩)⟩

end Serialization

end Farhadifar
